import Mathlib

/-!
# Verata: growable buffers, track library, playlists and playback commands

A shallow embedding of `memory.cpp`, `track_array.cpp`, `library.cpp`,
`playlist.cpp`, `tags.cpp`, `decoders/wav.cpp` and of the commands of
`player.cpp` and the queue and search functions of `main.cpp` of the Verata
player, followed by theorems about it.

Conventions of the embedding.

* `u32`, `u64`, `char` and `wchar_t` values are natural numbers; every
  operation that the C++ code performs in 32 or 64 bits is reduced modulo
  `2 ^ 32` or `2 ^ 64` at the place where the code does it.
* The storage behind a `T *elements` pointer is a total map from slot index
  to value.  Slots at or past `allocated_elements` stand for storage that the
  allocator has not handed out yet.  Allocation is taken to succeed:
  `system_reallocate` (main.cpp) commits the block in place or copies the old
  bytes into a fresh block, so the old slots keep their contents.
* Global state (`g_library`, `g_stream`, `G.queue`) is passed explicitly; code
  outside the repository (xxHash, the Win32 text conversions, the file system)
  is collected in the structure `External`, the decoders in `Decoders`.
* Text is a list of code units without its terminating NUL.
* A local variable that the code reads before it has written all of it (a
  struct filled by `fread`) is a parameter that gives its content at entry.
-/

namespace Verata

/-! ## Machine arithmetic -/

/-- Sum of two `u32` values, as computed in 32 bits. -/
def u32_add (a b : Nat) : Nat := (a + b) % 2 ^ 32

/-- Difference of two `u32` values (both below `2 ^ 32`), as computed in 32 bits. -/
def u32_sub (a b : Nat) : Nat := (a + 2 ^ 32 - b) % 2 ^ 32

/-! ## memory.cpp: `Large_Auto_Array<T>` -/

/-- The struct `Large_Auto_Array<T>` of common.h: `elements` is the storage,
`count` a `u32`, `allocated_elements` a `u64`. -/
structure Large_Auto_Array (T : Type) where
  elements : Nat → T
  count : Nat
  allocated_elements : Nat

namespace Large_Auto_Array

variable {T : Type}

/-- The live elements `elements[0 .. count)` in index order. -/
def to_list (a : Large_Auto_Array T) : List T :=
  (List.range a.count).map a.elements

/-- An array whose live elements are `xs`, with exactly that much storage;
`filler` stands in the slots past the end. -/
def of_list (filler : T) (xs : List T) : Large_Auto_Array T :=
  { elements := fun i => xs.getD i filler, count := xs.length, allocated_elements := xs.length }

/-- The function `remove`: `this->count--; elements[index] = elements[count];`. -/
def remove (a : Large_Auto_Array T) (index : Nat) : Large_Auto_Array T :=
  let count := u32_sub a.count 1
  { a with count := count, elements := Function.update a.elements index (a.elements count) }

/-- The number of elements one growth step adds:
`additional_elements ? additional_elements : 1` with
`additional_elements = 4096 / sizeof(T)`. -/
def chunk_elements (sizeof_T : Nat) : Nat :=
  let additional_elements := 4096 / sizeof_T
  if additional_elements ≠ 0 then additional_elements else 1

/-- The loop `while (allocated_elements <= count + n) allocated_elements += chunk;`
of `push_offset_n`; `count + n` is a `u32` sum, `allocated_elements` a `u64`. -/
def grow_allocated (sizeof_T count n allocated_elements : Nat) : Nat :=
  if allocated_elements ≤ u32_add count n then
    grow_allocated sizeof_T count n ((allocated_elements + chunk_elements sizeof_T) % 2 ^ 64)
  else allocated_elements
termination_by u32_add count n + 1 - allocated_elements
decreasing_by
  have h1 : u32_add count n < 2 ^ 32 := Nat.mod_lt _ (by norm_num)
  have h2 : 1 ≤ chunk_elements sizeof_T := by
    unfold chunk_elements
    simp only
    split
    · exact Nat.pos_of_ne_zero (by assumption)
    · exact Nat.le_refl 1
  have h3 : chunk_elements sizeof_T ≤ 4096 := by
    unfold chunk_elements
    simp only
    split
    · exact Nat.div_le_self _ _
    · norm_num
  omega

/-- The call `system_reallocate(elements, old_size, new_size)` of main.cpp, on
the level of slots: the block that comes back holds the old contents. -/
def system_reallocate (address : Nat → T) : Nat → T := address

/-- The function `push_offset_n`; the result is the array afterwards and the
returned offset. `sizeof_T` is `sizeof(T)` of the instantiation. -/
def push_offset_n (sizeof_T : Nat) (a : Large_Auto_Array T) (n : Nat) :
    Large_Auto_Array T × Nat :=
  let a1 : Large_Auto_Array T :=
    if u32_add a.count n > a.allocated_elements then
      { a with
        allocated_elements := grow_allocated sizeof_T a.count n a.allocated_elements,
        elements := system_reallocate a.elements }
    else a
  let ret := a1.count
  ({ a1 with count := u32_add a1.count n }, ret)

/-- The function `push_n`; the returned pointer `&elements[offset]` is given
as the offset. -/
def push_n (sizeof_T : Nat) (a : Large_Auto_Array T) (n : Nat) : Large_Auto_Array T × Nat :=
  push_offset_n sizeof_T a n

/-- The function `push`: `return push_n(1);`. -/
def push (sizeof_T : Nat) (a : Large_Auto_Array T) : Large_Auto_Array T × Nat :=
  push_n sizeof_T a 1

/-- The function `push_value`: `T *out = this->push(); *out = value;`. -/
def push_value (sizeof_T : Nat) (a : Large_Auto_Array T) (value : T) : Large_Auto_Array T :=
  let r := push sizeof_T a
  { r.1 with elements := Function.update r.1.elements r.2 value }

/-- The function `reset`: `this->count = 0;`. -/
def reset (a : Large_Auto_Array T) : Large_Auto_Array T :=
  { a with count := 0 }

/-- The call `memmove(&elements[dst], &elements[src], n * sizeof(T))`. -/
def memmove (elements : Nat → T) (dst src n : Nat) : Nat → T :=
  fun i => if dst ≤ i ∧ i < dst + n then elements (src + (i - dst)) else elements i

/-- The function `remove_range`, with the `u32` arithmetic of the source. -/
def remove_range (a : Large_Auto_Array T) (start end_ : Nat) : Large_Auto_Array T :=
  let range := u32_add (u32_sub end_ start) 1
  let n := u32_sub (u32_sub a.count end_) 1
  { a with
    elements := memmove a.elements start (u32_add end_ 1) n,
    count := u32_sub a.count range }

end Large_Auto_Array

/-! ## common.h: tracks -/

/-- The struct `Track_Info`: four `u32` offsets into the string pool. -/
structure Track_Info where
  album : Nat
  artist : Nat
  title : Nat
  relative_file_path : Nat
deriving DecidableEq, Repr

/-- The struct `Track_Array`: parallel arrays of identifiers and records, and a
`u32` count kept next to them. -/
structure Track_Array where
  ids : Large_Auto_Array Nat
  info : Large_Auto_Array Track_Info
  count : Nat

/-- The enum `Codec`. -/
inductive Codec where
  | CODEC_NONE
  | CODEC_MP3
  | CODEC_OPUS
  | CODEC_WAV
  | CODEC_FLAC
deriving DecidableEq, Repr

/-! ## Collaborators outside the repository -/

/-- What the code takes from outside: library functions and the file system.
`XXH32 bytes seed` is the xxHash function; `WideCharToMultiByte` and
`MultiByteToWideChar` give the converted text of a NUL-terminated input;
`path_exists_w` is `GetFileAttributesW(path) != INVALID_FILE_ATTRIBUTES`;
`read_tags codec path` is what the call of `read_tags` (tags.cpp), which opens
and reads the file at `path`, leaves in the zeroed `artist` and `title` buffers
of the scan, as text. -/
structure External where
  XXH32 : List Nat → Nat → Nat
  WideCharToMultiByte : List Nat → List Nat
  MultiByteToWideChar : List Nat → List Nat
  path_exists_w : List Nat → Bool
  read_tags : Codec → List Nat → List Nat × List Nat

/-! ## C strings -/

/-- The text of the C string that starts at `location` in `mem`: the bytes up
to the first NUL. `limit` is the end of the bytes in use; a string that is not
terminated before it is cut there (the C code would read on). -/
def c_string (mem : Nat → Nat) (location limit : Nat) : List Nat :=
  ((List.range (limit - location)).map (fun k => mem (location + k))).takeWhile (fun b => b ≠ 0)

/-- The text of the C string held in a local buffer. -/
def buffer_string (buffer : List Nat) : List Nat :=
  buffer.takeWhile (fun b => b ≠ 0)

/-- The functions `strrchr` and `wcsrchr`: the part of `s` that starts at the
last occurrence of `c`, or `none` (NULL) when `c` does not occur. -/
def strrchr : List Nat → Nat → Option (List Nat)
  | [], _ => none
  | x :: xs, c =>
    match strrchr xs c with
    | some r => some r
    | none => if x = c then some (x :: xs) else none

/-- The call `strcpy(&mem[dst], src)`: the text and its terminating NUL. -/
def strcpy (mem : Nat → Nat) (dst : Nat) (src : List Nat) : Nat → Nat :=
  fun i =>
    if dst ≤ i ∧ i < dst + src.length then src.getD (i - dst) 0
    else if i = dst + src.length then 0
    else mem i

/-- The function `utf16_to_utf8` of main.cpp: the bytes stored in `out` and the
returned length. When text and terminator do not fit in `max_out` bytes the
conversion fails and 0 is returned; the model then stores the bytes that fit.
With `max_out = 0` the Win32 call only reports the size it needs and stores
nothing. -/
def utf16_to_utf8 (ext : External) (input : List Nat) (max_out : Nat) : List Nat × Nat :=
  let text := ext.WideCharToMultiByte input
  if max_out = 0 then ([], text.length % 2 ^ 32)
  else if text.length + 1 ≤ max_out then (text ++ [0], text.length % 2 ^ 32)
  else (text.take max_out, 0)

/-- The function `utf8_to_utf16` of main.cpp, in the same way. -/
def utf8_to_utf16 (ext : External) (input : List Nat) (max_out : Nat) : List Nat × Nat :=
  let text := ext.MultiByteToWideChar input
  if max_out = 0 then ([], text.length % 2 ^ 32)
  else if text.length + 1 ≤ max_out then (text ++ [0], text.length % 2 ^ 32)
  else (text.take max_out, 0)

/-- The function `find_codec_from_file_name` of player.cpp: `wcsrchr(path, '.')`
followed by `wcscmp` against ".mp3", ".opus", ".ogg", ".wav" and ".flac". -/
def find_codec_from_file_name (path : List Nat) : Codec :=
  match strrchr path 46 with
  | none => Codec.CODEC_NONE
  | some extension =>
    if extension = [46, 109, 112, 51] then Codec.CODEC_MP3
    else if extension = [46, 111, 112, 117, 115] ∨ extension = [46, 111, 103, 103] then
      Codec.CODEC_OPUS
    else if extension = [46, 119, 97, 118] then Codec.CODEC_WAV
    else if extension = [46, 102, 108, 97, 99] then Codec.CODEC_FLAC
    else Codec.CODEC_NONE

/-! ## library.cpp: the library state and its readers -/

/-- The struct `Library` (the global `g_library`). Its two `u64` fields
`track_count` and `string_pool_size` are never read or written by the code and
are left out; `base_path` is the text held in the `wchar_t[512]` buffer. -/
structure Library where
  tracks : Track_Array
  string_pool : Large_Auto_Array Nat
  base_path : List Nat

/-- The function `get_library_string`: the C string at `location` in the pool.
The pool holds `count` bytes; a string that is not terminated before the end of
the pool is cut there. -/
def get_library_string (lib : Library) (location : Nat) : List Nat :=
  c_string lib.string_pool.elements location lib.string_pool.count

/-- The function `get_track_id`: `strrchr(path, '\\')`, the step past the
separator when one was found, and `XXH32(filename, strlen(filename), 0)` as a
`u32`. -/
def get_track_id (ext : External) (lib : Library) (info : Track_Info) : Nat :=
  let path := get_library_string lib info.relative_file_path
  let filename :=
    match strrchr path 92 with
    | none => path
    | some found => found.drop 1
  ext.XXH32 (filename.take filename.length) 0 % 2 ^ 32

/-- The function `lookup_track`: the record at the first index whose identifier
equals `id`, or `none` (NULL). -/
def lookup_track (lib : Library) (id : Nat) : Option Track_Info :=
  ((List.range lib.tracks.ids.count).find? (fun i => lib.tracks.ids.elements i = id)).map
    lib.tracks.info.elements

/-! ## track_array.cpp -/

namespace Track_Array

/-- The function `add_from_id`. -/
def add_from_id (lib : Library) (t : Track_Array) (id : Nat) : Track_Array :=
  match lookup_track lib id with
  | some track =>
    { ids := t.ids.push_value 4 id,
      info := t.info.push_value 16 track,
      count := u32_add t.count 1 }
  | none => t

/-- The function `add_from_info`. -/
def add_from_info (ext : External) (lib : Library) (t : Track_Array) (track : Track_Info) :
    Track_Array :=
  let id := get_track_id ext lib track
  { ids := t.ids.push_value 4 id,
    info := t.info.push_value 16 track,
    count := u32_add t.count 1 }

/-- The function `add`. -/
def add (t : Track_Array) (id : Nat) (track : Track_Info) : Track_Array :=
  { ids := t.ids.push_value 4 id,
    info := t.info.push_value 16 track,
    count := u32_add t.count 1 }

/-- The function `remove`. -/
def remove (t : Track_Array) (i : Nat) : Track_Array :=
  { ids := t.ids.remove i,
    info := t.info.remove i,
    count := u32_sub t.count 1 }

/-- The function `remove_range`. -/
def remove_range (t : Track_Array) (start end_ : Nat) : Track_Array :=
  let ids := t.ids.remove_range start end_
  { ids := ids,
    info := t.info.remove_range start end_,
    count := ids.count }

/-- The function `reset`. -/
def reset (t : Track_Array) : Track_Array :=
  { ids := t.ids.reset,
    info := t.info.reset,
    count := 0 }

end Track_Array

/-- The function `hash_ids`: the identifier array is reset, `info.count` slots
are pushed, and slot `i` receives `get_track_id(&info.elements[i])`. -/
def hash_ids (ext : External) (lib : Library) : Library :=
  let ids0 := lib.tracks.ids.reset
  let count := lib.tracks.info.count
  let pushed := ids0.push_n 4 count
  let lib1 : Library := { lib with tracks := { lib.tracks with ids := pushed.1 } }
  (List.range count).foldl
    (fun (l : Library) i =>
      { l with tracks := { l.tracks with ids := { l.tracks.ids with
          elements := Function.update l.tracks.ids.elements (pushed.2 + i)
            (get_track_id ext l (l.tracks.info.elements i)) } } })
    lib1

/-! ## library.cpp: the library file -/

/-- The four bytes of a `u32` in memory (little-endian). -/
def u32_to_bytes (v : Nat) : List Nat :=
  [v % 256, v / 256 % 256, v / 65536 % 256, v / 16777216 % 256]

/-- The `u32` held in four bytes of memory (little-endian). -/
def u32_of_bytes (bytes : List Nat) : Nat :=
  bytes.getD 0 0 % 256 + 256 * (bytes.getD 1 0 % 256) + 65536 * (bytes.getD 2 0 % 256)
    + 16777216 * (bytes.getD 3 0 % 256)

/-- The call `fread(dst, ...)` for `dst.length` bytes: the bytes that the stream
still has replace the front of `dst`, the rest of `dst` stays as it was. The
result is the destination afterwards and the rest of the stream. -/
def fread (dst stream : List Nat) : List Nat × List Nat :=
  (stream.take dst.length ++ dst.drop stream.length, stream.drop dst.length)

/-- The struct `Library_Header`. -/
structure Library_Header where
  magic : Nat
  version : Nat
  track_count : Nat
  string_pool_size : Nat
  base_path : Nat
deriving DecidableEq, Repr

/-- The 20 bytes of a `Library_Header` in memory. -/
def Library_Header.to_bytes (h : Library_Header) : List Nat :=
  u32_to_bytes h.magic ++ u32_to_bytes h.version ++ u32_to_bytes h.track_count
    ++ u32_to_bytes h.string_pool_size ++ u32_to_bytes h.base_path

/-- The `Library_Header` held in 20 bytes of memory. -/
def Library_Header.of_bytes (bytes : List Nat) : Library_Header :=
  { magic := u32_of_bytes (bytes.take 4),
    version := u32_of_bytes ((bytes.drop 4).take 4),
    track_count := u32_of_bytes ((bytes.drop 8).take 4),
    string_pool_size := u32_of_bytes ((bytes.drop 12).take 4),
    base_path := u32_of_bytes ((bytes.drop 16).take 4) }

/-- The 16 bytes of a `Track_Info` in memory. -/
def Track_Info.to_bytes (t : Track_Info) : List Nat :=
  u32_to_bytes t.album ++ u32_to_bytes t.artist ++ u32_to_bytes t.title
    ++ u32_to_bytes t.relative_file_path

/-- The `Track_Info` held in 16 bytes of memory. -/
def Track_Info.of_bytes (bytes : List Nat) : Track_Info :=
  { album := u32_of_bytes (bytes.take 4),
    artist := u32_of_bytes ((bytes.drop 4).take 4),
    title := u32_of_bytes ((bytes.drop 8).take 4),
    relative_file_path := u32_of_bytes ((bytes.drop 12).take 4) }

/-- The value `*(u32*)"TLIB"`. -/
def TLIB : Nat := u32_of_bytes [84, 76, 73, 66]

/-- The call `fread(info.elements, track_count, sizeof(Track_Info), file)`:
record `i` below `track_count` is overwritten by the bytes the stream has for it. -/
def fread_track_info (elements : Nat → Track_Info) (track_count : Nat) (stream : List Nat) :
    Nat → Track_Info :=
  fun i =>
    if i < track_count then
      Track_Info.of_bytes (fread (elements i).to_bytes (stream.drop (16 * i))).1
    else elements i

/-- The call `fread(string_pool.elements, string_pool_size, 1, file)`. -/
def fread_chars (elements : Nat → Nat) (size : Nat) (stream : List Nat) : Nat → Nat :=
  fun i => if i < size then (stream.get? i).getD (elements i) else elements i

/-- The middle of `load_library`, from the three `reset` calls to the two
`fread` calls that fill the records and the pool: `header` is the header that
was read, `stream` the rest of the file. -/
def load_library_read (header : Library_Header) (stream : List Nat) (lib : Library) :
    Library :=
  let ids := lib.tracks.ids.reset
  let info := lib.tracks.info.reset
  let string_pool := lib.string_pool.reset
  let ids := (ids.push_n 4 header.track_count).1
  let info := (info.push_n 16 header.track_count).1
  let string_pool := (string_pool.push_n 1 header.string_pool_size).1
  let info := { info with
    elements := fread_track_info info.elements header.track_count stream }
  let stream := stream.drop (16 * header.track_count)
  let string_pool := { string_pool with
    elements := fread_chars string_pool.elements header.string_pool_size stream }
  { lib with
    tracks := { ids := ids, info := info, count := header.track_count },
    string_pool := string_pool }

/-- The function `load_library`. `file` is the content of `../library.dat`, or
`none` when `fopen` fails; `header` is what the local variable `header` holds
before `fread` fills it. The result is the returned flag and the library
afterwards. -/
def load_library (ext : External) (header : Library_Header) (file : Option (List Nat))
    (lib : Library) : Bool × Library :=
  match file with
  | none => (false, lib)
  | some stream =>
    let r := fread header.to_bytes stream
    let header := Library_Header.of_bytes r.1
    let lib1 := load_library_read header r.2 lib
    let lib2 := hash_ids ext lib1
    let base := utf8_to_utf16 ext (get_library_string lib2 header.base_path) 512
    (true, { lib2 with base_path := buffer_string base.1 })

/-! ## library.cpp: scanning -/

/-- The function `add_track_to_library_from_file`. `path` is the full path of
the file. Paths are taken to fit their 512-element buffers. -/
def add_track_to_library_from_file (ext : External) (lib : Library) (path : List Nat) :
    Library :=
  let codec := find_codec_from_file_name path
  let base_length := lib.base_path.length % 2 ^ 32
  let conv := utf16_to_utf8 ext (path.drop base_length) 512
  let path_utf8 := conv.1
  let relative_name_length := conv.2
  let track_id := ext.XXH32 (path_utf8.take relative_name_length) 0 % 2 ^ 32
  let r := lib.string_pool.push_offset_n 1 (u32_add relative_name_length 1)
  let relative_file_path := r.2
  let pool : Large_Auto_Array Nat :=
    { r.1 with elements := strcpy r.1.elements relative_file_path (buffer_string path_utf8) }
  let tags := ext.read_tags codec path
  let tags_artist := tags.1
  let tags_title := tags.2
  let titled : Large_Auto_Array Nat × Nat × Nat :=
    if tags_title = [] then
      let file_name :=
        match strrchr path 92 with
        | some found => found.drop 1
        | none =>
          match strrchr path 47 with
          | some found => found.drop 1
          | none => path
      let conv := utf16_to_utf8 ext file_name 512
      let path_utf8 := conv.1
      let file_name_length := conv.2
      let r := pool.push_offset_n 1 (u32_add file_name_length 1)
      ({ r.1 with elements := strcpy r.1.elements r.2 (buffer_string path_utf8) }, r.2, 0)
    else
      let title_length := tags_title.length % 2 ^ 32
      let r := pool.push_offset_n 1 (u32_add title_length 1)
      ({ r.1 with elements := strcpy r.1.elements r.2 tags_title }, r.2, 0)
  let pool := titled.1
  let title := titled.2.1
  let artisted : Large_Auto_Array Nat × Nat :=
    if tags_artist ≠ [] then
      let artist_length := tags_artist.length % 2 ^ 32
      let r := pool.push_offset_n 1 (u32_add artist_length 1)
      ({ r.1 with elements := strcpy r.1.elements r.2 tags_artist }, r.2)
    else (pool, titled.2.2)
  let track_info : Track_Info :=
    { album := 0, artist := artisted.2, title := title, relative_file_path := relative_file_path }
  { lib with string_pool := artisted.1, tracks := lib.tracks.add track_id track_info }

/-- What `FindFirstFileW` and `FindNextFileW` report for one directory entry
(`WIN32_FIND_DATAW`, as far as the scan reads it): a file name, or a directory
name together with what enumerating `<directory>\*` gives: `none` for
`INVALID_HANDLE_VALUE`, otherwise the entries in the order they are delivered. -/
inductive Find_Data where
  | file (cFileName : List Nat)
  | directory (cFileName : List Nat) (found : Option (List Find_Data))

mutual
/-- The loop `while (FindNextFileW(...))` of `scan_folder` over the entries that
`FindNextFileW` delivers; `ret` is the running count. -/
def scan_folder_loop (ext : External) :
    List Find_Data → Library → List Nat → Nat → Library × Nat
  | [], lib, _, ret => (lib, ret)
  | find_data :: rest, lib, path_buffer, ret =>
    let r := scan_folder_entry ext find_data lib path_buffer ret
    scan_folder_loop ext rest r.1 path_buffer r.2
/-- One pass through the body of that loop. For a directory the recursive call
of `scan_folder` is inlined: its first entry, the one `FindFirstFileW` delivers,
is never examined because the loop starts with `FindNextFileW`. -/
def scan_folder_entry (ext : External) :
    Find_Data → Library → List Nat → Nat → Library × Nat
  | Find_Data.file cFileName, lib, path_buffer, ret =>
    if cFileName = [46, 46] ∨ cFileName = [46] then (lib, ret)
    else if find_codec_from_file_name cFileName ≠ Codec.CODEC_NONE then
      (add_track_to_library_from_file ext lib (path_buffer ++ cFileName), u32_add ret 1)
    else (lib, ret)
  | Find_Data.directory cFileName (some (_ :: entries)), lib, path_buffer, ret =>
    if cFileName = [46, 46] ∨ cFileName = [46] then (lib, ret)
    else
      let r := scan_folder_loop ext entries lib (path_buffer ++ cFileName ++ [92]) 0
      (r.1, u32_add ret r.2)
  | Find_Data.directory cFileName _, lib, _, ret =>
    if cFileName = [46, 46] ∨ cFileName = [46] then (lib, ret)
    else (lib, u32_add ret 0)
end

/-- The function `scan_folder` at the root: `found` is what enumerating
`<path_buffer>*` gives. -/
def scan_folder (ext : External) (found : Option (List Find_Data)) (lib : Library)
    (path_buffer : List Nat) : Library × Nat :=
  match found with
  | some (_ :: entries) => scan_folder_loop ext entries lib path_buffer 0
  | _ => (lib, 0)

/-- The bytes `bytes` stored at `mem[dst ..]`. -/
def write_bytes (mem : Nat → Nat) (dst : Nat) (bytes : List Nat) : Nat → Nat :=
  fun i => if dst ≤ i ∧ i < dst + bytes.length then bytes.getD (i - dst) 0 else mem i

/-- The start of `update_library`: pool and tracks are reset and the empty
string is put at offset 0 of the pool. -/
def update_library_reset (lib : Library) : Library :=
  let string_pool := lib.string_pool.reset
  let tracks := lib.tracks.reset
  let r := string_pool.push 1
  let string_pool : Large_Auto_Array Nat :=
    { r.1 with elements := Function.update r.1.elements 0 0 }
  { lib with string_pool := string_pool, tracks := tracks }

/-- The block `if (track_count) { ... }` of `update_library`: the base path is
pushed on the pool, header, records and pool are written, and the identifiers
are hashed. The result is the library afterwards and the bytes written to
`../library.dat` (`fopen` is taken to succeed). -/
def update_library_write (ext : External) (source_path : List Nat) (track_count : Nat)
    (lib : Library) : Library × List Nat :=
  let base_path_length := source_path.length % 2 ^ 32
  let p := lib.string_pool.push_offset_n 1 (u32_add base_path_length 1)
  let conv := utf16_to_utf8 ext source_path base_path_length
  let pool : Large_Auto_Array Nat :=
    { p.1 with elements := write_bytes p.1.elements p.2 conv.1 }
  let header : Library_Header :=
    { magic := TLIB, version := 1, track_count := track_count,
      string_pool_size := p.1.count, base_path := p.2 }
  let lib : Library := { lib with string_pool := pool }
  let output := header.to_bytes
    ++ (List.range track_count).flatMap (fun i => (lib.tracks.info.elements i).to_bytes)
    ++ (List.range pool.count).map pool.elements
  (hash_ids ext lib, output)

/-- The function `update_library`. `source_path` is `none` for NULL; `found` is
what enumerating the source folder gives. The result is the returned flag, the
library afterwards and the bytes written to `../library.dat` when the file is
written. The call `memset(base_path, sizeof(base_path), 0)` fills zero bytes and
changes nothing. -/
def update_library (ext : External) (found : Option (List Find_Data))
    (source_path : Option (List Nat)) (lib : Library) :
    Bool × Library × Option (List Nat) :=
  let lib := update_library_reset lib
  let source_path := match source_path with
    | none => lib.base_path
    | some p => p
  if ext.path_exists_w source_path = false then (false, lib, none)
  else
    let lib : Library := { lib with base_path := source_path.take 512 }
    let scanned := scan_folder ext found lib source_path
    if scanned.2 ≠ 0 then
      let written := update_library_write ext source_path scanned.2 scanned.1
      (true, written.1, some written.2)
    else (true, scanned.1, none)

/-! ## playlist.cpp -/

/-- The struct `Playlist`; `name` is the text held in `char name[64]`. -/
structure Playlist where
  track_ids : Large_Auto_Array Nat
  tracks : Track_Array
  name : List Nat

/-- The struct `Playlist_Header`; `name` is the content of its 64 bytes. -/
structure Playlist_Header where
  magic : Nat
  version : Nat
  track_count : Nat
  name : List Nat

/-- The value `*(u32*)"PLYL"`. -/
def PLYL : Nat := u32_of_bytes [80, 76, 89, 76]

/-- The bytes of a `Playlist_Header` in memory. -/
def Playlist_Header.to_bytes (h : Playlist_Header) : List Nat :=
  u32_to_bytes h.magic ++ u32_to_bytes h.version ++ u32_to_bytes h.track_count ++ h.name

/-- The `Playlist_Header` held in 76 bytes of memory. -/
def Playlist_Header.of_bytes (bytes : List Nat) : Playlist_Header :=
  { magic := u32_of_bytes (bytes.take 4),
    version := u32_of_bytes ((bytes.drop 4).take 4),
    track_count := u32_of_bytes ((bytes.drop 8).take 4),
    name := (bytes.drop 12).take 64 }

namespace Playlist

/-- The function `save_to_file`, as the bytes written when `fopen` succeeds.
`header_name` is what the 64 bytes of the local `header.name` hold before
`strcpy` writes the name and its terminator over their front. -/
def save_to_file (p : Playlist) (header_name : List Nat) : List Nat :=
  let header : Playlist_Header :=
    { magic := PLYL, version := 1, track_count := p.track_ids.count,
      name := p.name ++ [0] ++ header_name.drop (p.name.length + 1) }
  header.to_bytes
    ++ (List.range header.track_count).flatMap (fun i => u32_to_bytes (p.track_ids.elements i))

/-- The function `update_tracks`, as the playlist afterwards; the call of
`save_to_file` at its end changes no field. -/
def update_tracks (ext : External) (lib : Library) (p : Playlist) : Playlist :=
  let count := p.track_ids.count
  let tracks := p.tracks.reset
  let tracks := (List.range count).foldl
    (fun (t : Track_Array) i =>
      match lookup_track lib (p.track_ids.elements i) with
      | some track => t.add_from_info ext lib track
      | none => t)
    tracks
  { p with tracks := tracks }

/-- The function `add_track`. -/
def add_track (ext : External) (lib : Library) (p : Playlist) (track : Track_Info) : Playlist :=
  let id := get_track_id ext lib track
  { p with track_ids := p.track_ids.push_value 4 id, tracks := p.tracks.add_from_id lib id }

/-- The function `remove_track_id`: the first slot of the identifier list that
holds `id` is removed. -/
def remove_track_id (p : Playlist) (id : Nat) : Playlist :=
  match (List.range p.track_ids.count).find? (fun i => p.track_ids.elements i = id) with
  | some i => { p with track_ids := p.track_ids.remove i }
  | none => p

/-- The function `remove`, as the playlist afterwards. -/
def remove (p : Playlist) (index : Nat) : Playlist :=
  let id := p.tracks.ids.elements index
  let p1 : Playlist := { p with tracks := p.tracks.remove index }
  remove_track_id p1 id

/-- The function `remove_range`, as the playlist afterwards, for `end_` below
`2 ^ 32 - 1` (with `end_ = UINT32_MAX` the loop `i <= end` does not end). -/
def remove_range (p : Playlist) (start end_ : Nat) : Playlist :=
  let p1 := (List.range (end_ + 1 - start)).foldl
    (fun (q : Playlist) k => remove_track_id q (q.tracks.ids.elements (start + k))) p
  { p1 with tracks := p1.tracks.remove_range start end_ }

end Playlist

/-- The call `fread(ids, sizeof(u32), track_count, in)` into the slots
`ids[0 .. track_count)`, which start at slot `offset` of `elements`. -/
def fread_u32 (elements : Nat → Nat) (offset track_count : Nat) (stream : List Nat) :
    Nat → Nat :=
  fun i =>
    if offset ≤ i ∧ i < offset + track_count then
      u32_of_bytes (fread (u32_to_bytes (elements i)) (stream.drop (4 * (i - offset)))).1
    else elements i

/-- One pass through the loop body of `load_playlists` for the directory entry
`cFileName`; `content` is the file content, or `none` when `fopen` fails.
`header` is what the local `header` holds before `fread`. -/
def load_playlists_entry (ext : External) (lib : Library) (sizeof_Playlist : Nat)
    (header : Playlist_Header) (out : Large_Auto_Array Playlist)
    (entry : List Nat × Option (List Nat)) : Large_Auto_Array Playlist :=
  if entry.1 = [46, 46] ∨ entry.1 = [46] then out
  else
    match entry.2 with
    | none => out
    | some stream =>
      let pushed := out.push sizeof_Playlist
      let out := pushed.1
      let playlist := out.elements pushed.2
      let r := fread header.to_bytes stream
      let header := Playlist_Header.of_bytes r.1
      if header.magic ≠ PLYL then out
      else
        let playlist : Playlist := { playlist with name := buffer_string header.name }
        let ids := playlist.track_ids.push_n 4 header.track_count
        let track_ids : Large_Auto_Array Nat :=
          { ids.1 with elements := fread_u32 ids.1.elements ids.2 header.track_count r.2 }
        let playlist : Playlist := { playlist with track_ids := track_ids }
        let playlist := playlist.update_tracks ext lib
        { out with elements := Function.update out.elements pushed.2 playlist }

/-- The function `load_playlists`. `found` is what enumerating `..\Playlists\*`
gives: `none` for `INVALID_HANDLE_VALUE`, otherwise the entries in the order they
are delivered, each with its file content. The first entry, delivered by
`FindFirstFile`, is never examined. -/
def load_playlists (ext : External) (lib : Library) (sizeof_Playlist : Nat)
    (header : Playlist_Header) (found : Option (List (List Nat × Option (List Nat))))
    (out : Large_Auto_Array Playlist) : Large_Auto_Array Playlist :=
  match found with
  | some (_ :: entries) =>
    entries.foldl (load_playlists_entry ext lib sizeof_Playlist header) out
  | _ => out

/-! ## player.cpp: the fill routine -/

/-- Modelled from the spec: the enum `Player_State`, whose declaration is in a
header that is not among the sources. The spec names the three states STOPPED,
PLAYING and PAUSED; player.cpp uses `PLAYER_STATE_PLAYING` and
`PLAYER_STATE_PAUSED` by name. -/
inductive Player_State where
  | PLAYER_STATE_STOPPED
  | PLAYER_STATE_PLAYING
  | PLAYER_STATE_PAUSED
deriving DecidableEq, Repr

/-- The fields of `g_stream` that the fill routine reads. -/
structure Stream where
  state : Player_State
  file_loaded : Bool
  total_samples : Nat
  sample_rate : Nat

/-- The decoder behind `g_decoder`: `decode_func num_input_frames` gives the
returned flag and the value that `get_sample_func()` returns afterwards. -/
structure Decoder where
  decode_func : Int → Bool × Nat

/-- The return value of `stream_to_buffer`. `ceil_frames` is the value that the
floating-point expression `ceil(num_frames / sample_rate_ratio)` has after its
conversion to `int`. -/
def stream_to_buffer (s : Stream) (d : Decoder) (output_sample_rate : Nat)
    (num_frames ceil_frames : Int) : Bool :=
  if s.file_loaded = false ∨ s.state ≠ Player_State.PLAYER_STATE_PLAYING then false
  else
    let needs_sample_rate_conversion := s.sample_rate ≠ output_sample_rate
    let num_input_frames := if needs_sample_rate_conversion then ceil_frames else num_frames
    let decoded := d.decode_func num_input_frames
    if decoded.1 = false then true
    else if decoded.2 ≥ s.total_samples then true
    else false

/-! ## Predicates used in the statements -/

/-- The three lengths of a `Track_Array` agree. -/
def Track_Array.aligned (t : Track_Array) : Prop :=
  t.ids.count = t.count ∧ t.info.count = t.count

/-- The file name component of a relative path, in the words of the
specification: the text after the last path separator (the backslash that the
scan puts between folder and file names), or the whole path when there is none. -/
def file_name_component (path : List Nat) : List Nat :=
  (path.reverse.takeWhile (fun c => c ≠ 92)).reverse

/-- The bare file name of a path, in the words of the specification: the file
name component without its extension, that is the text before its last `.`,
or the whole file name when it has no `.`. -/
def bare_file_name (path : List Nat) : List Nat :=
  let name := file_name_component path
  match strrchr name 46 with
  | some extension => name.take (name.length - extension.length)
  | none => name

/-! ## Concrete inputs used by the instances -/

/-- A stand-in for the collaborators: the hash adds the bytes to the seed, the
text conversions keep ASCII text, only `C:\` exists, and no file has tags. -/
def example_ext : External :=
  { XXH32 := fun bytes seed => bytes.sum + seed,
    WideCharToMultiByte := fun text => text,
    MultiByteToWideChar := fun text => text,
    path_exists_w := fun path => path == [67, 58, 92],
    read_tags := fun _ _ => ([], []) }

/-- The string pool `"" "d\a.mp3" "b.wav"` with offsets 0, 1 and 9. -/
def example_pool : Large_Auto_Array Nat :=
  Large_Auto_Array.of_list 0
    [0, 100, 92, 97, 46, 109, 112, 51, 0, 98, 46, 119, 97, 118, 0]

/-- Two tracks with the relative paths `d\a.mp3` and `b.wav`. -/
def example_tracks : Track_Array :=
  { ids := Large_Auto_Array.of_list 0 [415, 478],
    info := Large_Auto_Array.of_list ⟨0, 0, 0, 0⟩ [⟨0, 0, 0, 1⟩, ⟨0, 0, 0, 9⟩],
    count := 2 }

/-- A library of these two tracks under `C:\`. -/
def example_lib : Library :=
  { tracks := example_tracks, string_pool := example_pool, base_path := [67, 58, 92] }

/-- What enumerating `C:\*` delivers in the example: the entry `.` first, then
the file `a.mp3`. -/
def example_found : Option (List Find_Data) :=
  some [Find_Data.file [46], Find_Data.file [97, 46, 109, 112, 51]]

/-- The bytes of `library.dat` after scanning `example_found` under `C:\`:
the header `TLIB`, 1, 1, 17, 13, the record (0, 0, 7, 1) and the 17 pool bytes
`"" "a.mp3" "a.mp3" "C:\"`. -/
def example_output : List Nat :=
  [84, 76, 73, 66, 1, 0, 0, 0, 1, 0, 0, 0, 17, 0, 0, 0, 13, 0, 0, 0,
    0, 0, 0, 0, 0, 0, 0, 0, 7, 0, 0, 0, 1, 0, 0, 0,
    0, 97, 46, 109, 112, 51, 0, 97, 46, 109, 112, 51, 0, 67, 58, 92, 0]

/-- A file that is not a library file: `example_output` with the magic `XLIB`
in place of `TLIB`. -/
def example_foreign : List Nat := 88 :: example_output.drop 1

/-- A playlist named `m` with the identifiers 478, 7 and 415, of which 7 is
not in `example_lib`; its resolved collection is not up to date. -/
def example_playlist : Playlist :=
  { track_ids := Large_Auto_Array.of_list 0 [478, 7, 415],
    tracks := example_tracks,
    name := [109] }

/-- The full path `C:\a.mp3`. -/
def example_path : List Nat := [67, 58, 92, 97, 46, 109, 112, 51]

/-- A playlist of four tracks, all resolved: the identifier list and the
resolved collection are both 11, 22, 33, 44. -/
def example_ordered_playlist : Playlist :=
  { track_ids := Large_Auto_Array.of_list 0 [11, 22, 33, 44],
    tracks :=
      { ids := Large_Auto_Array.of_list 0 [11, 22, 33, 44],
        info := Large_Auto_Array.of_list ⟨0, 0, 0, 0⟩
          [⟨0, 0, 0, 1⟩, ⟨0, 0, 0, 2⟩, ⟨0, 0, 0, 3⟩, ⟨0, 0, 0, 4⟩],
        count := 4 },
    name := [109] }

/-- A `Playlist` in zeroed memory, as `VirtualAlloc` hands it out. -/
def zero_playlist : Playlist :=
  { track_ids := Large_Auto_Array.of_list 0 [],
    tracks :=
      { ids := Large_Auto_Array.of_list 0 [],
        info := Large_Auto_Array.of_list ⟨0, 0, 0, 0⟩ [],
        count := 0 },
    name := [] }

/-- The content of a file that is not a playlist file: 80 times the letter `h`. -/
def example_text_file : List Nat := List.replicate 80 104

/-- What enumerating `..\Playlists\*` delivers when the folder holds the one
file `n` with that content: the entries `.` and `..` and the file. -/
def example_playlist_folder : Option (List (List Nat × Option (List Nat))) :=
  some [([46], none), ([46, 46], none), ([110], some example_text_file)]

/-- The four fields of a record are `u32` values. -/
def Track_Info.wf (t : Track_Info) : Prop :=
  t.album < 2 ^ 32 ∧ t.artist < 2 ^ 32 ∧ t.title < 2 ^ 32 ∧ t.relative_file_path < 2 ^ 32

/-- The state of the library between two steps of a scan: the track collection
is aligned and every count and record field is a `u32` value. -/
def Library.scan_inv (lib : Library) : Prop :=
  lib.tracks.aligned ∧ lib.tracks.count < 2 ^ 32 ∧ lib.string_pool.count < 2 ^ 32
    ∧ ∀ i, i < lib.tracks.info.count → (lib.tracks.info.elements i).wf

/-! ## player.cpp: the commands -/

/-- What a command does that the audio thread or a decoder can observe, in
program order: taking and releasing `g_stream.mutex`, releasing the interrupt
semaphore (`reset_audio_clock`), the calls through `g_decoder` with the codec
whose functions it holds, and the warning shown to the user. -/
inductive Player_Event where
  | lock_stream
  | unlock_stream
  | reset_audio_clock
  | close_func (codec : Codec)
  | open_func (codec : Codec) (path : List Nat)
  | seek_func (codec : Codec) (sample : Nat)
  | user_warning
deriving DecidableEq, Repr

/-- The decoders behind `get_decoder_functions`: what `open_func` of a codec
returns for a path, and the total sample count and sample rate it leaves in the
format. -/
structure Decoders where
  open_func : Codec → List Nat → Bool × Nat × Nat

/-- The globals `g_stream` and `g_decoder` as far as the commands use them.
`decoder` is the codec whose functions `g_decoder` holds (`CODEC_NONE` while it
holds none); `events` is what has happened so far. -/
structure Player where
  stream : Stream
  codec : Codec
  decoder : Codec
  events : List Player_Event

/-- The function `get_decoder_functions`. -/
def get_decoder_functions (p : Player) (codec : Codec) : Bool × Player :=
  match codec with
  | Codec.CODEC_FLAC => (true, { p with decoder := Codec.CODEC_FLAC })
  | Codec.CODEC_MP3 => (true, { p with decoder := Codec.CODEC_MP3 })
  | Codec.CODEC_OPUS => (true, { p with decoder := Codec.CODEC_OPUS })
  | Codec.CODEC_WAV => (true, { p with decoder := Codec.CODEC_WAV })
  | Codec.CODEC_NONE => (false, p)

/-- One more entry in the record of events. -/
def Player.emit (p : Player) (e : Player_Event) : Player :=
  { p with events := p.events ++ [e] }

/-- The function `close_stream_source`. -/
def close_stream_source (p : Player) : Player :=
  let p := p.emit (Player_Event.close_func p.decoder)
  { p with stream := { p.stream with file_loaded := false } }

/-- The function `open_track`: the returned flag and the player afterwards. -/
def open_track (dec : Decoders) (p : Player) (path : List Nat) : Bool × Player :=
  let p := p.emit Player_Event.lock_stream
  let p := if p.stream.file_loaded = true then close_stream_source p else p
  let codec := find_codec_from_file_name path
  let p := { p with codec := codec }
  let r := get_decoder_functions p codec
  if r.1 = false then
    (false, (r.2.emit Player_Event.unlock_stream).emit Player_Event.user_warning)
  else
    let p := r.2
    let opened := dec.open_func p.decoder path
    let p := p.emit (Player_Event.open_func p.decoder path)
    let p := { p with
      stream := { p.stream with total_samples := opened.2.1, sample_rate := opened.2.2 } }
    if opened.1 = false then (false, p.emit Player_Event.unlock_stream)
    else
      let p := { p with stream := { p.stream with file_loaded := true } }
      let p := { p with
        stream := { p.stream with state := Player_State.PLAYER_STATE_PLAYING } }
      let p := p.emit Player_Event.unlock_stream
      (true, p.emit Player_Event.reset_audio_clock)

/-- The function `pause_playback`. -/
def pause_playback (p : Player) : Player :=
  let p := { p with stream := { p.stream with state := Player_State.PLAYER_STATE_PAUSED } }
  p.emit Player_Event.reset_audio_clock

/-- The function `resume_playback`. -/
def resume_playback (p : Player) : Player :=
  let p := { p with stream := { p.stream with state := Player_State.PLAYER_STATE_PLAYING } }
  p.emit Player_Event.reset_audio_clock

/-- The function `toggle_playback`: the returned former state and the player
afterwards. -/
def toggle_playback (p : Player) : Player_State × Player :=
  let ret := p.stream.state
  if p.stream.state = Player_State.PLAYER_STATE_PLAYING then
    let p := { p with stream := { p.stream with state := Player_State.PLAYER_STATE_PAUSED } }
    (ret, pause_playback p)
  else if p.stream.state = Player_State.PLAYER_STATE_PAUSED then
    let p := { p with stream := { p.stream with state := Player_State.PLAYER_STATE_PLAYING } }
    (ret, resume_playback p)
  else (ret, p)

/-- The function `seek_playback_to_seconds`. `sample` is the value of the
floating-point expression `(u64)(sample_rate * seconds) * 2`. -/
def seek_playback_to_seconds (p : Player) (sample : Nat) : Player :=
  let p := p.emit Player_Event.lock_stream
  if p.stream.file_loaded = false then p
  else
    let p := p.emit (Player_Event.seek_func p.decoder sample)
    let p := p.emit Player_Event.reset_audio_clock
    p.emit Player_Event.unlock_stream

/-- The commands of the transport. -/
inductive Command where
  | open (path : List Nat)
  | pause
  | resume
  | toggle

/-- One command applied to the player. -/
def Command.apply (dec : Decoders) (p : Player) : Command → Player
  | Command.open path => (open_track dec p path).2
  | Command.pause => pause_playback p
  | Command.resume => resume_playback p
  | Command.toggle => (toggle_playback p).2

/-- The player after a sequence of commands. -/
def run_commands (dec : Decoders) (p : Player) (commands : List Command) : Player :=
  commands.foldl (Command.apply dec) p

/-- The initial state of the engine in the words of the specification:
STOPPED, no file loaded; `g_decoder` holds no functions. -/
def initial_player : Player :=
  { stream :=
      { state := Player_State.PLAYER_STATE_STOPPED, file_loaded := false,
        total_samples := 0, sample_rate := 0 },
    codec := Codec.CODEC_NONE,
    decoder := Codec.CODEC_NONE,
    events := [] }

/-- The mutex discipline in the words of the specification, checked along a
record of events with the mutex held `depth` times at its start: the mutex is
not held at any `reset_audio_clock` and not held at the end. A Windows mutex
counts the acquisitions of its owner. -/
def mutex_discipline : Nat → List Player_Event → Bool
  | depth, [] => depth == 0
  | depth, Player_Event.lock_stream :: rest => mutex_discipline (depth + 1) rest
  | depth, Player_Event.unlock_stream :: rest => mutex_discipline (depth - 1) rest
  | depth, Player_Event.reset_audio_clock :: rest => depth == 0 && mutex_discipline depth rest
  | depth, _ :: rest => mutex_discipline depth rest

/-- Decoders whose `open_func` succeeds for every path except the empty one. -/
def example_decoders : Decoders :=
  { open_func := fun _ path => (path != [], 1000, 44100) }

/-- The function `set_playback_volume`: the two channel volumes handed to
`SetAllVolumes`, or `none` when the assertion stops the program. The `float`
argument is only compared with 1 and copied, so it is taken as a rational
number; `debug` says whether `DEBUG_ASSERT` is `assert` (no `NDEBUG`). -/
def set_playback_volume (debug : Bool) (volume : ℚ) : Option (List ℚ) :=
  if debug = true ∧ ¬ volume ≤ 1 then none
  else
    let volumes := [volume, volume]
    some volumes

/-- Clamping to the interval [0, 1], in the words of the specification. -/
def clamp_volume (v : ℚ) : ℚ := max 0 (min 1 v)

/-! ## main.cpp: search -/

/-- The C library function `tolower` in the "C" locale, on character codes. -/
def tolower (c : Nat) : Nat := if 65 ≤ c ∧ c ≤ 90 then c + 32 else c

/-- The loop of `string_contains` over what is left of the haystack, with the
current `needle_pos`. The byte `needle[needle_pos]` past the text of the needle
is its terminating NUL. -/
def string_contains_loop (needle : List Nat) : List Nat → Nat → Bool
  | [], _ => false
  | c :: haystack, needle_pos =>
    let needle_pos :=
      if tolower c = tolower (needle.getD needle_pos 0) then needle_pos + 1 else 0
    if needle.getD needle_pos 0 = 0 then true
    else string_contains_loop needle haystack needle_pos

/-- The function `string_contains` of main.cpp on the texts of two C strings. -/
def string_contains (haystack needle : List Nat) : Bool :=
  string_contains_loop needle haystack 0

/-- The enumerators `SEARCH_TAG_ARTIST`, `SEARCH_TAG_TITLE`, `SEARCH_TAG_PATH`. -/
def SEARCH_TAG_ARTIST : Nat := 1

/-- See `SEARCH_TAG_ARTIST`. -/
def SEARCH_TAG_TITLE : Nat := 2

/-- See `SEARCH_TAG_ARTIST`. -/
def SEARCH_TAG_PATH : Nat := 4

/-- The function `track_meets_filter`. -/
def track_meets_filter (lib : Library) (track : Track_Info) (query : List Nat)
    (tag_mask : Nat) : Bool :=
  if tag_mask &&& SEARCH_TAG_PATH ≠ 0
      ∧ string_contains (get_library_string lib track.relative_file_path) query = true then
    true
  else if tag_mask &&& SEARCH_TAG_TITLE ≠ 0
      ∧ string_contains (get_library_string lib track.title) query = true then
    true
  else if tag_mask &&& SEARCH_TAG_ARTIST ≠ 0
      ∧ string_contains (get_library_string lib track.artist) query = true then
    true
  else false

/-- The function `filter_tracks`, as the collection `out` afterwards. -/
def filter_tracks (lib : Library) (src : Track_Array) (query : List Nat) (tag_mask : Nat)
    (out : Track_Array) : Track_Array :=
  (List.range src.count).foldl
    (fun (out : Track_Array) i =>
      if track_meets_filter lib (src.info.elements i) query tag_mask = true then
        out.add (src.ids.elements i) (src.info.elements i)
      else out)
    out

/-- A needle occurs in a haystack as a contiguous substring under
case-insensitive comparison, in the words of the claim. -/
def occurs_ignoring_case (haystack needle : List Nat) : Prop :=
  (needle.map tolower) <:+: (haystack.map tolower)

/-- A library with the one track `x.mp3`, titled `Hello`: the pool is
`"" "Hello" "x.mp3"`. -/
def example_search_lib : Library :=
  { tracks :=
      { ids := Large_Auto_Array.of_list 0 [438],
        info := Large_Auto_Array.of_list ⟨0, 0, 0, 0⟩ [⟨0, 0, 1, 7⟩],
        count := 1 },
    string_pool := Large_Auto_Array.of_list 0
      [0, 72, 101, 108, 108, 111, 0, 120, 46, 109, 112, 51, 0],
    base_path := [67, 58, 92] }

/-- An empty track collection. -/
def empty_tracks : Track_Array :=
  { ids := Large_Auto_Array.of_list 0 [],
    info := Large_Auto_Array.of_list ⟨0, 0, 0, 0⟩ [],
    count := 0 }

/-! ## main.cpp: the queue -/

/-- The function `shuffle_queue` on the queue `G.queue`, as the queue
afterwards. `rand k` is the value that the call of `rand()` in round `k` of the
loop returns. The assignment to `G.queue_next_position` is left out. -/
def shuffle_queue (queue : Track_Array) (min_index : Nat) (rand : Nat → Nat) : Track_Array :=
  let count := queue.info.count
  (List.range (count - min_index)).foldl
    (fun (q : Track_Array) k =>
      let i := min_index + k
      let src := rand k % count
      let swapper := q.info.elements i
      let id_swapper := q.ids.elements i
      let ids := Function.update q.ids.elements i (q.ids.elements src)
      let ids := Function.update ids src id_swapper
      let info := Function.update q.info.elements i (q.info.elements src)
      let info := Function.update info src swapper
      { q with
        ids := { q.ids with elements := ids },
        info := { q.info with elements := info } })
    queue

/-- The function `get_track_index_in_queue`: the first index of the queue that
holds `id`, or `none` for -1. -/
def get_track_index_in_queue (queue : Track_Array) (id : Nat) : Option Nat :=
  (List.range queue.ids.count).find? (fun i => id = queue.ids.elements i)

/-- The function `queue_tracks`: the returned index of the first queued track
and the queue afterwards. `shuffle_enabled` is `G.shuffle_enabled`; the sums of
the loop bounds are taken not to wrap. -/
def queue_tracks (queue : Track_Array) (shuffle_enabled : Bool) (rand : Nat → Nat)
    (tracks : Track_Array) (array_offset array_count : Nat) : Nat × Track_Array :=
  let count := min tracks.count array_count
  let shuffle_start := queue.info.count
  let queue := (List.range count).foldl
    (fun (q : Track_Array) k =>
      let i := array_offset + k
      match get_track_index_in_queue q (tracks.ids.elements i) with
      | some _ => q
      | none => q.add (tracks.ids.elements i) (tracks.info.elements i))
    queue
  let queue := if shuffle_enabled = true then shuffle_queue queue shuffle_start rand else queue
  (shuffle_start, queue)

/-- A queue that holds the tracks 11 and 22 and has room for eight. -/
def example_queue : Track_Array :=
  { ids := { elements := fun i => [11, 22].getD i 0, count := 2, allocated_elements := 8 },
    info :=
      { elements := fun i => [(⟨0, 0, 0, 1⟩ : Track_Info), ⟨0, 0, 0, 2⟩].getD i ⟨0, 0, 0, 0⟩,
        count := 2, allocated_elements := 8 },
    count := 2 }

/-- The relation of the claim between a playlist and the library: the resolved
collection lists, in order, exactly the identifiers of the identifier list that
resolve. -/
def cache_consistent (lib : Library) (p : Playlist) : Prop :=
  p.tracks.ids.to_list = p.track_ids.to_list.filter (fun id => (lookup_track lib id).isSome)

/-- A library of the four tracks `a.mp3`, `b.wav`, `c.ogg` and `e.mp3`, with the
identifiers that `example_ext` gives them. -/
def example_lib4 : Library :=
  { tracks :=
      { ids := Large_Auto_Array.of_list 0 [415, 478, 462, 419],
        info := Large_Auto_Array.of_list ⟨0, 0, 0, 0⟩
          [⟨0, 0, 0, 1⟩, ⟨0, 0, 0, 7⟩, ⟨0, 0, 0, 13⟩, ⟨0, 0, 0, 19⟩],
        count := 4 },
    string_pool := Large_Auto_Array.of_list 0
      [0, 97, 46, 109, 112, 51, 0, 98, 46, 119, 97, 118, 0, 99, 46, 111, 103, 103, 0,
        101, 46, 109, 112, 51, 0],
    base_path := [67, 58, 92] }

/-- A playlist of the four tracks of `example_lib4`, with its resolved
collection up to date. -/
def example_cached_playlist : Playlist :=
  { track_ids := Large_Auto_Array.of_list 0 [415, 478, 462, 419],
    tracks := example_lib4.tracks,
    name := [109] }

/-- A playlist of three tracks of `example_lib4` followed by the identifier 7,
which does not resolve; its resolved collection is up to date. -/
def example_dangling_playlist : Playlist :=
  { track_ids := Large_Auto_Array.of_list 0 [415, 478, 462, 7],
    tracks :=
      { ids := Large_Auto_Array.of_list 0 [415, 478, 462],
        info := Large_Auto_Array.of_list ⟨0, 0, 0, 0⟩
          [⟨0, 0, 0, 1⟩, ⟨0, 0, 0, 7⟩, ⟨0, 0, 0, 13⟩],
        count := 3 },
    name := [109] }

/-! ## tags.cpp -/

/-- The function `synch_safe_integer`. -/
def synch_safe_integer (i : Nat) : Nat :=
  let x := i &&& 0x000000ff
  let a := (i &&& 0x0000ff00) >>> 1
  let b := (i &&& 0x00ff0000) >>> 2
  let c := (i &&& 0xff000000) >>> 3
  x ||| a ||| b ||| c

/-- The function `reverse_endian`. -/
def reverse_endian (i : Nat) : Nat := u32_of_bytes (u32_to_bytes i).reverse

/-- The `n` bytes of memory from `pos` on. -/
def read_bytes (mem : Nat → Nat) (pos n : Nat) : List Nat :=
  (List.range n).map (fun k => mem (pos + k))

/-- The call `memcpy(dst, src, n)` for the `n` bytes `src`, as the destination
buffer afterwards. -/
def memcpy (dst src : List Nat) : List Nat := src ++ dst.drop src.length

/-- The identifier `TIT2`. -/
def TIT2 : List Nat := [84, 73, 84, 50]

/-- The identifier `TPE1`. -/
def TPE1 : List Nat := [84, 80, 69, 49]

/-- The locals `frame_data` (as an offset into the tag), `frame.size` and
`association_found` of the frame loop of `read_id3_tags`. -/
structure Frame_Walk where
  frame_data : Nat
  frame_size : Nat
  association_found : Bool

/-- One round of the loop over `associations` in `read_id3_tags`, for the
association `(id, out, max)`: `none` stands for `return false`, otherwise the
locals and the buffer `out` afterwards. `data` is the memory at
`id3_structure`. -/
def read_id3_association (data : Nat → Nat) (frame_id id : List Nat) (max : Nat)
    (out : List Nat) (w : Frame_Walk) : Option (Frame_Walk × List Nat) :=
  if frame_id = id then
    let frame_data := w.frame_data + 1
    let frame_size := u32_sub w.frame_size 1
    if frame_size ≥ max then none
    else
      let out := memcpy out (read_bytes data frame_data frame_size)
      let frame_data := frame_data + frame_size
      let out := out.set frame_size 0
      some ({ frame_data := frame_data, frame_size := frame_size, association_found := true },
        out)
  else some (w, out)

/-- The value of `ok` after the loop `ok &= ...` over the four characters of a
frame id; `ok` starts as 0. -/
def id3_frame_id_ok (frame_id : List Nat) : Nat :=
  (List.range 4).foldl
    (fun ok i =>
      ok &&& (if (65 ≤ frame_id.getD i 0 ∧ frame_id.getD i 0 ≤ 90)
          ∨ (48 ≤ frame_id.getD i 0 ∧ frame_id.getD i 0 ≤ 57) then 1 else 0))
    0

/-- The frame loop `while (frame_data < frame_data_end)` of `read_id3_tags`:
the returned flag and the buffers `artist` and `title` afterwards.
`id3_structure_size` is the distance of `frame_data_end` from the start. -/
def read_id3_frames (data : Nat → Nat) (id3_structure_size artist_max title_max : Nat)
    (frame_data : Nat) (artist title : List Nat) : Bool × List Nat × List Nat :=
  if frame_data < id3_structure_size then
    let frame := read_bytes data frame_data 10
    let frame_id := frame.take 4
    let w : Frame_Walk :=
      { frame_data := frame_data + 10,
        frame_size := synch_safe_integer (reverse_endian (u32_of_bytes ((frame.drop 4).take 4))),
        association_found := false }
    match _h1 : read_id3_association data frame_id TIT2 title_max title w with
    | none => (false, artist, title)
    | some (w1, title1) =>
      match _h2 : read_id3_association data frame_id TPE1 artist_max artist w1 with
      | none => (false, artist, title1)
      | some (w2, artist2) =>
        if w2.association_found = false then
          if id3_frame_id_ok frame_id = 0 then (true, artist2, title1)
          else
            read_id3_frames data id3_structure_size artist_max title_max
              (w2.frame_data + w2.frame_size) artist2 title1
        else
          read_id3_frames data id3_structure_size artist_max title_max w2.frame_data artist2
            title1
  else (true, artist, title)
termination_by id3_structure_size - frame_data
decreasing_by
  all_goals
    simp only [read_id3_association] at _h1 _h2
    by_cases c1 : frame_id = TIT2
    · rw [if_pos c1] at _h1
      by_cases c2 : u32_sub w.frame_size 1 ≥ title_max
      · rw [if_pos c2] at _h1
        cases _h1
      · rw [if_neg c2] at _h1
        simp only [Option.some.injEq, Prod.mk.injEq] at _h1
        by_cases c3 : frame_id = TPE1
        · rw [if_pos c3] at _h2
          by_cases c4 : u32_sub w1.frame_size 1 ≥ artist_max
          · rw [if_pos c4] at _h2
            cases _h2
          · rw [if_neg c4] at _h2
            simp only [Option.some.injEq, Prod.mk.injEq] at _h2
            rw [← _h2.1, ← _h1.1]
            simp only [w]
            omega
        · rw [if_neg c3] at _h2
          simp only [Option.some.injEq, Prod.mk.injEq] at _h2
          rw [← _h2.1, ← _h1.1]
          simp only [w]
          omega
    · rw [if_neg c1] at _h1
      simp only [Option.some.injEq, Prod.mk.injEq] at _h1
      by_cases c3 : frame_id = TPE1
      · rw [if_pos c3] at _h2
        by_cases c4 : u32_sub w1.frame_size 1 ≥ artist_max
        · rw [if_pos c4] at _h2
          cases _h2
        · rw [if_neg c4] at _h2
          simp only [Option.some.injEq, Prod.mk.injEq] at _h2
          rw [← _h2.1, ← _h1.1]
          simp only [w]
          omega
      · rw [if_neg c3] at _h2
        simp only [Option.some.injEq, Prod.mk.injEq] at _h2
        rw [← _h2.1, ← _h1.1]
        simp only [w]
        omega

/-- The function `read_id3_tags`: the returned flag and the buffers `artist`
and `title` afterwards. `file` is the content of the file; `id3` and
`extended_header` are the 10 and 8 bytes that the two local structs hold before
`fread`, `heap` is the memory that `malloc` hands out and what follows it.
`artist_max` and `title_max` are positive `int` values. -/
def read_id3_tags (id3 extended_header : List Nat) (heap : Nat → Nat) (file : List Nat)
    (artist : List Nat) (artist_max : Nat) (title : List Nat) (title_max : Nat) :
    Bool × List Nat × List Nat :=
  let r := fread id3 file
  let id3 := r.1
  let file := r.2
  if id3.take 3 ≠ [73, 68, 51] then (false, artist, title)
  else
    let id3_structure_size :=
      synch_safe_integer (reverse_endian (u32_of_bytes ((id3.drop 6).take 4)))
    let file :=
      if id3.getD 5 0 &&& 128 ≠ 0 then
        let r := fread extended_header file
        r.2.drop (synch_safe_integer (reverse_endian (u32_of_bytes (r.1.take 4))))
      else file
    let data := fun i => if i < id3_structure_size then file.getD i (heap i) else heap i
    read_id3_frames data id3_structure_size artist_max title_max 0 artist title

/-- An ID3v2.3 tag of 27 bytes that holds the frame `TALB` with the value `x`
and behind it the frame `TIT2` with the value `Song`. -/
def example_id3_album_title : List Nat :=
  [73, 68, 51, 3, 0, 0, 0, 0, 0, 27,
    84, 65, 76, 66, 0, 0, 0, 2, 0, 0, 0, 120,
    84, 73, 84, 50, 0, 0, 0, 5, 0, 0, 0, 83, 111, 110, 103]

/-- An ID3v2.3 tag of 15 bytes that holds only the frame `TIT2` with the value
`Song`. -/
def example_id3_title : List Nat :=
  [73, 68, 51, 3, 0, 0, 0, 0, 0, 15,
    84, 73, 84, 50, 0, 0, 0, 5, 0, 0, 0, 83, 111, 110, 103]

/-- An ID3v2.3 tag of 151 bytes that holds the frame `TALB` with the value `x`
and behind it a frame `TIT2` whose value is 128 times the letter `a`. -/
def example_id3_album_long_title : List Nat :=
  [73, 68, 51, 3, 0, 0, 0, 0, 1, 23,
    84, 65, 76, 66, 0, 0, 0, 2, 0, 0, 0, 120,
    84, 73, 84, 50, 0, 0, 1, 1, 0, 0, 0] ++ List.replicate 128 97

/-- An ID3v2.3 tag of 139 bytes that holds only a frame `TIT2` whose value is
128 times the letter `a`. -/
def example_id3_long_title : List Nat :=
  [73, 68, 51, 3, 0, 0, 0, 0, 1, 11,
    84, 73, 84, 50, 0, 0, 1, 1, 0, 0, 0] ++ List.replicate 128 97

/-! ## decoders/wav.cpp -/

/-- How a call of `open_wav` ends: it returns its result, or it divides by zero
(`chunk.length / format->sample_size` with a sample size of 0), or the chunk
loop is still running when the rounds that are followed have been used up. -/
inductive Open_Outcome where
  | returned (result : Bool)
  | divide_by_zero
  | still_running
deriving DecidableEq, Repr

/-- The `u16` held in two bytes of memory (little-endian). -/
def u16_of_bytes (bytes : List Nat) : Nat :=
  bytes.getD 0 0 % 256 + 256 * (bytes.getD 1 0 % 256)

/-- The call `fread(dst, ...)` on a file with the read position `pos`: the
destination afterwards and the new position. -/
def fread_at (dst file : List Nat) (pos : Nat) : List Nat × Nat :=
  ((fread dst (file.drop pos)).1, pos + min dst.length (file.length - pos))

/-- The call `fseek(io, length, SEEK_CUR)` with a `u32` length: the offset is
converted to the 32-bit `long` of the platform, and a seek to a negative
position fails and leaves the position as it is. -/
def fseek_cur (pos length : Nat) : Nat :=
  if length < 2 ^ 31 then pos + length
  else if pos + length < 2 ^ 32 then pos
  else pos + length - 2 ^ 32

/-- The loop `while (1)` of `open_wav` together with the statements behind it,
followed for at most `rounds` rounds. `chunk` and `fmt` are the 8 and 16 bytes
of the two local structs, `sample_size` is `format->sample_size`. -/
def open_wav_loop (file : List Nat) :
    Nat → Nat → List Nat → List Nat → Nat → Open_Outcome
  | 0, _, _, _, _ => Open_Outcome.still_running
  | rounds + 1, pos, chunk, fmt, sample_size =>
    let r := fread_at chunk file pos
    let chunk := r.1
    let pos := r.2
    if chunk.take 3 = [102, 109, 116] then
      let r := fread_at fmt file pos
      let fmt := r.1
      let sample_size := u16_of_bytes (fmt.drop 14) / 8
      open_wav_loop file rounds r.2 chunk fmt sample_size
    else if chunk.take 4 = [100, 97, 116, 97] then
      if sample_size = 0 then Open_Outcome.divide_by_zero
      else if u16_of_bytes (fmt.drop 2) ≠ 2 then Open_Outcome.returned false
      else Open_Outcome.returned true
    else
      open_wav_loop file rounds (fseek_cur pos (u32_of_bytes (chunk.drop 4))) chunk fmt
        sample_size

/-- The function `open_wav`, followed for at most `rounds` rounds of its chunk
loop. `file` is the content of the file, or `none` when `_wfopen` fails;
`header`, `chunk` and `fmt` are the 12, 8 and 16 bytes that the local structs
hold at entry, `sample_size` is `format->sample_size` at entry. -/
def open_wav (rounds : Nat) (file : Option (List Nat)) (header chunk fmt : List Nat)
    (sample_size : Nat) : Open_Outcome :=
  match file with
  | none => Open_Outcome.returned false
  | some file =>
    let r := fread_at header file 0
    if r.1.take 4 ≠ [82, 73, 70, 70] then Open_Outcome.returned false
    else open_wav_loop file rounds r.2 chunk fmt sample_size

/-- A RIFF file with a `fmt ` chunk of 16 bytes and a `data` chunk of 4 bytes;
the format has `num_channels` channels at 44100 Hz and `bits_per_sample` bits
per sample. -/
def example_wav (num_channels bits_per_sample : Nat) : List Nat :=
  [82, 73, 70, 70, 40, 0, 0, 0, 87, 65, 86, 69,
    102, 109, 116, 32, 16, 0, 0, 0,
    17, 0, num_channels, 0, 68, 172, 0, 0, 34, 86, 0, 0, 1, 0, bits_per_sample, 0,
    100, 97, 116, 97, 4, 0, 0, 0, 1, 2, 3, 4]

/-! ## Theorems -/

namespace Large_Auto_Array

variable {T : Type}

theorem chunk_elements_eq_max (sizeof_T : Nat) :
    chunk_elements sizeof_T = max 1 (4096 / sizeof_T) := by
  unfold chunk_elements
  simp only
  split
  · rename_i h
    have : 1 ≤ 4096 / sizeof_T := Nat.pos_of_ne_zero h
    omega
  · rename_i h
    have : 4096 / sizeof_T = 0 := by
      by_contra h2
      exact h h2
    omega

theorem chunk_elements_le (sizeof_T : Nat) : chunk_elements sizeof_T ≤ 4096 := by
  unfold chunk_elements
  simp only
  split
  · exact Nat.div_le_self _ _
  · norm_num

theorem grow_allocated_spec (sizeof_T count n : Nat) (allocated_elements : Nat) :
    ∃ k, grow_allocated sizeof_T count n allocated_elements
        = allocated_elements + k * chunk_elements sizeof_T
      ∧ u32_add count n < grow_allocated sizeof_T count n allocated_elements
      ∧ (u32_add count n < allocated_elements → k = 0) := by
  induction allocated_elements using grow_allocated.induct sizeof_T count n with
  | case1 x hx ih =>
    obtain ⟨k, hk, hlt, _⟩ := ih
    have h1 : u32_add count n < 2 ^ 32 := Nat.mod_lt _ (by norm_num)
    have h3 := chunk_elements_le sizeof_T
    have hmod : (x + chunk_elements sizeof_T) % 2 ^ 64 = x + chunk_elements sizeof_T :=
      Nat.mod_eq_of_lt (by omega)
    rw [grow_allocated, if_pos hx]
    refine ⟨k + 1, ?_, hlt, fun h => absurd h (by omega)⟩
    rw [hk, hmod]
    ring
  | case2 x hx =>
    rw [grow_allocated, if_neg hx]
    exact ⟨0, by simp, by omega, fun _ => rfl⟩

theorem push_offset_n_fst (sizeof_T : Nat) (a : Large_Auto_Array T) (n : Nat) :
    (push_offset_n sizeof_T a n).2 = a.count
    ∧ (push_offset_n sizeof_T a n).1.count = u32_add a.count n
    ∧ (push_offset_n sizeof_T a n).1.elements = a.elements := by
  unfold push_offset_n system_reallocate
  simp only
  split <;> simp

theorem push_offset_n_allocated (sizeof_T : Nat) (a : Large_Auto_Array T) (n : Nat) :
    ∃ k, (push_offset_n sizeof_T a n).1.allocated_elements
        = a.allocated_elements + k * chunk_elements sizeof_T
      ∧ (u32_add a.count n ≤ a.allocated_elements → k = 0)
      ∧ u32_add a.count n ≤ (push_offset_n sizeof_T a n).1.allocated_elements := by
  unfold push_offset_n
  simp only
  split
  · rename_i h
    obtain ⟨k, hk, hlt, _⟩ := grow_allocated_spec sizeof_T a.count n a.allocated_elements
    exact ⟨k, hk, fun h2 => absurd h2 (by omega), Nat.le_of_lt hlt⟩
  · rename_i h
    exact ⟨0, by simp, fun _ => rfl, by simpa using h⟩

theorem remove_count (a : Large_Auto_Array T) (i : Nat) (hn : 1 ≤ a.count)
    (h32 : a.count < 2 ^ 32) : (a.remove i).count = a.count - 1 := by
  show u32_sub a.count 1 = a.count - 1
  unfold u32_sub
  omega

theorem remove_elements (a : Large_Auto_Array T) (i : Nat) (hn : 1 ≤ a.count)
    (h32 : a.count < 2 ^ 32) (j : Nat) :
    (a.remove i).elements j = if j = i then a.elements (a.count - 1) else a.elements j := by
  have hc : u32_sub a.count 1 = a.count - 1 := by
    unfold u32_sub
    omega
  show Function.update a.elements i (a.elements (u32_sub a.count 1)) j = _
  rw [hc]
  by_cases h : j = i
  · subst h
    simp
  · simp [Function.update, h]

theorem remove_range_count (a : Large_Auto_Array T) (start end_ : Nat) (hse : start ≤ end_)
    (hen : end_ < a.count) (h32 : a.count < 2 ^ 32) :
    (a.remove_range start end_).count = a.count - (end_ - start + 1) := by
  show u32_sub a.count (u32_add (u32_sub end_ start) 1) = _
  unfold u32_sub u32_add
  omega

theorem remove_range_elements (a : Large_Auto_Array T) (start end_ : Nat) (hse : start ≤ end_)
    (hen : end_ < a.count) (h32 : a.count < 2 ^ 32) (j : Nat) :
    (a.remove_range start end_).elements j
      = if start ≤ j ∧ j < start + (a.count - end_ - 1)
          then a.elements (end_ + 1 + (j - start)) else a.elements j := by
  have h1 : u32_sub (u32_sub a.count end_) 1 = a.count - end_ - 1 := by
    unfold u32_sub
    omega
  have h2 : u32_add end_ 1 = end_ + 1 := by
    unfold u32_add
    omega
  show memmove a.elements start (u32_add end_ 1) (u32_sub (u32_sub a.count end_) 1) j = _
  rw [h1, h2]
  rfl

theorem to_list_length (a : Large_Auto_Array T) : a.to_list.length = a.count := by
  simp [to_list]

theorem to_list_getElem (a : Large_Auto_Array T) (i : Nat) (h : i < a.to_list.length) :
    a.to_list[i] = a.elements i := by
  simp [to_list]

theorem to_list_remove_range (a : Large_Auto_Array T) (start end_ : Nat) (hse : start ≤ end_)
    (hen : end_ < a.count) (h32 : a.count < 2 ^ 32) :
    (a.remove_range start end_).to_list = a.to_list.take start ++ a.to_list.drop (end_ + 1) := by
  apply List.ext_getElem
  · rw [to_list_length, remove_range_count a start end_ hse hen h32]
    simp [to_list_length]
    omega
  · intro j h1 h2
    rw [to_list_getElem, remove_range_elements a start end_ hse hen h32]
    rw [to_list_length, remove_range_count a start end_ hse hen h32] at h1
    by_cases hj : j < start
    · rw [if_neg (by omega), List.getElem_append_left (by simp [to_list_length]; omega)]
      simp [to_list]
    · rw [if_pos (by omega), List.getElem_append_right (by simp [to_list_length]; omega)]
      simp [to_list]
      congr 1
      omega

theorem of_list_remove_example (filler x0 x1 x2 x3 x4 : T) :
    ((of_list filler [x0, x1, x2, x3, x4]).remove 1).to_list = [x0, x4, x2, x3] := by
  have hc : (of_list filler [x0, x1, x2, x3, x4]).count = 5 := rfl
  have hn : 1 ≤ (of_list filler [x0, x1, x2, x3, x4]).count := by rw [hc]; norm_num
  have h32 : (of_list filler [x0, x1, x2, x3, x4]).count < 2 ^ 32 := by rw [hc]; norm_num
  have h1 := remove_count (of_list filler [x0, x1, x2, x3, x4]) 1 hn h32
  have hr : List.range 4 = [0, 1, 2, 3] := by decide
  unfold to_list
  rw [h1, hc, hr]
  simp only [List.map_cons, List.map_nil, remove_elements _ 1 hn h32, hc]
  simp [of_list]

theorem of_list_remove_range_example (filler x0 x1 x2 x3 x4 : T) :
    ((of_list filler [x0, x1, x2, x3, x4]).remove_range 1 2).to_list = [x0, x3, x4] := by
  have hc : (of_list filler [x0, x1, x2, x3, x4]).count = 5 := rfl
  have h32 : (of_list filler [x0, x1, x2, x3, x4]).count < 2 ^ 32 := by rw [hc]; norm_num
  rw [to_list_remove_range _ 1 2 (by norm_num) (by rw [hc]; norm_num) h32]
  have hr : List.range 5 = [0, 1, 2, 3, 4] := by decide
  unfold to_list
  rw [hc, hr]
  simp [of_list]

/-- C5: for an array with count n >= 1 and an index i < n, `remove(i)` leaves
count n - 1, puts the former last element into slot i and leaves every other
slot below n - 1 unchanged; on `[a,b,c,d,e]`, `remove(1)` gives `[a,e,c,d]`. -/
theorem remove_is_swap_remove (a : Large_Auto_Array T) (i : Nat)
    (h32 : a.count < 2 ^ 32) (hi : i < a.count) :
    (a.remove i).count = a.count - 1
    ∧ (a.remove i).elements i = a.elements (a.count - 1)
    ∧ (∀ j, j < a.count - 1 → j ≠ i → (a.remove i).elements j = a.elements j)
    ∧ ∀ (filler x0 x1 x2 x3 x4 : T),
        ((of_list filler [x0, x1, x2, x3, x4]).remove 1).to_list = [x0, x4, x2, x3] := by
  have hn : 1 ≤ a.count := by omega
  refine ⟨remove_count a i hn h32, ?_, ?_, ?_⟩
  · rw [remove_elements a i hn h32, if_pos rfl]
  · intro j _ hji
    rw [remove_elements a i hn h32, if_neg hji]
  · intro filler x0 x1 x2 x3 x4
    exact of_list_remove_example filler x0 x1 x2 x3 x4

/-- Instance of C5 on the array `[10, 20, 30]` and index 0. -/
theorem remove_is_swap_remove_witness :
    ((of_list 0 [10, 20, 30]).remove 0).count = 2
    ∧ ((of_list 0 [10, 20, 30]).remove 0).elements 0 = 30
    ∧ ((of_list 0 [10, 20, 30]).remove 0).elements 1 = 20 := by
  have h := remove_is_swap_remove (of_list 0 [10, 20, 30]) 0 (by decide) (by decide)
  exact ⟨h.1, h.2.1, h.2.2.1 1 (by decide) (by decide)⟩

/-- C6: for an array with count n and start <= end < n, `remove_range(start, end)`
leaves count n - (end - start + 1), keeps the elements before start and moves
the elements after end down to start onward in their original order; on
`[a,b,c,d,e]`, `remove_range(1,2)` gives `[a,d,e]`. -/
theorem remove_range_keeps_order (a : Large_Auto_Array T) (start end_ : Nat)
    (hse : start ≤ end_) (hen : end_ < a.count) (h32 : a.count < 2 ^ 32) :
    (a.remove_range start end_).count = a.count - (end_ - start + 1)
    ∧ (∀ j, j < start → (a.remove_range start end_).elements j = a.elements j)
    ∧ (∀ k, end_ + 1 + k < a.count →
        (a.remove_range start end_).elements (start + k) = a.elements (end_ + 1 + k))
    ∧ (a.remove_range start end_).to_list = a.to_list.take start ++ a.to_list.drop (end_ + 1)
    ∧ ∀ (filler x0 x1 x2 x3 x4 : T),
        ((of_list filler [x0, x1, x2, x3, x4]).remove_range 1 2).to_list = [x0, x3, x4] := by
  refine ⟨remove_range_count a start end_ hse hen h32, ?_, ?_,
    to_list_remove_range a start end_ hse hen h32, ?_⟩
  · intro j hj
    rw [remove_range_elements a start end_ hse hen h32, if_neg (by omega)]
  · intro k hk
    rw [remove_range_elements a start end_ hse hen h32, if_pos (by omega)]
    congr 1
    omega
  · intro filler x0 x1 x2 x3 x4
    exact of_list_remove_range_example filler x0 x1 x2 x3 x4

/-- Instance of C6 on the array `[10, 20, 30, 40]` and the range 1..2. -/
theorem remove_range_keeps_order_witness :
    ((of_list 0 [10, 20, 30, 40]).remove_range 1 2).to_list = [10, 40] := by
  have h := remove_range_keeps_order (of_list 0 [10, 20, 30, 40]) 1 2
    (by decide) (by decide) (by decide)
  rw [h.2.2.2.1]
  have hr : List.range 4 = [0, 1, 2, 3] := by decide
  show List.take 1 ((List.range 4).map _) ++ List.drop 3 ((List.range 4).map _) = _
  rw [hr]
  simp [of_list]

/-- C8: for an array with count c <= capacity and c + n below 2^32,
`push_offset_n(n)` returns c, sets count to c + n, leaves the first c elements
unchanged, and leaves capacity equal to the old capacity plus k >= 0 chunks of
max(1, 4096 / sizeof(T)) elements, with k = 0 when c + n did not exceed the old
capacity and c + n <= new capacity in every case. -/
theorem push_offset_n_reserves (sizeof_T : Nat) (a : Large_Auto_Array T) (n : Nat)
    (_hc : a.count ≤ a.allocated_elements) (hn : a.count + n < 2 ^ 32) :
    (push_offset_n sizeof_T a n).2 = a.count
    ∧ (push_offset_n sizeof_T a n).1.count = a.count + n
    ∧ (∀ i, i < a.count → (push_offset_n sizeof_T a n).1.elements i = a.elements i)
    ∧ (∃ k, (push_offset_n sizeof_T a n).1.allocated_elements
          = a.allocated_elements + k * max 1 (4096 / sizeof_T)
        ∧ (a.count + n ≤ a.allocated_elements → k = 0))
    ∧ a.count + n ≤ (push_offset_n sizeof_T a n).1.allocated_elements := by
  have hu : u32_add a.count n = a.count + n := Nat.mod_eq_of_lt hn
  obtain ⟨h1, h2, h3⟩ := push_offset_n_fst sizeof_T a n
  obtain ⟨k, hk, hk0, hle⟩ := push_offset_n_allocated sizeof_T a n
  rw [hu] at h2 hk0 hle
  refine ⟨h1, h2, fun i _ => by rw [h3], ⟨k, ?_, hk0⟩, hle⟩
  rw [hk, chunk_elements_eq_max]

/-- Instance of C8: five `u32` slots pushed on the array `[10, 20, 30]`, whose
storage is full, so that one chunk of 1024 elements is added. -/
theorem push_offset_n_reserves_witness :
    (push_offset_n 4 (of_list 0 [10, 20, 30]) 5).2 = 3
    ∧ (push_offset_n 4 (of_list 0 [10, 20, 30]) 5).1.count = 8
    ∧ (push_offset_n 4 (of_list 0 [10, 20, 30]) 5).1.allocated_elements = 1027 := by
  have h := push_offset_n_reserves 4 (of_list 0 [10, 20, 30]) 5 (by decide) (by decide)
  obtain ⟨h1, h2, _, ⟨k, hk, _⟩, h5⟩ := h
  refine ⟨h1, h2, ?_⟩
  simp [push_offset_n, of_list, u32_add, grow_allocated, chunk_elements]

end Large_Auto_Array

namespace Large_Auto_Array

variable {T : Type}

theorem push_value_count (sizeof_T : Nat) (a : Large_Auto_Array T) (v : T) :
    (push_value sizeof_T a v).count = u32_add a.count 1 :=
  (push_offset_n_fst sizeof_T a 1).2.1

theorem push_value_elements (sizeof_T : Nat) (a : Large_Auto_Array T) (v : T) :
    (push_value sizeof_T a v).elements = Function.update a.elements a.count v := by
  obtain ⟨h1, _, h3⟩ := push_offset_n_fst sizeof_T a 1
  show Function.update (push_offset_n sizeof_T a 1).1.elements (push_offset_n sizeof_T a 1).2 v = _
  rw [h1, h3]

theorem to_list_push_value (sizeof_T : Nat) (a : Large_Auto_Array T) (v : T)
    (h : a.count + 1 < 2 ^ 32) : (push_value sizeof_T a v).to_list = a.to_list ++ [v] := by
  unfold to_list
  rw [push_value_count, push_value_elements]
  have hu : u32_add a.count 1 = a.count + 1 := Nat.mod_eq_of_lt h
  rw [hu, List.range_succ, List.map_append]
  congr 1
  · apply List.map_congr_left
    intro i hi
    have : i ≠ a.count := by
      have := List.mem_range.mp hi
      omega
    simp [Function.update, this]
  · simp

theorem reset_count (a : Large_Auto_Array T) : a.reset.count = 0 := rfl

theorem to_list_reset (a : Large_Auto_Array T) : a.reset.to_list = [] := rfl

end Large_Auto_Array

namespace Track_Array

theorem aligned_add (t : Track_Array) (h : t.aligned) (id : Nat) (track : Track_Info) :
    (t.add id track).aligned := by
  obtain ⟨h1, h2⟩ := h
  constructor
  · show (t.ids.push_value 4 id).count = u32_add t.count 1
    rw [Large_Auto_Array.push_value_count, h1]
  · show (t.info.push_value 16 track).count = u32_add t.count 1
    rw [Large_Auto_Array.push_value_count, h2]

theorem aligned_add_from_info (ext : External) (lib : Library) (t : Track_Array)
    (h : t.aligned) (track : Track_Info) : (t.add_from_info ext lib track).aligned :=
  aligned_add t h (get_track_id ext lib track) track

theorem aligned_add_from_id (lib : Library) (t : Track_Array) (h : t.aligned) (id : Nat) :
    (t.add_from_id lib id).aligned := by
  unfold add_from_id
  split
  · rename_i track _
    exact aligned_add t h id track
  · exact h

theorem aligned_reset (t : Track_Array) : t.reset.aligned := ⟨rfl, rfl⟩

theorem aligned_remove (t : Track_Array) (h : t.aligned) (i : Nat) : (t.remove i).aligned := by
  obtain ⟨h1, h2⟩ := h
  constructor
  · show u32_sub t.ids.count 1 = u32_sub t.count 1
    rw [h1]
  · show u32_sub t.info.count 1 = u32_sub t.count 1
    rw [h2]

theorem aligned_remove_range (t : Track_Array) (h : t.aligned) (start end_ : Nat) :
    (t.remove_range start end_).aligned := by
  obtain ⟨h1, h2⟩ := h
  constructor
  · rfl
  · show u32_sub t.info.count _ = u32_sub t.ids.count _
    rw [h1, h2]

/-- C7: in a `Track_Array` whose identifier count, record count and count field
agree, each of add, add_from_id, add_from_info, remove(i) with i < count,
remove_range(start, end) with start <= end < count, and reset gives a
`Track_Array` in which they agree again; remove and remove_range take every
surviving identifier and its record from the same old index. -/
theorem track_array_stays_aligned (ext : External) (lib : Library) (t : Track_Array)
    (h : t.aligned) (h32 : t.count < 2 ^ 32) :
    (∀ id track, (t.add id track).aligned)
    ∧ (∀ id, (t.add_from_id lib id).aligned)
    ∧ (∀ track, (t.add_from_info ext lib track).aligned)
    ∧ t.reset.aligned
    ∧ (∀ i, i < t.count → (t.remove i).aligned
        ∧ (t.remove i).count = t.count - 1
        ∧ ∀ j, j < t.count - 1 →
          (t.remove i).ids.elements j = t.ids.elements (if j = i then t.count - 1 else j)
          ∧ (t.remove i).info.elements j = t.info.elements (if j = i then t.count - 1 else j))
    ∧ (∀ start end_, start ≤ end_ → end_ < t.count → (t.remove_range start end_).aligned
        ∧ (t.remove_range start end_).count = t.count - (end_ - start + 1)
        ∧ ∀ j, j < t.count - (end_ - start + 1) →
          (t.remove_range start end_).ids.elements j
              = t.ids.elements (if j < start then j else j + (end_ - start + 1))
          ∧ (t.remove_range start end_).info.elements j
              = t.info.elements (if j < start then j else j + (end_ - start + 1))) := by
  obtain ⟨h1, h2⟩ := h
  refine ⟨aligned_add t ⟨h1, h2⟩, aligned_add_from_id lib t ⟨h1, h2⟩,
    aligned_add_from_info ext lib t ⟨h1, h2⟩, aligned_reset t, ?_, ?_⟩
  · intro i hi
    have hn : 1 ≤ t.count := by omega
    refine ⟨aligned_remove t ⟨h1, h2⟩ i, ?_, ?_⟩
    · show u32_sub t.count 1 = t.count - 1
      unfold u32_sub
      omega
    · intro j _
      constructor
      · show (t.ids.remove i).elements j = _
        rw [Large_Auto_Array.remove_elements t.ids i (by omega) (by omega), h1]
        split <;> rfl
      · show (t.info.remove i).elements j = _
        rw [Large_Auto_Array.remove_elements t.info i (by omega) (by omega), h2]
        split <;> rfl
  · intro start end_ hse hen
    refine ⟨aligned_remove_range t ⟨h1, h2⟩ start end_, ?_, ?_⟩
    · show (t.ids.remove_range start end_).count = _
      rw [Large_Auto_Array.remove_range_count t.ids start end_ hse (by omega) (by omega), h1]
    · intro j hj
      constructor
      · show (t.ids.remove_range start end_).elements j = _
        rw [Large_Auto_Array.remove_range_elements t.ids start end_ hse (by omega) (by omega), h1]
        by_cases hjs : j < start
        · rw [if_neg (by omega), if_pos hjs]
        · rw [if_pos (by omega), if_neg hjs]
          congr 1
          omega
      · show (t.info.remove_range start end_).elements j = _
        rw [Large_Auto_Array.remove_range_elements t.info start end_ hse (by omega) (by omega),
          h2]
        by_cases hjs : j < start
        · rw [if_neg (by omega), if_pos hjs]
        · rw [if_pos (by omega), if_neg hjs]
          congr 1
          omega

end Track_Array

theorem strrchr_spec (s : List Nat) (c : Nat) :
    (strrchr s c = none ∧ c ∉ s)
    ∨ ∃ front back, strrchr s c = some (c :: back) ∧ s = front ++ c :: back ∧ c ∉ back := by
  induction s with
  | nil => exact Or.inl ⟨rfl, by simp⟩
  | cons x xs ih =>
    rcases ih with ⟨hn, hc⟩ | ⟨front, back, hs, hxs, hb⟩
    · by_cases hx : x = c
      · refine Or.inr ⟨[], xs, ?_, ?_, hc⟩
        · simp [strrchr, hn, hx]
        · simp [hx]
      · refine Or.inl ⟨?_, ?_⟩
        · simp [strrchr, hn, hx]
        · simp [hc, Ne.symm hx]
    · refine Or.inr ⟨x :: front, back, ?_, ?_, hb⟩
      · simp [strrchr, hs]
      · simp [hxs]

theorem file_name_component_of_no_separator (name : List Nat) (h : 92 ∉ name) :
    file_name_component name = name := by
  unfold file_name_component
  have : name.reverse.takeWhile (fun c => c ≠ 92) = name.reverse := by
    apply List.takeWhile_eq_self_iff.mpr
    intro a ha
    have ha2 : a ∈ name := List.mem_reverse.mp ha
    simp only [ne_eq, decide_not, Bool.not_eq_true', decide_eq_false_iff_not]
    intro h2
    exact h (h2 ▸ ha2)
  rw [this, List.reverse_reverse]

theorem file_name_component_append (dir name : List Nat) (h : 92 ∉ name) :
    file_name_component (dir ++ 92 :: name) = name := by
  unfold file_name_component
  rw [List.reverse_append, List.reverse_cons, List.append_assoc]
  rw [List.takeWhile_append_of_pos]
  · simp
  · intro a ha
    have ha2 : a ∈ name := List.mem_reverse.mp ha
    simp only [ne_eq, decide_not, Bool.not_eq_true', decide_eq_false_iff_not]
    intro h2
    exact h (h2 ▸ ha2)

theorem get_track_id_eq (ext : External) (lib : Library) (info : Track_Info) :
    get_track_id ext lib info
      = ext.XXH32 (file_name_component (get_library_string lib info.relative_file_path)) 0
          % 2 ^ 32 := by
  unfold get_track_id
  simp only [List.take_length]
  rcases strrchr_spec (get_library_string lib info.relative_file_path) 92 with
    ⟨hn, hc⟩ | ⟨front, back, hs, hp, hb⟩
  · rw [hn, file_name_component_of_no_separator _ hc]
  · rw [hs]
    simp only [List.drop_succ_cons, List.drop_zero]
    rw [hp, file_name_component_append front back hb]

/-- C2: `get_track_id` is the 32-bit seed-0 hash of the file name component of
the stored relative path, so two stored paths with the same file name component
get the same identifier, and changing only the directory part of a path does not
change its file name component. -/
theorem get_track_id_depends_on_file_name_only (ext : External) :
    (∀ lib info, get_track_id ext lib info
        = ext.XXH32 (file_name_component (get_library_string lib info.relative_file_path)) 0
            % 2 ^ 32)
    ∧ (∀ lib1 info1 lib2 info2,
        file_name_component (get_library_string lib1 info1.relative_file_path)
          = file_name_component (get_library_string lib2 info2.relative_file_path) →
        get_track_id ext lib1 info1 = get_track_id ext lib2 info2)
    ∧ (∀ dir1 dir2 name, 92 ∉ name →
        file_name_component (dir1 ++ 92 :: name) = name
        ∧ file_name_component (dir2 ++ 92 :: name) = name
        ∧ file_name_component name = name) := by
  refine ⟨get_track_id_eq ext, ?_, ?_⟩
  · intro lib1 info1 lib2 info2 h
    rw [get_track_id_eq, get_track_id_eq, h]
  · intro dir1 dir2 name h
    exact ⟨file_name_component_append dir1 name h, file_name_component_append dir2 name h,
      file_name_component_of_no_separator name h⟩

theorem find_range_none (p : Nat → Bool) (n : Nat) :
    (List.range n).find? p = none ↔ ∀ i, i < n → p i = false := by
  rw [List.find?_eq_none]
  constructor
  · intro h i hi
    have := h i (List.mem_range.mpr hi)
    simpa using this
  · intro h i hi
    have := h i (List.mem_range.mp hi)
    simp [this]

theorem find_range_first (p : Nat → Bool) (n i : Nat) (hi : i < n) (hp : p i = true)
    (hfirst : ∀ j, j < i → p j = false) : (List.range n).find? p = some i := by
  induction n with
  | zero => omega
  | succ n ih =>
    rw [List.range_succ, List.find?_append]
    by_cases hin : i < n
    · rw [ih hin]
      rfl
    · have hieq : i = n := by omega
      subst hieq
      rw [(find_range_none p i).mpr hfirst]
      simp [hp]

theorem find_range_some (p : Nat → Bool) (n i : Nat) (h : (List.range n).find? p = some i) :
    i < n ∧ p i = true ∧ ∀ j, j < i → p j = false := by
  induction n with
  | zero => simp at h
  | succ n ih =>
    rw [List.range_succ, List.find?_append] at h
    cases hf : (List.range n).find? p with
    | some k =>
      rw [hf] at h
      have hk : k = i := by simpa using h
      subst hk
      obtain ⟨h1, h2, h3⟩ := ih hf
      exact ⟨by omega, h2, h3⟩
    | none =>
      rw [hf] at h
      have hall := (find_range_none p n).mp hf
      by_cases hpn : p n = true
      · have hi : n = i := by simpa [hpn] using h
        subst hi
        exact ⟨by omega, hpn, hall⟩
      · simp [hpn] at h

/-- C17: `lookup_track(id)` returns not-found exactly when no library
identifier equals `id`, and otherwise the record at the smallest index whose
identifier equals `id`. -/
theorem lookup_track_returns_first_match (lib : Library) (id : Nat) :
    (lookup_track lib id = none ↔
        ∀ i, i < lib.tracks.ids.count → lib.tracks.ids.elements i ≠ id)
    ∧ (∀ i, i < lib.tracks.ids.count → lib.tracks.ids.elements i = id →
        (∀ j, j < i → lib.tracks.ids.elements j ≠ id) →
        lookup_track lib id = some (lib.tracks.info.elements i)) := by
  constructor
  · unfold lookup_track
    rw [Option.map_eq_none', find_range_none]
    constructor
    · intro h i hi
      simpa using h i hi
    · intro h i hi
      simpa using h i hi
  · intro i hi hid hfirst
    unfold lookup_track
    rw [find_range_first _ _ i hi (by simpa using hid) (fun j hj => by simpa using hfirst j hj)]
    rfl

/-- C19: with a file loaded and the state PLAYING, `stream_to_buffer` returns
true exactly when the decode call returns false or, after a successful decode,
the decoder position is at or past `total_samples`; when not playing or with no
file loaded it returns false. -/
theorem stream_to_buffer_reports_end (s : Stream) (d : Decoder) (output_sample_rate : Nat)
    (num_frames ceil_frames : Int) :
    (s.file_loaded = true → s.state = Player_State.PLAYER_STATE_PLAYING →
      (stream_to_buffer s d output_sample_rate num_frames ceil_frames = true ↔
        (d.decode_func (if s.sample_rate ≠ output_sample_rate then ceil_frames
            else num_frames)).1 = false
        ∨ ((d.decode_func (if s.sample_rate ≠ output_sample_rate then ceil_frames
            else num_frames)).1 = true
          ∧ (d.decode_func (if s.sample_rate ≠ output_sample_rate then ceil_frames
            else num_frames)).2 ≥ s.total_samples)))
    ∧ (s.file_loaded = false ∨ s.state ≠ Player_State.PLAYER_STATE_PLAYING →
      stream_to_buffer s d output_sample_rate num_frames ceil_frames = false) := by
  constructor
  · intro hl hs
    unfold stream_to_buffer
    rw [if_neg (by simp [hl, hs])]
    simp only
    cases hd : (d.decode_func (if s.sample_rate ≠ output_sample_rate then ceil_frames
        else num_frames)).1
    · simp
    · by_cases hge : (d.decode_func (if s.sample_rate ≠ output_sample_rate then ceil_frames
          else num_frames)).2 ≥ s.total_samples
      · simp [hge]
      · simp [hge]
  · intro h
    unfold stream_to_buffer
    rw [if_pos h]

/-- Instance of C7 on the two-track collection of the example library. -/
theorem track_array_stays_aligned_witness :
    (example_tracks.remove 0).aligned ∧ (example_tracks.remove 0).count = 1
    ∧ (example_tracks.remove_range 0 0).aligned
    ∧ (example_tracks.remove_range 0 0).count = 1 := by
  have h := Track_Array.track_array_stays_aligned example_ext example_lib example_tracks
    ⟨rfl, rfl⟩ (by decide)
  obtain ⟨_, _, _, _, hr, hrr⟩ := h
  have h1 := hr 0 (by decide)
  have h2 := hrr 0 0 (Nat.le_refl 0) (by decide)
  exact ⟨h1.1, h1.2.1, h2.1, h2.2.1⟩

theorem get_track_id_congr (ext : External) (l1 l2 : Library) (info : Track_Info)
    (hc : l1.string_pool.count = l2.string_pool.count)
    (he : ∀ i, i < l1.string_pool.count → l1.string_pool.elements i = l2.string_pool.elements i) :
    get_track_id ext l1 info = get_track_id ext l2 info := by
  have hs : get_library_string l1 info.relative_file_path
      = get_library_string l2 info.relative_file_path := by
    unfold get_library_string c_string
    rw [← hc]
    congr 1
    apply List.map_congr_left
    intro k hk
    have := List.mem_range.mp hk
    exact he _ (by omega)
  rw [get_track_id_eq, get_track_id_eq, hs]

/-- The identifier storage after the first `n` rounds of the loop of `hash_ids`. -/
theorem hash_ids_loop (ext : External) (lib1 : Library) (offset n : Nat) :
    (List.range n).foldl
      (fun (l : Library) i =>
        { l with tracks := { l.tracks with ids := { l.tracks.ids with
            elements := Function.update l.tracks.ids.elements (offset + i)
              (get_track_id ext l (l.tracks.info.elements i)) } } })
      lib1
    = { lib1 with tracks := { lib1.tracks with ids := { lib1.tracks.ids with
          elements := fun j =>
            if offset ≤ j ∧ j < offset + n then
              get_track_id ext lib1 (lib1.tracks.info.elements (j - offset))
            else lib1.tracks.ids.elements j } } } := by
  induction n with
  | zero =>
    simp only [List.range_zero, List.foldl_nil]
    have : (fun j => if offset ≤ j ∧ j < offset + 0 then
        get_track_id ext lib1 (lib1.tracks.info.elements (j - offset))
        else lib1.tracks.ids.elements j) = lib1.tracks.ids.elements := by
      funext j
      rw [if_neg (by omega)]
    rw [this]
  | succ n ih =>
    rw [List.range_succ, List.foldl_append, ih]
    simp only [List.foldl_cons, List.foldl_nil]
    congr 3
    funext j
    by_cases hj : j = offset + n
    · subst hj
      rw [Function.update_same, if_pos (by omega)]
      simp only [Nat.add_sub_cancel_left]
      rfl
    · rw [Function.update_noteq hj]
      by_cases h2 : offset ≤ j ∧ j < offset + n
      · rw [if_pos h2, if_pos (by omega)]
      · rw [if_neg h2, if_neg (by omega)]

theorem hash_ids_spec (ext : External) (lib : Library) :
    (hash_ids ext lib).string_pool = lib.string_pool
    ∧ (hash_ids ext lib).tracks.info = lib.tracks.info
    ∧ (hash_ids ext lib).tracks.count = lib.tracks.count
    ∧ (hash_ids ext lib).base_path = lib.base_path
    ∧ (hash_ids ext lib).tracks.ids.count = u32_add 0 lib.tracks.info.count
    ∧ ∀ i, i < lib.tracks.info.count →
        (hash_ids ext lib).tracks.ids.elements i
          = get_track_id ext lib (lib.tracks.info.elements i) := by
  have hp := Large_Auto_Array.push_offset_n_fst 4 lib.tracks.ids.reset lib.tracks.info.count
  obtain ⟨hp1, hp2, _⟩ := hp
  unfold hash_ids
  simp only
  rw [hash_ids_loop]
  refine ⟨rfl, rfl, rfl, rfl, hp2, ?_⟩
  intro i hi
  have h0 : (Large_Auto_Array.push_n 4 lib.tracks.ids.reset lib.tracks.info.count).2 = 0 := hp1
  simp only [h0]
  rw [if_pos (by omega)]
  simp only [Nat.sub_zero]
  apply get_track_id_congr
  · rfl
  · intro _ _
    rfl

theorem u32_add_lt (a b : Nat) : u32_add a b < 2 ^ 32 := Nat.mod_lt _ (by norm_num)

theorem push_offset_n_count_lt (sizeof_T : Nat) {T : Type} (a : Large_Auto_Array T) (n : Nat) :
    (Large_Auto_Array.push_offset_n sizeof_T a n).1.count < 2 ^ 32 := by
  rw [(Large_Auto_Array.push_offset_n_fst sizeof_T a n).2.1]
  exact u32_add_lt _ _

theorem add_track_to_library_from_file_spec (ext : External) (lib : Library) (path : List Nat)
    (hpool : lib.string_pool.count < 2 ^ 32) :
    ∃ id track,
      (add_track_to_library_from_file ext lib path).tracks = lib.tracks.add id track
      ∧ track.wf
      ∧ (add_track_to_library_from_file ext lib path).string_pool.count < 2 ^ 32
      ∧ (add_track_to_library_from_file ext lib path).base_path = lib.base_path := by
  unfold add_track_to_library_from_file
  simp only
  refine ⟨_, _, rfl, ?_, ?_, trivial⟩
  · refine ⟨by norm_num, ?_, ?_, ?_⟩
    · show (if _ then _ else _ : Large_Auto_Array Nat × Nat).2 < 2 ^ 32
      split
      · simp only
        rw [(Large_Auto_Array.push_offset_n_fst _ _ _).1]
        split
        · exact push_offset_n_count_lt _ _ _
        · exact push_offset_n_count_lt _ _ _
      · simp only
        split <;> norm_num
    · show (if _ then _ else _ : Large_Auto_Array Nat × Nat × Nat).2.1 < 2 ^ 32
      split
      · simp only
        rw [(Large_Auto_Array.push_offset_n_fst _ _ _).1]
        exact push_offset_n_count_lt _ _ _
      · simp only
        rw [(Large_Auto_Array.push_offset_n_fst _ _ _).1]
        exact push_offset_n_count_lt _ _ _
    · show (Large_Auto_Array.push_offset_n 1 lib.string_pool _).2 < 2 ^ 32
      rw [(Large_Auto_Array.push_offset_n_fst _ _ _).1]
      exact hpool
  · show (if _ then _ else _ : Large_Auto_Array Nat × Nat).1.count < 2 ^ 32
    split
    · exact push_offset_n_count_lt _ _ _
    · simp only
      split
      · exact push_offset_n_count_lt _ _ _
      · exact push_offset_n_count_lt _ _ _

theorem add_track_to_library_from_file_inv (ext : External) (lib : Library) (path : List Nat)
    (h : lib.scan_inv) :
    (add_track_to_library_from_file ext lib path).scan_inv
    ∧ (add_track_to_library_from_file ext lib path).tracks.count = u32_add lib.tracks.count 1
    ∧ (add_track_to_library_from_file ext lib path).base_path = lib.base_path := by
  obtain ⟨hal, hc, hp, hwf⟩ := h
  obtain ⟨id, track, ht, htwf, hpool, hbase⟩ :=
    add_track_to_library_from_file_spec ext lib path hp
  refine ⟨⟨?_, ?_, hpool, ?_⟩, ?_, hbase⟩
  · rw [ht]
    exact Track_Array.aligned_add lib.tracks hal id track
  · rw [ht]
    exact u32_add_lt _ _
  · rw [ht]
    intro i hi
    have hcount : (lib.tracks.info.push_value 16 track).count = u32_add lib.tracks.info.count 1 :=
      Large_Auto_Array.push_value_count 16 lib.tracks.info track
    have hi2 : i < u32_add lib.tracks.info.count 1 := by
      rw [← hcount]
      exact hi
    show ((lib.tracks.info.push_value 16 track).elements i).wf
    rw [Large_Auto_Array.push_value_elements]
    by_cases hieq : i = lib.tracks.info.count
    · subst hieq
      rw [Function.update_same]
      exact htwf
    · rw [Function.update_noteq hieq]
      apply hwf
      unfold u32_add at hi2
      have := hal.2
      omega
  · rw [ht]
    rfl

mutual
theorem scan_folder_loop_inv (ext : External) :
    ∀ (entries : List Find_Data) (lib : Library) (path_buffer : List Nat) (ret : Nat),
      lib.scan_inv → ret < 2 ^ 32 →
      (scan_folder_loop ext entries lib path_buffer ret).1.scan_inv
      ∧ (scan_folder_loop ext entries lib path_buffer ret).2 < 2 ^ 32
      ∧ ((scan_folder_loop ext entries lib path_buffer ret).1.tracks.count + ret) % 2 ^ 32
          = (lib.tracks.count + (scan_folder_loop ext entries lib path_buffer ret).2) % 2 ^ 32
      ∧ (scan_folder_loop ext entries lib path_buffer ret).1.base_path = lib.base_path
  | [], lib, path_buffer, ret, h, hr => by
    rw [scan_folder_loop]
    exact ⟨h, hr, Nat.add_comm _ _ ▸ rfl, rfl⟩
  | e :: rest, lib, path_buffer, ret, h, hr => by
    rw [scan_folder_loop]
    obtain ⟨h1, h2, h3, h4⟩ := scan_folder_entry_inv ext e lib path_buffer ret h hr
    obtain ⟨k1, k2, k3, k4⟩ := scan_folder_loop_inv ext rest
      (scan_folder_entry ext e lib path_buffer ret).1 path_buffer
      (scan_folder_entry ext e lib path_buffer ret).2 h1 h2
    refine ⟨k1, k2, ?_, k4.trans h4⟩
    have hc0 := h.2.1
    have hc1 := h1.2.1
    have hc2 := k1.2.1
    omega
theorem scan_folder_entry_inv (ext : External) :
    ∀ (e : Find_Data) (lib : Library) (path_buffer : List Nat) (ret : Nat),
      lib.scan_inv → ret < 2 ^ 32 →
      (scan_folder_entry ext e lib path_buffer ret).1.scan_inv
      ∧ (scan_folder_entry ext e lib path_buffer ret).2 < 2 ^ 32
      ∧ ((scan_folder_entry ext e lib path_buffer ret).1.tracks.count + ret) % 2 ^ 32
          = (lib.tracks.count + (scan_folder_entry ext e lib path_buffer ret).2) % 2 ^ 32
      ∧ (scan_folder_entry ext e lib path_buffer ret).1.base_path = lib.base_path
  | Find_Data.file cFileName, lib, path_buffer, ret, h, hr => by
    rw [scan_folder_entry]
    split
    · exact ⟨h, hr, Nat.add_comm _ _ ▸ rfl, rfl⟩
    · split
      · obtain ⟨a1, a2, a3⟩ :=
          add_track_to_library_from_file_inv ext lib (path_buffer ++ cFileName) h
        refine ⟨a1, u32_add_lt _ _, ?_, a3⟩
        simp only
        rw [a2]
        unfold u32_add
        omega
      · exact ⟨h, hr, Nat.add_comm _ _ ▸ rfl, rfl⟩
  | Find_Data.directory cFileName (some (first :: entries)), lib, path_buffer, ret, h, hr => by
    rw [scan_folder_entry]
    split
    · exact ⟨h, hr, Nat.add_comm _ _ ▸ rfl, rfl⟩
    · obtain ⟨k1, k2, k3, k4⟩ := scan_folder_loop_inv ext entries lib
        (path_buffer ++ cFileName ++ [92]) 0 h (by norm_num)
      refine ⟨k1, u32_add_lt _ _, ?_, k4⟩
      simp only
      unfold u32_add
      have hc0 := h.2.1
      have hc1 := k1.2.1
      omega
  | Find_Data.directory cFileName none, lib, path_buffer, ret, h, hr => by
    rw [scan_folder_entry]
    · split
      · exact ⟨h, hr, Nat.add_comm _ _ ▸ rfl, rfl⟩
      · refine ⟨h, u32_add_lt _ _, ?_, rfl⟩
        simp only
        unfold u32_add
        omega
    · intro head entries hx
      cases hx
  | Find_Data.directory cFileName (some []), lib, path_buffer, ret, h, hr => by
    rw [scan_folder_entry]
    · split
      · exact ⟨h, hr, Nat.add_comm _ _ ▸ rfl, rfl⟩
      · refine ⟨h, u32_add_lt _ _, ?_, rfl⟩
        simp only
        unfold u32_add
        omega
    · intro head entries hx
      cases hx
end

theorem u32_of_bytes_lt (bytes : List Nat) : u32_of_bytes bytes < 2 ^ 32 := by
  unfold u32_of_bytes
  omega

theorem u32_of_bytes_to_bytes (v : Nat) (h : v < 2 ^ 32) : u32_of_bytes (u32_to_bytes v) = v := by
  unfold u32_of_bytes u32_to_bytes
  simp only [List.getD_cons_zero, List.getD_cons_succ]
  omega

theorem u32_to_bytes_length (v : Nat) : (u32_to_bytes v).length = 4 := rfl

theorem Library_Header.header_to_bytes_length (h : Library_Header) : h.to_bytes.length = 20 := rfl

theorem Track_Info.record_to_bytes_length (t : Track_Info) : t.to_bytes.length = 16 := rfl

theorem Library_Header.header_of_bytes_to_bytes (h : Library_Header) (h1 : h.magic < 2 ^ 32)
    (h2 : h.version < 2 ^ 32) (h3 : h.track_count < 2 ^ 32) (h4 : h.string_pool_size < 2 ^ 32)
    (h5 : h.base_path < 2 ^ 32) (rest : List Nat) :
    Library_Header.of_bytes ((h.to_bytes ++ rest).take 20) = h := by
  have e1 := u32_of_bytes_to_bytes _ h1
  have e2 := u32_of_bytes_to_bytes _ h2
  have e3 := u32_of_bytes_to_bytes _ h3
  have e4 := u32_of_bytes_to_bytes _ h4
  have e5 := u32_of_bytes_to_bytes _ h5
  cases h
  simp only [Library_Header.to_bytes, Library_Header.of_bytes, u32_to_bytes] at *
  simp only [List.cons_append, List.nil_append, List.take_succ_cons, List.take_zero,
    List.drop_succ_cons, List.drop_zero]
  rw [e1, e2, e3, e4, e5]

theorem Track_Info.record_of_bytes_to_bytes (t : Track_Info) (h : t.wf) (rest : List Nat) :
    Track_Info.of_bytes ((t.to_bytes ++ rest).take 16) = t := by
  obtain ⟨h1, h2, h3, h4⟩ := h
  have e1 := u32_of_bytes_to_bytes _ h1
  have e2 := u32_of_bytes_to_bytes _ h2
  have e3 := u32_of_bytes_to_bytes _ h3
  have e4 := u32_of_bytes_to_bytes _ h4
  cases t
  simp only [Track_Info.to_bytes, Track_Info.of_bytes, u32_to_bytes] at *
  simp only [List.cons_append, List.nil_append, List.take_succ_cons, List.take_zero,
    List.drop_succ_cons, List.drop_zero]
  rw [e1, e2, e3, e4]

theorem push_n_fst {T : Type} (sizeof_T : Nat) (a : Large_Auto_Array T) (n : Nat) :
    (Large_Auto_Array.push_n sizeof_T a n).2 = a.count
    ∧ (Large_Auto_Array.push_n sizeof_T a n).1.count = u32_add a.count n
    ∧ (Large_Auto_Array.push_n sizeof_T a n).1.elements = a.elements :=
  Large_Auto_Array.push_offset_n_fst sizeof_T a n

theorem load_library_read_spec (header : Library_Header) (stream : List Nat) (lib : Library) :
    (load_library_read header stream lib).tracks.count = header.track_count
    ∧ (load_library_read header stream lib).tracks.info.count = u32_add 0 header.track_count
    ∧ (load_library_read header stream lib).tracks.info.elements
        = fread_track_info lib.tracks.info.elements header.track_count stream
    ∧ (load_library_read header stream lib).string_pool.count
        = u32_add 0 header.string_pool_size
    ∧ (load_library_read header stream lib).string_pool.elements
        = fread_chars lib.string_pool.elements header.string_pool_size
            (stream.drop (16 * header.track_count)) := by
  obtain ⟨_, i2, i3⟩ := push_n_fst 16 lib.tracks.info.reset header.track_count
  obtain ⟨_, p2, p3⟩ := push_n_fst 1 lib.string_pool.reset header.string_pool_size
  unfold load_library_read
  simp only
  refine ⟨trivial, i2, ?_, p2, ?_⟩
  · rw [i3]
    rfl
  · rw [p3]
    rfl

theorem load_library_spec (ext : External) (header : Library_Header) (stream : List Nat)
    (lib : Library) :
    (load_library ext header (some stream) lib).1 = true
    ∧ (load_library ext header (some stream) lib).2.tracks
        = (hash_ids ext (load_library_read
            (Library_Header.of_bytes (fread header.to_bytes stream).1)
            (fread header.to_bytes stream).2 lib)).tracks
    ∧ (load_library ext header (some stream) lib).2.string_pool
        = (load_library_read
            (Library_Header.of_bytes (fread header.to_bytes stream).1)
            (fread header.to_bytes stream).2 lib).string_pool := by
  have hs := (hash_ids_spec ext (load_library_read
    (Library_Header.of_bytes (fread header.to_bytes stream).1)
    (fread header.to_bytes stream).2 lib)).1
  simp only [load_library]
  exact ⟨trivial, trivial, hs⟩

theorem scan_folder_inv (ext : External) (found : Option (List Find_Data)) (lib : Library)
    (path_buffer : List Nat) (h : lib.scan_inv) (h0 : lib.tracks.count = 0) :
    (scan_folder ext found lib path_buffer).1.scan_inv
    ∧ (scan_folder ext found lib path_buffer).1.tracks.count
        = (scan_folder ext found lib path_buffer).2 := by
  unfold scan_folder
  split
  · rename_i first entries
    obtain ⟨k1, k2, k3, _⟩ := scan_folder_loop_inv ext entries lib path_buffer 0 h (by norm_num)
    refine ⟨k1, ?_⟩
    have := k1.2.1
    omega
  · exact ⟨h, h0⟩

theorem update_library_reset_inv (lib : Library) (base_path : List Nat) :
    Library.scan_inv { update_library_reset lib with base_path := base_path }
    ∧ (update_library_reset lib).tracks.count = 0 := by
  refine ⟨⟨Track_Array.aligned_reset lib.tracks, ?_, ?_, ?_⟩, rfl⟩
  · show (0 : Nat) < 2 ^ 32
    norm_num
  · exact push_offset_n_count_lt 1 lib.string_pool.reset 1
  · intro i hi
    exact absurd hi (Nat.not_lt_zero i)

theorem update_library_write_spec (ext : External) (source_path : List Nat) (track_count : Nat)
    (lib : Library) (hpool : lib.string_pool.count < 2 ^ 32) :
    ∃ (pool : Large_Auto_Array Nat) (base : Nat),
      pool.count < 2 ^ 32 ∧ base < 2 ^ 32
      ∧ (update_library_write ext source_path track_count lib).1
          = hash_ids ext { lib with string_pool := pool }
      ∧ (update_library_write ext source_path track_count lib).2
          = (Library_Header.to_bytes
              { magic := TLIB, version := 1, track_count := track_count,
                string_pool_size := pool.count, base_path := base })
            ++ (List.range track_count).flatMap
                (fun i => (lib.tracks.info.elements i).to_bytes)
            ++ (List.range pool.count).map pool.elements := by
  refine ⟨_, _, ?_, ?_, rfl, rfl⟩
  · exact push_offset_n_count_lt 1 _ _
  · rw [(Large_Auto_Array.push_offset_n_fst 1 _ _).1]
    exact hpool

theorem update_library_written (ext : External) (found : Option (List Find_Data))
    (source_path : Option (List Nat)) (lib : Library) (output : List Nat)
    (h : (update_library ext found source_path lib).2.2 = some output) :
    ∃ (scanned : Library) (pool : Large_Auto_Array Nat) (base : Nat),
      scanned.scan_inv ∧ scanned.tracks.count ≠ 0 ∧ pool.count < 2 ^ 32 ∧ base < 2 ^ 32
      ∧ (update_library ext found source_path lib).1 = true
      ∧ (update_library ext found source_path lib).2.1
          = hash_ids ext { scanned with string_pool := pool }
      ∧ output
          = (Library_Header.to_bytes
              { magic := TLIB, version := 1, track_count := scanned.tracks.count,
                string_pool_size := pool.count, base_path := base })
            ++ (List.range scanned.tracks.count).flatMap
                (fun i => (scanned.tracks.info.elements i).to_bytes)
            ++ (List.range pool.count).map pool.elements := by
  unfold update_library at h ⊢
  simp only at h ⊢
  generalize hsrc : (match source_path with
    | none => (update_library_reset lib).base_path
    | some p => p) = src at h ⊢
  split at h
  · simp at h
  · rename_i hexists
    rw [if_neg hexists]
    obtain ⟨hstart, hzero⟩ := update_library_reset_inv lib (src.take 512)
    obtain ⟨k1, k2⟩ := scan_folder_inv ext found _ src hstart hzero
    split at h
    · rename_i hcount
      rw [if_pos hcount]
      simp only [Option.some.injEq] at h
      obtain ⟨pool, base, w1, w2, w3, w4⟩ := update_library_write_spec ext src
        (scan_folder ext found { update_library_reset lib with base_path := src.take 512 } src).2
        (scan_folder ext found { update_library_reset lib with base_path := src.take 512 } src).1
        k1.2.2.1
      refine ⟨_, pool, base, k1, ?_, w1, w2, rfl, w3, ?_⟩
      · rw [k2]
        exact hcount
      · rw [← h, w4, k2]
    · simp at h

theorem hash_ids_rederives (ext : External) (lib : Library)
    (hc : lib.tracks.info.count = lib.tracks.count) :
    ∀ i, i < (hash_ids ext lib).tracks.count →
      (hash_ids ext lib).tracks.ids.elements i
        = get_track_id ext (hash_ids ext lib) ((hash_ids ext lib).tracks.info.elements i) := by
  obtain ⟨s1, s2, s3, _, _, s6⟩ := hash_ids_spec ext lib
  intro i hi
  rw [s3, ← hc] at hi
  rw [s6 i hi, s2]
  apply get_track_id_congr
  · rw [s1]
  · intro j _
    rw [s1]

theorem load_library_rederives (ext : External) (header : Library_Header) (stream : List Nat)
    (lib : Library) :
    ∀ i, i < (load_library ext header (some stream) lib).2.tracks.count →
      (load_library ext header (some stream) lib).2.tracks.ids.elements i
        = get_track_id ext (load_library ext header (some stream) lib).2
            ((load_library ext header (some stream) lib).2.tracks.info.elements i) := by
  obtain ⟨_, l2, l3⟩ := load_library_spec ext header stream lib
  obtain ⟨r1, r2, _, _, _⟩ := load_library_read_spec
    (Library_Header.of_bytes (fread header.to_bytes stream).1)
    (fread header.to_bytes stream).2 lib
  have hlt : (Library_Header.of_bytes (fread header.to_bytes stream).1).track_count < 2 ^ 32 :=
    u32_of_bytes_lt _
  have hc : (load_library_read (Library_Header.of_bytes (fread header.to_bytes stream).1)
      (fread header.to_bytes stream).2 lib).tracks.info.count
      = (load_library_read (Library_Header.of_bytes (fread header.to_bytes stream).1)
      (fread header.to_bytes stream).2 lib).tracks.count := by
    rw [r1, r2]
    unfold u32_add
    omega
  have key := hash_ids_rederives ext _ hc
  have hs := (hash_ids_spec ext (load_library_read
    (Library_Header.of_bytes (fread header.to_bytes stream).1)
    (fread header.to_bytes stream).2 lib)).1
  intro i hi
  rw [l2] at hi ⊢
  rw [key i hi]
  apply get_track_id_congr
  · rw [l3, hs]
  · intro j _
    rw [l3, hs]

/-- C3: after `load_library` succeeds, and after `update_library` has found at
least one track (the case in which it writes the library file), every index i
below the track count has `ids[i] = get_track_id(info[i])`, computed from the
relative path in the pool, whatever identifier the scan assigned. -/
theorem identifiers_are_rederived (ext : External) :
    (∀ header file lib, (load_library ext header file lib).1 = true →
      ∀ i, i < (load_library ext header file lib).2.tracks.count →
        (load_library ext header file lib).2.tracks.ids.elements i
          = get_track_id ext (load_library ext header file lib).2
              ((load_library ext header file lib).2.tracks.info.elements i))
    ∧ (∀ found source_path lib,
      (update_library ext found source_path lib).2.2 ≠ none →
      ∀ i, i < (update_library ext found source_path lib).2.1.tracks.count →
        (update_library ext found source_path lib).2.1.tracks.ids.elements i
          = get_track_id ext (update_library ext found source_path lib).2.1
              ((update_library ext found source_path lib).2.1.tracks.info.elements i)) := by
  constructor
  · intro header file lib hok
    cases file with
    | none => simp [load_library] at hok
    | some stream => exact load_library_rederives ext header stream lib
  · intro found source_path lib hw
    cases hout : (update_library ext found source_path lib).2.2 with
    | none => exact absurd hout hw
    | some output =>
      obtain ⟨scanned, pool, base, hinv, _, _, _, _, hlib, _⟩ :=
        update_library_written ext found source_path lib output hout
      rw [hlib]
      apply hash_ids_rederives
      exact hinv.1.2

theorem length_flatMap_range (f : Nat → List Nat) (k : Nat) (hlen : ∀ j, (f j).length = k)
    (n : Nat) : ((List.range n).flatMap f).length = k * n := by
  induction n with
  | zero => simp
  | succ n ih =>
    rw [List.range_succ, List.flatMap_append, List.length_append, ih]
    simp only [List.flatMap_cons, List.flatMap_nil, List.append_nil]
    rw [hlen n]
    ring

theorem drop_flatMap_range (f : Nat → List Nat) (k : Nat) (hlen : ∀ j, (f j).length = k)
    (n i : Nat) (hi : i < n) (tail : List Nat) :
    ∃ rest, ((List.range n).flatMap f ++ tail).drop (k * i) = f i ++ rest := by
  induction n generalizing tail with
  | zero => omega
  | succ n ih =>
    rw [List.range_succ, List.flatMap_append, List.append_assoc]
    simp only [List.flatMap_cons, List.flatMap_nil, List.append_nil]
    by_cases hin : i < n
    · exact ih hin (f n ++ tail)
    · have hieq : i = n := by omega
      subst hieq
      refine ⟨tail, ?_⟩
      exact List.drop_left' (length_flatMap_range f k hlen i)

theorem fread_of_long (dst stream : List Nat) (h : dst.length ≤ stream.length) :
    fread dst stream = (stream.take dst.length, stream.drop dst.length) := by
  unfold fread
  rw [List.drop_eq_nil_of_le h, List.append_nil]

theorem get_library_string_congr (l1 l2 : Library) (location : Nat)
    (hc : l1.string_pool.count = l2.string_pool.count)
    (he : ∀ i, i < l1.string_pool.count → l1.string_pool.elements i = l2.string_pool.elements i) :
    get_library_string l1 location = get_library_string l2 location := by
  unfold get_library_string c_string
  rw [← hc]
  congr 1
  apply List.map_congr_left
  intro k hk
  have := List.mem_range.mp hk
  exact he _ (by omega)

theorem fread_track_info_of_records (old : Nat → Track_Info) (records : Nat → Track_Info)
    (n : Nat) (hwf : ∀ i, i < n → (records i).wf) (tail : List Nat) (i : Nat) (hi : i < n) :
    fread_track_info old n ((List.range n).flatMap (fun j => (records j).to_bytes) ++ tail) i
      = records i := by
  unfold fread_track_info
  rw [if_pos hi]
  obtain ⟨rest, hrest⟩ := drop_flatMap_range (fun j => (records j).to_bytes) 16
    (fun j => Track_Info.record_to_bytes_length (records j)) n i hi tail
  rw [hrest, fread_of_long]
  · simp only
    rw [Track_Info.record_to_bytes_length]
    exact Track_Info.record_of_bytes_to_bytes (records i) (hwf i hi) rest
  · rw [Track_Info.record_to_bytes_length, List.length_append, Track_Info.record_to_bytes_length]
    omega

theorem fread_chars_of_bytes (old : Nat → Nat) (mem : Nat → Nat) (n : Nat) (i : Nat)
    (hi : i < n) : fread_chars old n ((List.range n).map mem) i = mem i := by
  unfold fread_chars
  rw [if_pos hi]
  simp [hi]

theorem TLIB_lt : TLIB < 2 ^ 32 := u32_of_bytes_lt _

theorem to_list_congr {T : Type} (a b : Large_Auto_Array T) (hc : a.count = b.count)
    (he : ∀ i, i < a.count → a.elements i = b.elements i) : a.to_list = b.to_list := by
  unfold Large_Auto_Array.to_list
  rw [← hc]
  apply List.map_congr_left
  intro k hk
  exact he k (List.mem_range.mp hk)

theorem u32_add_zero_of_lt (n : Nat) (h : n < 2 ^ 32) : u32_add 0 n = n := by
  unfold u32_add
  rw [Nat.zero_add]
  exact Nat.mod_eq_of_lt h

/-- Reading back what `update_library` wrote, into any library whatever:
the middle of `load_library` restores the count, the records and the pool. -/
theorem load_library_read_written (scanned : Library) (pool : Large_Auto_Array Nat)
    (hinv : scanned.scan_inv) (hpool : pool.count < 2 ^ 32) (prior : Library)
    (version base : Nat) :
    let header : Library_Header :=
      { magic := TLIB, version := version, track_count := scanned.tracks.count,
        string_pool_size := pool.count, base_path := base }
    let stream := (List.range scanned.tracks.count).flatMap
        (fun i => (scanned.tracks.info.elements i).to_bytes)
      ++ (List.range pool.count).map pool.elements
    (load_library_read header stream prior).tracks.count = scanned.tracks.count
    ∧ (load_library_read header stream prior).tracks.info.count = scanned.tracks.count
    ∧ (∀ i, i < scanned.tracks.count →
        (load_library_read header stream prior).tracks.info.elements i
          = scanned.tracks.info.elements i)
    ∧ (load_library_read header stream prior).string_pool.count = pool.count
    ∧ (∀ i, i < pool.count →
        (load_library_read header stream prior).string_pool.elements i = pool.elements i) := by
  intro header stream
  obtain ⟨⟨_, hal⟩, hcount, _, hwf⟩ := hinv
  obtain ⟨r1, r2, r3, r4, r5⟩ := load_library_read_spec header stream prior
  refine ⟨r1, ?_, ?_, ?_, ?_⟩
  · rw [r2]
    exact u32_add_zero_of_lt _ hcount
  · intro i hi
    rw [r3]
    exact fread_track_info_of_records _ _ _ (fun j hj => hwf j (by rw [hal]; exact hj)) _ i hi
  · rw [r4]
    exact u32_add_zero_of_lt _ hpool
  · intro i hi
    rw [r5]
    have hlen : ((List.range scanned.tracks.count).flatMap
        (fun i => (scanned.tracks.info.elements i).to_bytes)).length
          = 16 * header.track_count :=
      length_flatMap_range _ 16 (fun j => Track_Info.record_to_bytes_length _) _
    have hdrop : stream.drop (16 * header.track_count)
        = (List.range pool.count).map pool.elements := List.drop_left' hlen
    rw [hdrop]
    exact fread_chars_of_bytes _ _ _ i hi

/-- C1: library round trip. Whenever `update_library` writes the library file
(which it does exactly when the scan found at least one track), `load_library`
applied to the written bytes, into any library and with any prior content of
its header variable, succeeds and yields the same number of tracks, the same
records in the same order, the same string pool bytes, hence the same string
at every pool offset, and the same identifier for every track. -/
theorem library_round_trip (ext : External) (found : Option (List Find_Data))
    (source_path : Option (List Nat)) (lib : Library) (output : List Nat)
    (h : (update_library ext found source_path lib).2.2 = some output)
    (header : Library_Header) (prior : Library) :
    (load_library ext header (some output) prior).1 = true
    ∧ 1 ≤ (update_library ext found source_path lib).2.1.tracks.count
    ∧ (load_library ext header (some output) prior).2.tracks.count
        = (update_library ext found source_path lib).2.1.tracks.count
    ∧ (load_library ext header (some output) prior).2.tracks.info.to_list
        = (update_library ext found source_path lib).2.1.tracks.info.to_list
    ∧ (load_library ext header (some output) prior).2.string_pool.to_list
        = (update_library ext found source_path lib).2.1.string_pool.to_list
    ∧ (∀ location, get_library_string (load_library ext header (some output) prior).2 location
        = get_library_string (update_library ext found source_path lib).2.1 location)
    ∧ (load_library ext header (some output) prior).2.tracks.ids.to_list
        = (update_library ext found source_path lib).2.1.tracks.ids.to_list := by
  obtain ⟨scanned, pool, base, hinv, hne, hpool, hbase, _, hsaved, hout⟩ :=
    update_library_written ext found source_path lib output h
  have hal := hinv.1
  have hcount := hinv.2.1
  obtain ⟨l1, l2, l3⟩ := load_library_spec ext header output prior
  have hlen : header.to_bytes.length
      ≤ output.length := by
    rw [hout, List.length_append, List.length_append,
      Library_Header.header_to_bytes_length, Library_Header.header_to_bytes_length]
    omega
  rw [fread_of_long _ _ hlen] at l2 l3
  simp only [Library_Header.header_to_bytes_length] at l2 l3
  have htake : Library_Header.of_bytes (output.take 20)
      = { magic := TLIB, version := 1, track_count := scanned.tracks.count,
          string_pool_size := pool.count, base_path := base } := by
    rw [hout, List.append_assoc]
    exact Library_Header.header_of_bytes_to_bytes _ TLIB_lt (by norm_num) hcount hpool hbase _
  have hdrop : output.drop 20
      = (List.range scanned.tracks.count).flatMap
          (fun i => (scanned.tracks.info.elements i).to_bytes)
        ++ (List.range pool.count).map pool.elements := by
    rw [hout, List.append_assoc]
    exact List.drop_left' (Library_Header.header_to_bytes_length _)
  rw [htake, hdrop] at l2 l3
  obtain ⟨r1, r2, r3, r4, r5⟩ := load_library_read_written scanned pool hinv hpool prior 1 base
  generalize hread : load_library_read
      { magic := TLIB, version := 1, track_count := scanned.tracks.count,
        string_pool_size := pool.count, base_path := base }
      ((List.range scanned.tracks.count).flatMap
          (fun i => (scanned.tracks.info.elements i).to_bytes)
        ++ (List.range pool.count).map pool.elements) prior = read at l2 l3 r1 r2 r3 r4 r5
  obtain ⟨_, a2, a3, _, a5, a6⟩ := hash_ids_spec ext read
  obtain ⟨b1, b2, b3, _, b5, b6⟩ := hash_ids_spec ext { scanned with string_pool := pool }
  simp only at b1 b2 b3 b5 b6
  have hinfo : scanned.tracks.info.count = scanned.tracks.count := hal.2
  rw [hsaved, l1, l2, l3]
  refine ⟨rfl, ?_, ?_, ?_, ?_, ?_, ?_⟩
  · rw [b3]
    omega
  · rw [a3, b3, r1]
  · rw [a2, b2]
    exact to_list_congr _ _ (by rw [r2, hinfo]) (fun i hi => r3 i (by rw [r2] at hi; exact hi))
  · rw [b1]
    exact to_list_congr _ _ r4 (fun i hi => r5 i (by rw [r4] at hi; exact hi))
  · intro location
    apply get_library_string_congr
    · rw [l3, b1]
      exact r4
    · intro i hi
      rw [l3] at hi
      rw [l3, b1]
      exact r5 i (by rw [r4] at hi; exact hi)
  · apply to_list_congr
    · rw [a5, b5, r2, hinfo]
    · intro i hi
      rw [a5, r2, u32_add_zero_of_lt _ hcount] at hi
      rw [a6 i (by rw [r2]; exact hi), b6 i (by rw [hinfo]; exact hi), r3 i hi]
      exact get_track_id_congr ext _ _ _ r4 (fun k hk => r5 k (by rw [r4] at hk; exact hk))

theorem example_update_written :
    (update_library example_ext example_found (some [67, 58, 92]) example_lib).2.2
      = some example_output := by
  have hr : List.range 17 = [0, 1, 2, 3, 4, 5, 6, 7, 8, 9, 10, 11, 12, 13, 14, 15, 16] := by
    decide
  have hr1 : List.range 1 = [0] := by decide
  simp [hr1, update_library, update_library_write, scan_folder, example_found,
    scan_folder_loop, scan_folder_entry, find_codec_from_file_name, strrchr, u32_add,
    add_track_to_library_from_file, update_library_reset, example_lib, example_ext,
    utf16_to_utf8, Large_Auto_Array.push_offset_n, Large_Auto_Array.push,
    Large_Auto_Array.push_n, Large_Auto_Array.reset, Track_Array.reset, example_pool,
    example_tracks, Large_Auto_Array.of_list, Track_Array.add, Large_Auto_Array.push_value,
    buffer_string, Large_Auto_Array.grow_allocated, Large_Auto_Array.chunk_elements,
    Large_Auto_Array.system_reallocate, hr, Library_Header.to_bytes, Track_Info.to_bytes,
    u32_to_bytes, TLIB, u32_of_bytes, write_bytes, strcpy, example_output, Function.update]

/-- C1 at a concrete scan: `C:\` holds `a.mp3`; the 53 bytes written are read
back into the two-track example library with success and the same identifiers. -/
theorem library_round_trip_witness :
    (update_library example_ext example_found (some [67, 58, 92]) example_lib).2.2
      = some example_output
    ∧ (load_library example_ext ⟨0, 0, 0, 0, 0⟩ (some example_output) example_lib).1 = true
    ∧ (load_library example_ext ⟨0, 0, 0, 0, 0⟩ (some example_output)
          example_lib).2.tracks.ids.to_list
        = (update_library example_ext example_found (some [67, 58, 92])
            example_lib).2.1.tracks.ids.to_list :=
  ⟨example_update_written,
    (library_round_trip example_ext example_found (some [67, 58, 92]) example_lib
      example_output example_update_written ⟨0, 0, 0, 0, 0⟩ example_lib).1,
    (library_round_trip example_ext example_found (some [67, 58, 92]) example_lib
      example_output example_update_written ⟨0, 0, 0, 0, 0⟩ example_lib).2.2.2.2.2.2⟩

theorem example_foreign_header :
    Library_Header.of_bytes
        (fread (Library_Header.to_bytes ⟨0, 0, 0, 0, 0⟩) example_foreign).1
      = ⟨u32_of_bytes [88, 76, 73, 66], 1, 1, 17, 13⟩ := by
  simp [fread, Library_Header.to_bytes, Library_Header.of_bytes, u32_to_bytes, u32_of_bytes,
    example_foreign, example_output]

/-- C9 at a failing input: the file `example_foreign` starts with `XLIB`, not
`TLIB`, yet `load_library` returns true and the two-track library in memory is
replaced by the one track and the 17 pool bytes that the file describes. -/
theorem load_library_accepts_foreign_magic :
    (Library_Header.of_bytes
        (fread (Library_Header.to_bytes ⟨0, 0, 0, 0, 0⟩) example_foreign).1).magic ≠ TLIB
    ∧ (load_library example_ext ⟨0, 0, 0, 0, 0⟩ (some example_foreign) example_lib).1 = true
    ∧ (load_library example_ext ⟨0, 0, 0, 0, 0⟩ (some example_foreign)
        example_lib).2.tracks.count = 1
    ∧ (load_library example_ext ⟨0, 0, 0, 0, 0⟩ (some example_foreign)
        example_lib).2.string_pool.count = 17
    ∧ example_lib.tracks.count = 2
    ∧ example_lib.string_pool.count = 15 := by
  obtain ⟨l1, l2, l3⟩ := load_library_spec example_ext ⟨0, 0, 0, 0, 0⟩ example_foreign
    example_lib
  rw [example_foreign_header] at l2 l3 ⊢
  obtain ⟨r1, _, _, r4, _⟩ := load_library_read_spec
    ⟨u32_of_bytes [88, 76, 73, 66], 1, 1, 17, 13⟩
    (fread (Library_Header.to_bytes ⟨0, 0, 0, 0, 0⟩) example_foreign).2 example_lib
  refine ⟨?_, l1, ?_, ?_, rfl, rfl⟩
  · simp [TLIB, u32_of_bytes]
  · rw [l2, (hash_ids_spec example_ext _).2.2.1, r1]
  · rw [l3, r4]
    simp [u32_add]

/-- C10 as stated fails: the two-track example library is asked to scan `D:\`,
which does not exist. `update_library` returns false and writes no file, but
the library is not left as it was: the track count has gone from 2 to 0 and
the string pool from 15 bytes to the single byte of the empty string. -/
theorem update_library_failed_scan_resets :
    example_ext.path_exists_w [68, 58, 92] = false
    ∧ (update_library example_ext none (some [68, 58, 92]) example_lib).1 = false
    ∧ (update_library example_ext none (some [68, 58, 92]) example_lib).2.2 = none
    ∧ example_lib.tracks.count = 2
    ∧ (update_library example_ext none (some [68, 58, 92]) example_lib).2.1.tracks.count = 0
    ∧ (update_library example_ext none (some [68, 58, 92])
        example_lib).2.1.tracks.ids.to_list = []
    ∧ (update_library example_ext none (some [68, 58, 92])
        example_lib).2.1.tracks.info.to_list = []
    ∧ example_lib.string_pool.count = 15
    ∧ (update_library example_ext none (some [68, 58, 92])
        example_lib).2.1.string_pool.to_list = [0] := by
  have hr1 : List.range 1 = [0] := by decide
  simp [hr1, update_library, update_library_reset, example_lib, example_ext, example_tracks,
    example_pool, Large_Auto_Array.reset, Track_Array.reset, Large_Auto_Array.push,
    Large_Auto_Array.push_n, Large_Auto_Array.push_offset_n, Large_Auto_Array.of_list,
    Large_Auto_Array.to_list, u32_add]

/-- The loop of `update_tracks` after `n` rounds. -/
theorem update_tracks_loop (ext : External) (lib : Library) (ids : Nat → Nat)
    (start : Track_Array) (n : Nat) (hn : n < 2 ^ 32) :
    let t := (List.range n).foldl
      (fun (t : Track_Array) i =>
        match lookup_track lib (ids i) with
        | some track => t.add_from_info ext lib track
        | none => t)
      start.reset
    t.info.to_list = ((List.range n).map ids).filterMap (lookup_track lib)
    ∧ t.ids.to_list
        = (((List.range n).map ids).filterMap (lookup_track lib)).map (get_track_id ext lib)
    ∧ t.count = (((List.range n).map ids).filterMap (lookup_track lib)).length
    ∧ t.aligned := by
  induction n with
  | zero => exact ⟨rfl, rfl, rfl, rfl, rfl⟩
  | succ n ih =>
    obtain ⟨i1, i2, i3, i4⟩ := ih (by omega)
    simp only [List.range_succ, List.foldl_append, List.foldl_cons, List.foldl_nil,
      List.map_append, List.map_cons, List.map_nil, List.filterMap_append]
    generalize (List.range n).foldl
      (fun (t : Track_Array) i =>
        match lookup_track lib (ids i) with
        | some track => t.add_from_info ext lib track
        | none => t)
      start.reset = t at i1 i2 i3 i4
    have hle : (((List.range n).map ids).filterMap (lookup_track lib)).length ≤ n := by
      have := List.length_filterMap_le (lookup_track lib) ((List.range n).map ids)
      simpa using this
    cases hl : lookup_track lib (ids n) with
    | none =>
      simp only [List.filterMap_cons, hl, List.filterMap_nil, List.append_nil, List.map_append,
        List.map_nil]
      exact ⟨i1, i2, i3, i4⟩
    | some track =>
      simp only [List.filterMap_cons, hl, List.filterMap_nil, List.map_append, List.map_cons,
        List.map_nil, List.length_append, List.length_cons, List.length_nil]
      obtain ⟨a1, a2⟩ := i4
      have hc : t.count + 1 < 2 ^ 32 := by omega
      refine ⟨?_, ?_, ?_, Track_Array.aligned_add_from_info ext lib t ⟨a1, a2⟩ track⟩
      · show (t.info.push_value 16 track).to_list = _
        rw [Large_Auto_Array.to_list_push_value 16 t.info track (by rw [a2]; exact hc), i1]
      · show (t.ids.push_value 4 (get_track_id ext lib track)).to_list = _
        rw [Large_Auto_Array.to_list_push_value 4 t.ids _ (by rw [a1]; exact hc), i2]
      · show u32_add t.count 1 = _
        rw [← i3]
        exact Nat.mod_eq_of_lt hc

/-- C4: playlist dangling tolerance. `Playlist::update_tracks` leaves the
identifier list as it is, and afterwards the resolved collection holds, in the
order of the identifier list, the record that `lookup_track` returns for each
identifier that resolves and nothing for an identifier that does not; the
resolved identifiers are those of these records and the three lengths agree.
The identifier list has a `u32` length. -/
theorem update_tracks_keeps_dangling (ext : External) (lib : Library) (p : Playlist)
    (h : p.track_ids.count < 2 ^ 32) :
    (p.update_tracks ext lib).track_ids = p.track_ids
    ∧ (p.update_tracks ext lib).name = p.name
    ∧ (p.update_tracks ext lib).tracks.info.to_list
        = p.track_ids.to_list.filterMap (lookup_track lib)
    ∧ (p.update_tracks ext lib).tracks.ids.to_list
        = (p.track_ids.to_list.filterMap (lookup_track lib)).map (get_track_id ext lib)
    ∧ (p.update_tracks ext lib).tracks.count
        = (p.track_ids.to_list.filterMap (lookup_track lib)).length
    ∧ (p.update_tracks ext lib).tracks.aligned := by
  obtain ⟨h1, h2, h3, h4⟩ :=
    update_tracks_loop ext lib p.track_ids.elements p.tracks p.track_ids.count h
  exact ⟨rfl, rfl, h1, h2, h3, h4⟩

theorem example_playlist_resolved :
    example_playlist.track_ids.to_list.filterMap (lookup_track example_lib)
      = [⟨0, 0, 0, 9⟩, ⟨0, 0, 0, 1⟩] := by
  rfl

/-- C4 on the playlist 478, 7, 415 over the example library: the identifier 7
stays in the list and the resolved collection holds the two records found. -/
theorem update_tracks_keeps_dangling_witness :
    (example_playlist.update_tracks example_ext example_lib).track_ids.to_list = [478, 7, 415]
    ∧ (example_playlist.update_tracks example_ext example_lib).tracks.info.to_list
        = [⟨0, 0, 0, 9⟩, ⟨0, 0, 0, 1⟩] := by
  have h := update_tracks_keeps_dangling example_ext example_lib example_playlist (by decide)
  refine ⟨?_, h.2.2.1.trans example_playlist_resolved⟩
  rw [h.1]
  rfl

theorem strrchr_of_mem (s : List Nat) (h : 92 ∈ s) :
    ∃ found, strrchr s 92 = some found ∧ found.drop 1 = file_name_component s := by
  rcases strrchr_spec s 92 with ⟨_, hc⟩ | ⟨front, back, hs, hp, hb⟩
  · exact absurd h hc
  · refine ⟨_, hs, ?_⟩
    simp only [List.drop_succ_cons, List.drop_zero]
    rw [hp, file_name_component_append front back hb]

theorem takeWhile_terminated (text rest : List Nat) (h : 0 ∉ text) :
    (text ++ 0 :: rest).takeWhile (fun b => b ≠ 0) = text := by
  rw [List.takeWhile_append_of_pos]
  · simp
  · intro a ha
    have : a ≠ 0 := fun e => h (e ▸ ha)
    simp [this]

theorem buffer_string_terminated (text : List Nat) (h : 0 ∉ text) :
    buffer_string (text ++ [0]) = text :=
  takeWhile_terminated text [] h

theorem c_string_of_text (mem : Nat → Nat) (location limit : Nat) (text : List Nat)
    (hmem : ∀ k, k < text.length → mem (location + k) = text.getD k 0)
    (hend : mem (location + text.length) = 0) (hnul : 0 ∉ text)
    (hlimit : location + text.length < limit) :
    c_string mem location limit = text := by
  unfold c_string
  obtain ⟨m, hm⟩ : ∃ m, limit - location = text.length + (1 + m) :=
    ⟨limit - location - text.length - 1, by omega⟩
  have hfirst : (List.range text.length).map (fun k => mem (location + k)) = text := by
    apply List.ext_getElem
    · simp
    · intro i h1 h2
      simp only [List.getElem_map, List.getElem_range]
      rw [hmem i h2]
      simp [h2]
  rw [hm, List.range_add, List.map_append, hfirst, List.range_add, List.map_append,
    List.map_append]
  have hone : List.range 1 = [0] := rfl
  simp only [hone, List.map_cons, List.map_nil, Nat.add_zero, hend, List.singleton_append]
  exact takeWhile_terminated text _ hnul

theorem utf16_to_utf8_length_le (ext : External) (input : List Nat) :
    (utf16_to_utf8 ext input 512).2 ≤ 511 := by
  unfold utf16_to_utf8
  simp only
  rw [if_neg (by decide)]
  split
  · simp only
    have h : (ext.WideCharToMultiByte input).length < 2 ^ 32 := by omega
    rw [Nat.mod_eq_of_lt h]
    omega
  · simp

theorem strcpy_text (mem : Nat → Nat) (dst : Nat) (text : List Nat) :
    (∀ k, k < text.length → strcpy mem dst text (dst + k) = text.getD k 0)
    ∧ strcpy mem dst text (dst + text.length) = 0
    ∧ ∀ i, i < dst → strcpy mem dst text i = mem i := by
  refine ⟨?_, ?_, ?_⟩
  · intro k hk
    unfold strcpy
    rw [if_pos ⟨by omega, by omega⟩]
    congr 1
    omega
  · unfold strcpy
    rw [if_neg (by omega), if_pos rfl]
  · intro i hi
    unfold strcpy
    rw [if_neg (by omega), if_neg (by omega)]

theorem add_track_title (ext : External) (lib : Library) (path : List Nat)
    (htitle : (ext.read_tags (find_codec_from_file_name path) path).2 = [])
    (hsep : 92 ∈ path)
    (hfit : (ext.WideCharToMultiByte (file_name_component path)).length + 1 ≤ 512)
    (hnul : 0 ∉ ext.WideCharToMultiByte (file_name_component path))
    (hroom : lib.string_pool.count + 1024
      + (ext.read_tags (find_codec_from_file_name path) path).1.length + 1 < 2 ^ 32) :
    get_library_string (add_track_to_library_from_file ext lib path)
        ((add_track_to_library_from_file ext lib path).tracks.info.elements
          lib.tracks.info.count).title
      = ext.WideCharToMultiByte (file_name_component path) := by
  obtain ⟨found, hfound, hdrop⟩ := strrchr_of_mem path hsep
  have hconv2 : utf16_to_utf8 ext (file_name_component path) 512
      = (ext.WideCharToMultiByte (file_name_component path) ++ [0],
          (ext.WideCharToMultiByte (file_name_component path)).length) := by
    unfold utf16_to_utf8
    simp only
    rw [if_neg (by decide), if_pos hfit, Nat.mod_eq_of_lt (by omega)]
  have hlen1 := utf16_to_utf8_length_le ext (List.drop (lib.base_path.length % 2 ^ 32) path)
  unfold add_track_to_library_from_file
  simp only [htitle, if_true, hfound, hdrop, hconv2, buffer_string_terminated _ hnul]
  generalize utf16_to_utf8 ext (List.drop (lib.base_path.length % 2 ^ 32) path) 512 = conv1
    at hlen1 ⊢
  generalize ext.WideCharToMultiByte (file_name_component path) = text at hfit hnul ⊢
  generalize (ext.read_tags (find_codec_from_file_name path) path).1 = artist at hroom ⊢
  obtain ⟨a1, a2, a3⟩ := Large_Auto_Array.push_offset_n_fst 1 lib.string_pool (u32_add conv1.2 1)
  generalize Large_Auto_Array.push_offset_n 1 lib.string_pool (u32_add conv1.2 1) = r1
    at a1 a2 a3 ⊢
  generalize hp1 : (⟨strcpy r1.1.elements r1.2 (buffer_string conv1.1), r1.1.count,
      r1.1.allocated_elements⟩ : Large_Auto_Array Nat) = pool1
  have hp1c : pool1.count ≤ lib.string_pool.count + 512 := by
    rw [← hp1]
    show r1.1.count ≤ _
    rw [a2]
    unfold u32_add
    have := Nat.mod_le (conv1.2 + 1) (2 ^ 32)
    have := Nat.mod_le (lib.string_pool.count + (conv1.2 + 1) % 2 ^ 32) (2 ^ 32)
    omega
  obtain ⟨b1, b2, b3⟩ := Large_Auto_Array.push_offset_n_fst 1 pool1 (u32_add text.length 1)
  have b2n : u32_add pool1.count (u32_add text.length 1) = pool1.count + text.length + 1 := by
    unfold u32_add
    rw [Nat.mod_eq_of_lt (a := text.length + 1) (by omega), Nat.mod_eq_of_lt (by omega)]
    omega
  rw [b2n] at b2
  generalize Large_Auto_Array.push_offset_n 1 pool1 (u32_add text.length 1) = r2
    at b1 b2 b3 ⊢
  obtain ⟨s1, s2, s3⟩ := strcpy_text r2.1.elements r2.2 text
  generalize hp2 : (⟨strcpy r2.1.elements r2.2 text, r2.1.count,
      r2.1.allocated_elements⟩ : Large_Auto_Array Nat) = pool2
  have hp2c : pool2.count = pool1.count + text.length + 1 := by
    rw [← hp2]
    exact b2
  have hp2e : pool2.elements = strcpy r2.1.elements r2.2 text := by
    rw [← hp2]
  obtain ⟨c1, c2, c3⟩ :=
    Large_Auto_Array.push_offset_n_fst 1 pool2 (u32_add (artist.length % 2 ^ 32) 1)
  have c2n : u32_add pool2.count (u32_add (artist.length % 2 ^ 32) 1)
      = pool2.count + artist.length + 1 := by
    unfold u32_add
    rw [Nat.mod_eq_of_lt (a := artist.length) (by omega),
      Nat.mod_eq_of_lt (a := artist.length + 1) (by omega), Nat.mod_eq_of_lt (by omega)]
    omega
  rw [c2n] at c2
  generalize Large_Auto_Array.push_offset_n 1 pool2 (u32_add (artist.length % 2 ^ 32) 1) = r3
    at c1 c2 c3 ⊢
  obtain ⟨_, _, t3⟩ := strcpy_text r3.1.elements r3.2 artist
  generalize hfin : (if artist ≠ [] then
      ((⟨strcpy r3.1.elements r3.2 artist, r3.1.count, r3.1.allocated_elements⟩ :
        Large_Auto_Array Nat), r3.2)
    else (pool2, 0)) = fin
  have hf : pool2.count ≤ fin.1.count ∧ ∀ i, i < pool2.count → fin.1.elements i
      = pool2.elements i := by
    rw [← hfin]
    split
    · refine ⟨?_, ?_⟩
      · show pool2.count ≤ r3.1.count
        omega
      · intro i hi
        show strcpy r3.1.elements r3.2 artist i = _
        rw [t3 i (by omega), c3]
    · exact ⟨Nat.le_refl _, fun i _ => rfl⟩
  obtain ⟨hf1, hf2⟩ := hf
  simp only [get_library_string, Track_Array.add]
  rw [Large_Auto_Array.push_value_elements]
  simp only [Function.update_same]
  apply c_string_of_text
  · intro k hk
    rw [hf2 _ (by omega), hp2e]
    exact s1 k hk
  · rw [hf2 _ (by omega), hp2e]
    exact s2
  · exact hnul
  · omega

/-- C11 as stated fails: for the accepted file `C:\a.mp3`, for which the tag
reader of the example yields no title, the title stored is `a.mp3` and not the
bare file name `a`. -/
theorem title_fallback_keeps_extension :
    find_codec_from_file_name example_path = Codec.CODEC_MP3
    ∧ (example_ext.read_tags (find_codec_from_file_name example_path) example_path).2 = []
    ∧ bare_file_name example_path = [97]
    ∧ get_library_string (add_track_to_library_from_file example_ext example_lib example_path)
        ((add_track_to_library_from_file example_ext example_lib example_path).tracks.info.elements
          example_lib.tracks.info.count).title
      = [97, 46, 109, 112, 51]
    ∧ get_library_string (add_track_to_library_from_file example_ext example_lib example_path)
        ((add_track_to_library_from_file example_ext example_lib example_path).tracks.info.elements
          example_lib.tracks.info.count).title
      ≠ bare_file_name example_path := by
  have h := add_track_title example_ext example_lib example_path rfl (by decide) (by decide)
    (by decide) (by decide)
  have hb : bare_file_name example_path = [97] := by decide
  have hn : example_ext.WideCharToMultiByte (file_name_component example_path)
      = [97, 46, 109, 112, 51] := by decide
  rw [hn] at h
  refine ⟨by decide, rfl, hb, h, ?_⟩
  rw [h, hb]
  decide

/-- C11, amended: for every file whose path contains a backslash and for which
the tag reader yields no title, `add_track_to_library_from_file` stores as the
title of the new track the file name, extension included: the text after the
last backslash of the path, converted to UTF-8. The converted name fits the
512-byte buffer and holds no NUL, and the pool has room for the new strings. -/
theorem title_falls_back_to_file_name (ext : External) (lib : Library) (path : List Nat)
    (htitle : (ext.read_tags (find_codec_from_file_name path) path).2 = [])
    (hsep : 92 ∈ path)
    (hfit : (ext.WideCharToMultiByte (file_name_component path)).length + 1 ≤ 512)
    (hnul : 0 ∉ ext.WideCharToMultiByte (file_name_component path))
    (hroom : lib.string_pool.count + 1024
      + (ext.read_tags (find_codec_from_file_name path) path).1.length + 1 < 2 ^ 32) :
    get_library_string (add_track_to_library_from_file ext lib path)
        ((add_track_to_library_from_file ext lib path).tracks.info.elements
          lib.tracks.info.count).title
      = ext.WideCharToMultiByte (file_name_component path) :=
  add_track_title ext lib path htitle hsep hfit hnul hroom

/-- C11, amended, on `C:\a.mp3` added to the example library. -/
theorem title_falls_back_to_file_name_witness :
    get_library_string (add_track_to_library_from_file example_ext example_lib example_path)
        ((add_track_to_library_from_file example_ext example_lib example_path).tracks.info.elements
          example_lib.tracks.info.count).title
      = example_ext.WideCharToMultiByte (file_name_component example_path) :=
  title_falls_back_to_file_name example_ext example_lib example_path rfl (by decide)
    (by decide) (by decide) (by decide)

theorem eraseIdx_map_list {α β : Type} (f : α → β) (l : List α) (i : Nat) :
    (l.map f).eraseIdx i = (l.eraseIdx i).map f := by
  induction l generalizing i with
  | nil => rfl
  | cons x xs ih =>
    cases i with
    | zero => rfl
    | succ i => simp [List.eraseIdx, ih]

theorem range_swap_remove_perm (n i : Nat) (hi : i < n) :
    ((List.range (n - 1)).map (fun j => if j = i then n - 1 else j)).Perm
      ((List.range n).eraseIdx i) := by
  rw [List.perm_ext_iff_of_nodup]
  · intro x
    rw [List.mem_map, List.mem_eraseIdx_iff_getElem?]
    constructor
    · rintro ⟨j, hj, hx⟩
      have hj2 := List.mem_range.mp hj
      refine ⟨x, ?_, ?_⟩
      · split at hx <;> omega
      · rw [List.getElem?_range]
        split at hx <;> omega
    · rintro ⟨j, hji, hx⟩
      have hjn : j < n ∧ j = x := by
        by_cases h : j < n
        · rw [List.getElem?_range h] at hx
          exact ⟨h, Option.some.inj hx⟩
        · rw [List.getElem?_eq_none (by simpa using h)] at hx
          cases hx
      obtain ⟨hjn, rfl⟩ := hjn
      by_cases hlast : j = n - 1
      · refine ⟨i, List.mem_range.mpr (by omega), ?_⟩
        rw [if_pos rfl]
        omega
      · refine ⟨j, List.mem_range.mpr (by omega), ?_⟩
        rw [if_neg hji]
  · apply List.Nodup.map_on _ (List.nodup_range _)
    intro x hx y hy hxy
    have hx2 := List.mem_range.mp hx
    have hy2 := List.mem_range.mp hy
    split at hxy <;> split at hxy <;> omega
  · exact List.Nodup.sublist (List.eraseIdx_sublist _ _) (List.nodup_range _)

theorem to_list_remove_perm {T : Type} (a : Large_Auto_Array T) (i : Nat) (hi : i < a.count)
    (h32 : a.count < 2 ^ 32) : (a.remove i).to_list.Perm (a.to_list.eraseIdx i) := by
  have hmap : (a.remove i).to_list
      = ((List.range (a.count - 1)).map (fun j => if j = i then a.count - 1 else j)).map
          a.elements := by
    unfold Large_Auto_Array.to_list
    rw [Large_Auto_Array.remove_count a i (by omega) h32, List.map_map]
    apply List.map_congr_left
    intro j _
    rw [Large_Auto_Array.remove_elements a i (by omega) h32]
    simp only [Function.comp]
    split <;> rfl
  rw [hmap]
  unfold Large_Auto_Array.to_list
  rw [eraseIdx_map_list]
  exact (range_swap_remove_perm a.count i hi).map a.elements

theorem remove_track_id_spec (p : Playlist) (id : Nat)
    (hmem : ∃ j, j < p.track_ids.count ∧ p.track_ids.elements j = id) :
    ∃ j, j < p.track_ids.count ∧ p.track_ids.elements j = id
      ∧ (∀ k, k < j → p.track_ids.elements k ≠ id)
      ∧ Playlist.remove_track_id p id = { p with track_ids := p.track_ids.remove j } := by
  unfold Playlist.remove_track_id
  cases hf : (List.range p.track_ids.count).find? (fun i => p.track_ids.elements i = id) with
  | none =>
    obtain ⟨j, hj, hid⟩ := hmem
    have := (find_range_none _ _).mp hf j hj
    simp [hid] at this
  | some j =>
    obtain ⟨h1, h2, h3⟩ := find_range_some _ _ _ hf
    refine ⟨j, h1, of_decide_eq_true h2, ?_, rfl⟩
    intro k hk
    exact of_decide_eq_false (h3 k hk)

/-- C12: for a playlist whose resolved identifiers all occur in its identifier
list and an index below the resolved count, `Playlist::remove(index)` removes
from the identifier list the first slot j that holds the identifier found at
the resolved index, and from the resolved collection the entry at that index:
each list afterwards is a rearrangement of the list before without that one
position, both are one shorter, and the name is kept. -/
theorem playlist_remove_by_index (p : Playlist) (index : Nat)
    (hal : p.tracks.aligned) (hcount : p.tracks.count < 2 ^ 32)
    (hindex : index < p.tracks.count) (hids : p.track_ids.count < 2 ^ 32)
    (hmem : ∀ i, i < p.tracks.count →
      ∃ j, j < p.track_ids.count ∧ p.track_ids.elements j = p.tracks.ids.elements i) :
    (∃ j, j < p.track_ids.count
      ∧ p.track_ids.elements j = p.tracks.ids.elements index
      ∧ (∀ k, k < j → p.track_ids.elements k ≠ p.tracks.ids.elements index)
      ∧ (p.remove index).track_ids = p.track_ids.remove j
      ∧ (p.remove index).track_ids.to_list.Perm (p.track_ids.to_list.eraseIdx j)
      ∧ (p.remove index).track_ids.count = p.track_ids.count - 1)
    ∧ (p.remove index).tracks.ids.to_list.Perm (p.tracks.ids.to_list.eraseIdx index)
    ∧ (p.remove index).tracks.info.to_list.Perm (p.tracks.info.to_list.eraseIdx index)
    ∧ (p.remove index).tracks.count = p.tracks.count - 1
    ∧ (p.remove index).tracks.aligned
    ∧ (p.remove index).name = p.name := by
  obtain ⟨j, hj, hid, hfirst, heq⟩ := remove_track_id_spec
    { p with tracks := p.tracks.remove index } (p.tracks.ids.elements index) (hmem index hindex)
  have hj : j < p.track_ids.count := hj
  have hrem : p.remove index
      = { p with tracks := p.tracks.remove index, track_ids := p.track_ids.remove j } := heq
  obtain ⟨a1, a2⟩ := hal
  rw [hrem]
  refine ⟨⟨j, hj, hid, hfirst, rfl, to_list_remove_perm _ j hj hids,
    Large_Auto_Array.remove_count _ j (by omega) hids⟩, ?_, ?_, ?_, ?_, rfl⟩
  · exact to_list_remove_perm p.tracks.ids index (by rw [a1]; exact hindex) (by rw [a1]; exact hcount)
  · exact to_list_remove_perm p.tracks.info index (by rw [a2]; exact hindex)
      (by rw [a2]; exact hcount)
  · show u32_sub p.tracks.count 1 = _
    unfold u32_sub
    omega
  · exact Track_Array.aligned_remove p.tracks ⟨a1, a2⟩ index

/-- C12 on the example playlist (identifiers 478, 7, 415; resolved 415, 478)
and index 0: both lists lose one entry. -/
theorem playlist_remove_by_index_witness :
    (example_playlist.remove 0).tracks.count = example_playlist.tracks.count - 1
    ∧ (example_playlist.remove 0).tracks.ids.to_list.Perm
        (example_playlist.tracks.ids.to_list.eraseIdx 0)
    ∧ (example_playlist.remove 0).name = example_playlist.name := by
  have h := playlist_remove_by_index example_playlist 0 ⟨rfl, rfl⟩ (by decide) (by decide)
    (by decide) (by
      intro i hi
      have hi2 : i < 2 := hi
      interval_cases i
      · exact ⟨2, by decide, rfl⟩
      · exact ⟨0, by decide, rfl⟩)
  exact ⟨h.2.2.2.1, h.2.1, h.2.2.2.2.2⟩

/-- C13 at a failing input: on the playlist 11, 22, 33, 44 (all resolved),
`Playlist::remove_range(0, 0)` leaves the resolved collection 22, 33, 44 in its
order, but the identifier list becomes 44, 22, 33: `remove_track_id` fills the
hole with the last identifier. -/
theorem playlist_remove_range_reorders_identifiers :
    example_ordered_playlist.track_ids.to_list = [11, 22, 33, 44]
    ∧ example_ordered_playlist.tracks.ids.to_list = [11, 22, 33, 44]
    ∧ (example_ordered_playlist.remove_range 0 0).tracks.ids.to_list = [22, 33, 44]
    ∧ (example_ordered_playlist.remove_range 0 0).track_ids.to_list = [44, 22, 33] := by
  have hr3 : List.range 3 = [0, 1, 2] := by decide
  have hr4 : List.range 4 = [0, 1, 2, 3] := by decide
  have hr1 : List.range 1 = [0] := by decide
  refine ⟨rfl, rfl, ?_, ?_⟩
  · simp [Playlist.remove_range, Playlist.remove_track_id, example_ordered_playlist, hr1, hr3, hr4,
      Large_Auto_Array.of_list, Large_Auto_Array.to_list, Large_Auto_Array.remove,
      Track_Array.remove_range, Large_Auto_Array.remove_range, Large_Auto_Array.memmove,
      u32_add, u32_sub]
  · simp [Playlist.remove_range, Playlist.remove_track_id, example_ordered_playlist, hr1, hr3, hr4,
      Large_Auto_Array.of_list, Large_Auto_Array.to_list, Large_Auto_Array.remove,
      Track_Array.remove_range, Large_Auto_Array.remove_range, Large_Auto_Array.memmove,
      u32_add, u32_sub, Function.update]

/-- C14: `Playlist::add_track` appends `get_track_id(track)` to the identifier
list; when `lookup_track` resolves that identifier to a record, the identifier
and that record are appended to the resolved collection and its count grows by
one, and otherwise the resolved collection is unchanged. The counts before the
call are below `2 ^ 32 - 1` and the resolved collection is aligned. -/
theorem playlist_add_track_appends (ext : External) (lib : Library) (p : Playlist)
    (track : Track_Info) (hids : p.track_ids.count + 1 < 2 ^ 32) (hal : p.tracks.aligned)
    (hcount : p.tracks.count + 1 < 2 ^ 32) :
    (p.add_track ext lib track).track_ids.to_list
        = p.track_ids.to_list ++ [get_track_id ext lib track]
    ∧ (p.add_track ext lib track).track_ids.count = p.track_ids.count + 1
    ∧ (p.add_track ext lib track).name = p.name
    ∧ (∀ found, lookup_track lib (get_track_id ext lib track) = some found →
        (p.add_track ext lib track).tracks.ids.to_list
            = p.tracks.ids.to_list ++ [get_track_id ext lib track]
        ∧ (p.add_track ext lib track).tracks.info.to_list = p.tracks.info.to_list ++ [found]
        ∧ (p.add_track ext lib track).tracks.count = p.tracks.count + 1)
    ∧ (lookup_track lib (get_track_id ext lib track) = none →
        (p.add_track ext lib track).tracks = p.tracks) := by
  obtain ⟨a1, a2⟩ := hal
  refine ⟨Large_Auto_Array.to_list_push_value 4 _ _ hids, ?_, rfl, ?_, ?_⟩
  · show (p.track_ids.push_value 4 _).count = _
    rw [Large_Auto_Array.push_value_count]
    exact Nat.mod_eq_of_lt hids
  · intro found hfound
    have ht : (p.add_track ext lib track).tracks
        = { ids := p.tracks.ids.push_value 4 (get_track_id ext lib track),
            info := p.tracks.info.push_value 16 found,
            count := u32_add p.tracks.count 1 } := by
      show p.tracks.add_from_id lib (get_track_id ext lib track) = _
      unfold Track_Array.add_from_id
      rw [hfound]
    rw [ht]
    refine ⟨Large_Auto_Array.to_list_push_value 4 _ _ (by rw [a1]; exact hcount),
      Large_Auto_Array.to_list_push_value 16 _ _ (by rw [a2]; exact hcount), ?_⟩
    exact Nat.mod_eq_of_lt hcount
  · intro hnone
    show p.tracks.add_from_id lib (get_track_id ext lib track) = _
    unfold Track_Array.add_from_id
    rw [hnone]

/-- C14 on the example playlist and the record of `b.wav`. -/
theorem playlist_add_track_appends_witness :
    (example_playlist.add_track example_ext example_lib ⟨0, 0, 0, 9⟩).track_ids.to_list
        = example_playlist.track_ids.to_list
          ++ [get_track_id example_ext example_lib ⟨0, 0, 0, 9⟩]
    ∧ (example_playlist.add_track example_ext example_lib ⟨0, 0, 0, 9⟩).track_ids.count
        = example_playlist.track_ids.count + 1
    ∧ (example_playlist.add_track example_ext example_lib ⟨0, 0, 0, 9⟩).tracks.info.to_list
        = example_playlist.tracks.info.to_list ++ [⟨0, 0, 0, 9⟩] := by
  have hid : lookup_track example_lib (get_track_id example_ext example_lib ⟨0, 0, 0, 9⟩)
      = some ⟨0, 0, 0, 9⟩ := by decide
  have h := playlist_add_track_appends example_ext example_lib example_playlist ⟨0, 0, 0, 9⟩
    (by decide) ⟨rfl, rfl⟩ (by decide)
  exact ⟨h.1, h.2.1, (h.2.2.2.1 _ hid).2.1⟩

/-- C15 at a failing input: the playlist folder holds one file, `n`, whose 80
bytes are the letter `h`; it does not start with `PLYL`. `load_playlists`,
called on an empty collection, leaves a collection of one playlist. -/
theorem load_playlists_counts_foreign_file :
    (Playlist_Header.of_bytes
        (fread (Playlist_Header.to_bytes ⟨0, 0, 0, List.replicate 64 0⟩)
          example_text_file).1).magic ≠ PLYL
    ∧ (load_playlists example_ext example_lib 144 ⟨0, 0, 0, List.replicate 64 0⟩
        example_playlist_folder (Large_Auto_Array.of_list zero_playlist [])).count = 1 := by
  constructor
  · simp [fread, Playlist_Header.to_bytes, Playlist_Header.of_bytes, u32_to_bytes, u32_of_bytes,
      example_text_file, PLYL]
  · simp [load_playlists, example_playlist_folder, load_playlists_entry, fread,
      Playlist_Header.to_bytes, Playlist_Header.of_bytes, u32_to_bytes, u32_of_bytes,
      example_text_file, PLYL, Large_Auto_Array.push, Large_Auto_Array.push_n,
      Large_Auto_Array.push_offset_n, Large_Auto_Array.of_list, u32_add,
      Large_Auto_Array.grow_allocated, Large_Auto_Array.chunk_elements,
      Large_Auto_Array.system_reallocate]

theorem PLYL_lt : PLYL < 2 ^ 32 := u32_of_bytes_lt _

theorem Playlist_Header.playlist_to_bytes_length (h : Playlist_Header) :
    h.to_bytes.length = 12 + h.name.length := by
  unfold Playlist_Header.to_bytes
  simp only [List.length_append, u32_to_bytes_length]

theorem Playlist_Header.playlist_of_bytes_to_bytes (h : Playlist_Header)
    (h1 : h.magic < 2 ^ 32) (h2 : h.version < 2 ^ 32) (h3 : h.track_count < 2 ^ 32)
    (hn : h.name.length = 64) (rest : List Nat) :
    Playlist_Header.of_bytes ((h.to_bytes ++ rest).take 76) = h := by
  have e1 := u32_of_bytes_to_bytes _ h1
  have e2 := u32_of_bytes_to_bytes _ h2
  have e3 := u32_of_bytes_to_bytes _ h3
  have ht : (h.to_bytes ++ rest).take 76 = h.to_bytes := by
    rw [List.take_append_of_le_length (by rw [Playlist_Header.playlist_to_bytes_length]; omega)]
    exact List.take_of_length_le (by rw [Playlist_Header.playlist_to_bytes_length]; omega)
  rw [ht]
  unfold Playlist_Header.of_bytes Playlist_Header.to_bytes
  have l1 := u32_to_bytes_length h.magic
  have l2 := u32_to_bytes_length h.version
  have l3 := u32_to_bytes_length h.track_count
  have t1 : (u32_to_bytes h.magic ++ u32_to_bytes h.version ++ u32_to_bytes h.track_count
      ++ h.name).take 4 = u32_to_bytes h.magic := by
    rw [List.append_assoc, List.append_assoc]
    exact List.take_left' l1
  have d1 : (u32_to_bytes h.magic ++ u32_to_bytes h.version ++ u32_to_bytes h.track_count
      ++ h.name).drop 4 = u32_to_bytes h.version ++ (u32_to_bytes h.track_count ++ h.name) := by
    rw [List.append_assoc, List.append_assoc]
    exact List.drop_left' l1
  have d2 : (u32_to_bytes h.magic ++ u32_to_bytes h.version ++ u32_to_bytes h.track_count
      ++ h.name).drop 8 = u32_to_bytes h.track_count ++ h.name := by
    rw [List.append_assoc]
    exact List.drop_left' (by rw [List.length_append, l1, l2])
  have d3 : (u32_to_bytes h.magic ++ u32_to_bytes h.version ++ u32_to_bytes h.track_count
      ++ h.name).drop 12 = h.name := by
    exact List.drop_left' (by rw [List.length_append, List.length_append, l1, l2, l3])
  rw [t1, d1, d2, d3, List.take_left' l2, List.take_left' l3, e1, e2, e3,
    List.take_of_length_le (by omega)]

theorem save_to_file_eq (p : Playlist) (header_name : List Nat) :
    p.save_to_file header_name
      = Playlist_Header.to_bytes
          { magic := PLYL, version := 1, track_count := p.track_ids.count,
            name := p.name ++ [0] ++ header_name.drop (p.name.length + 1) }
        ++ (List.range p.track_ids.count).flatMap
            (fun i => u32_to_bytes (p.track_ids.elements i)) := rfl

theorem fread_u32_of_ids (old : Nat → Nat) (ids : Nat → Nat) (n : Nat)
    (hid : ∀ i, i < n → ids i < 2 ^ 32) (tail : List Nat) (i : Nat) (hi : i < n) :
    fread_u32 old 0 n ((List.range n).flatMap (fun j => u32_to_bytes (ids j)) ++ tail) i
      = ids i := by
  unfold fread_u32
  rw [if_pos ⟨Nat.zero_le _, by omega⟩]
  obtain ⟨rest, hrest⟩ := drop_flatMap_range (fun j => u32_to_bytes (ids j)) 4
    (fun j => u32_to_bytes_length (ids j)) n i hi tail
  rw [Nat.sub_zero, hrest, fread_of_long]
  · simp only
    rw [u32_to_bytes_length, List.take_left' (u32_to_bytes_length _)]
    exact u32_of_bytes_to_bytes _ (hid i hi)
  · rw [u32_to_bytes_length, List.length_append, u32_to_bytes_length]
    omega

theorem load_playlists_entry_saved (ext : External) (lib : Library) (sizeof_Playlist : Nat)
    (header : Playlist_Header) (out : Large_Auto_Array Playlist) (p : Playlist)
    (header_name file_name : List Nat)
    (hname : p.name.length < 64) (hnul : 0 ∉ p.name) (hhn : header_name.length = 64)
    (hh : header.name.length = 64)
    (hids : p.track_ids.count < 2 ^ 32)
    (hid32 : ∀ i, i < p.track_ids.count → p.track_ids.elements i < 2 ^ 32)
    (hfile : file_name ≠ [46, 46] ∧ file_name ≠ [46])
    (hslot : (out.elements out.count).track_ids.count = 0) :
    (load_playlists_entry ext lib sizeof_Playlist header out
        (file_name, some (p.save_to_file header_name))).count = u32_add out.count 1
    ∧ ((load_playlists_entry ext lib sizeof_Playlist header out
        (file_name, some (p.save_to_file header_name))).elements out.count).name = p.name
    ∧ ((load_playlists_entry ext lib sizeof_Playlist header out
        (file_name, some (p.save_to_file header_name))).elements out.count).track_ids.to_list
        = p.track_ids.to_list
    ∧ ∀ i, i ≠ out.count →
        (load_playlists_entry ext lib sizeof_Playlist header out
          (file_name, some (p.save_to_file header_name))).elements i = out.elements i := by
  obtain ⟨a1, a2, a3⟩ := Large_Auto_Array.push_offset_n_fst sizeof_Playlist out 1
  have hlen : header.to_bytes.length ≤ (p.save_to_file header_name).length := by
    rw [save_to_file_eq, List.length_append, Playlist_Header.playlist_to_bytes_length,
      Playlist_Header.playlist_to_bytes_length]
    simp only [List.length_append, List.length_drop, List.length_cons, List.length_nil]
    omega
  have hl76 : header.to_bytes.length = 76 := by
    rw [Playlist_Header.playlist_to_bytes_length, hh]
  have hname64 : (p.name ++ [0] ++ header_name.drop (p.name.length + 1)).length = 64 := by
    simp only [List.length_append, List.length_drop, List.length_cons, List.length_nil]
    omega
  have htake : Playlist_Header.of_bytes ((p.save_to_file header_name).take 76)
      = { magic := PLYL, version := 1, track_count := p.track_ids.count,
          name := p.name ++ [0] ++ header_name.drop (p.name.length + 1) } := by
    rw [save_to_file_eq]
    exact Playlist_Header.playlist_of_bytes_to_bytes _ PLYL_lt (by norm_num) hids hname64 _
  have hdrop : (p.save_to_file header_name).drop 76
      = (List.range p.track_ids.count).flatMap
          (fun i => u32_to_bytes (p.track_ids.elements i)) := by
    rw [save_to_file_eq]
    exact List.drop_left' (by rw [Playlist_Header.playlist_to_bytes_length, hname64])
  unfold load_playlists_entry
  simp only [hfile.1, hfile.2, or_self, if_false]
  rw [fread_of_long _ _ hlen, hl76]
  simp only [htake, hdrop, ne_eq, not_true_eq_false, if_false]
  have hpush : Large_Auto_Array.push sizeof_Playlist out
      = Large_Auto_Array.push_offset_n sizeof_Playlist out 1 := rfl
  rw [hpush, a1, a2, a3]
  obtain ⟨b1, b2, b3⟩ := push_n_fst 4 (out.elements out.count).track_ids p.track_ids.count
  rw [hslot] at b1 b2
  rw [u32_add_zero_of_lt _ hids] at b2
  simp only [Function.update_same]
  refine ⟨trivial, ?_, ?_, ?_⟩
  · show buffer_string (p.name ++ [0] ++ List.drop (p.name.length + 1) header_name) = p.name
    rw [List.append_assoc]
    exact takeWhile_terminated p.name _ hnul
  · apply to_list_congr
    · exact b2
    · intro i hi
      have hi2 : i < p.track_ids.count := by
        rw [← b2]
        exact hi
      show fread_u32 _ _ _ _ i = _
      rw [b1]
      have := fread_u32_of_ids
        (Large_Auto_Array.push_n 4 (out.elements out.count).track_ids
          p.track_ids.count).1.elements p.track_ids.elements p.track_ids.count hid32 [] i hi2
      rw [List.append_nil] at this
      exact this
  · intro i hi
    exact Function.update_noteq hi _ _

/-- C16: playlist round trip. For a playlist whose name is shorter than 64
bytes, `load_playlists` on a folder that holds the bytes `save_to_file` wrote
(after the first entry, which the loop never examines) appends one playlist
with the same name and the same identifier list in the same order, whether the
identifiers resolve or not, and leaves the playlists loaded before as they are.
The name holds no NUL, the identifiers and their number are `u32` values, the
two header buffers are 64 bytes long, the file is not called `.` or `..`, and
the slot that `push` hands out holds an empty identifier list. -/
theorem playlist_round_trip (ext : External) (lib : Library) (sizeof_Playlist : Nat)
    (header : Playlist_Header) (out : Large_Auto_Array Playlist) (p : Playlist)
    (header_name file_name : List Nat) (first : List Nat × Option (List Nat))
    (hname : p.name.length < 64) (hnul : 0 ∉ p.name) (hhn : header_name.length = 64)
    (hh : header.name.length = 64)
    (hids : p.track_ids.count < 2 ^ 32)
    (hid32 : ∀ i, i < p.track_ids.count → p.track_ids.elements i < 2 ^ 32)
    (hfile : file_name ≠ [46, 46] ∧ file_name ≠ [46])
    (hout : out.count + 1 < 2 ^ 32)
    (hslot : (out.elements out.count).track_ids.count = 0) :
    (Playlist_Header.of_bytes ((p.save_to_file header_name).take 76)).magic = PLYL
    ∧ (Playlist_Header.of_bytes ((p.save_to_file header_name).take 76)).version = 1
    ∧ (Playlist_Header.of_bytes ((p.save_to_file header_name).take 76)).track_count
        = p.track_ids.count
    ∧ (load_playlists ext lib sizeof_Playlist header
        (some [first, (file_name, some (p.save_to_file header_name))]) out).count
        = out.count + 1
    ∧ ((load_playlists ext lib sizeof_Playlist header
        (some [first, (file_name, some (p.save_to_file header_name))]) out).elements
          out.count).name = p.name
    ∧ ((load_playlists ext lib sizeof_Playlist header
        (some [first, (file_name, some (p.save_to_file header_name))]) out).elements
          out.count).track_ids.to_list = p.track_ids.to_list
    ∧ ∀ i, i < out.count →
        (load_playlists ext lib sizeof_Playlist header
          (some [first, (file_name, some (p.save_to_file header_name))]) out).elements i
          = out.elements i := by
  have hload : load_playlists ext lib sizeof_Playlist header
      (some [first, (file_name, some (p.save_to_file header_name))]) out
      = load_playlists_entry ext lib sizeof_Playlist header out
          (file_name, some (p.save_to_file header_name)) := rfl
  obtain ⟨e1, e2, e3, e4⟩ := load_playlists_entry_saved ext lib sizeof_Playlist header out p
    header_name file_name hname hnul hhn hh hids hid32 hfile hslot
  have hname64 : (p.name ++ [0] ++ header_name.drop (p.name.length + 1)).length = 64 := by
    simp only [List.length_append, List.length_drop, List.length_cons, List.length_nil]
    omega
  have htake : Playlist_Header.of_bytes ((p.save_to_file header_name).take 76)
      = { magic := PLYL, version := 1, track_count := p.track_ids.count,
          name := p.name ++ [0] ++ header_name.drop (p.name.length + 1) } := by
    rw [save_to_file_eq]
    exact Playlist_Header.playlist_of_bytes_to_bytes _ PLYL_lt (by norm_num) hids hname64 _
  rw [hload, htake]
  refine ⟨rfl, rfl, rfl, ?_, e2, e3, fun i hi => e4 i (by omega)⟩
  rw [e1]
  exact Nat.mod_eq_of_lt hout

/-- C16 on the example playlist `m` with the identifiers 478, 7, 415, saved
through a header buffer filled with 204 and loaded into an empty collection. -/
theorem playlist_round_trip_witness :
    ((load_playlists example_ext example_lib 144 ⟨0, 0, 0, List.replicate 64 0⟩
        (some [([46], none),
          ([110], some (example_playlist.save_to_file (List.replicate 64 204)))])
        (Large_Auto_Array.of_list zero_playlist [])).elements 0).name = [109]
    ∧ ((load_playlists example_ext example_lib 144 ⟨0, 0, 0, List.replicate 64 0⟩
        (some [([46], none),
          ([110], some (example_playlist.save_to_file (List.replicate 64 204)))])
        (Large_Auto_Array.of_list zero_playlist [])).elements 0).track_ids.to_list
        = [478, 7, 415] := by
  have h := playlist_round_trip example_ext example_lib 144 ⟨0, 0, 0, List.replicate 64 0⟩
    (Large_Auto_Array.of_list zero_playlist []) example_playlist (List.replicate 64 204) [110]
    ([46], none) (by decide) (by decide) (by simp) (by simp) (by decide)
    (by
      intro i hi
      have hi2 : i < 3 := hi
      interval_cases i <;> decide)
    (by decide) (by decide) rfl
  exact ⟨h.2.2.2.2.1, h.2.2.2.2.2.1⟩

theorem strrchr_append_of_not_mem (front back : List Nat) (c : Nat) (h : c ∉ back) :
    strrchr (front ++ c :: back) c = some (c :: back) := by
  have hback : strrchr back c = none := by
    rcases strrchr_spec back c with ⟨hn, _⟩ | ⟨f, b, _, hp, _⟩
    · exact hn
    · exact absurd (by rw [hp]; simp) h
  induction front with
  | nil => simp [strrchr, hback]
  | cons x xs ih =>
    rw [List.cons_append]
    simp [strrchr, ih]

theorem strrchr_of_not_mem (s : List Nat) (c : Nat) (h : c ∉ s) : strrchr s c = none := by
  rcases strrchr_spec s c with ⟨hn, _⟩ | ⟨f, b, _, hp, _⟩
  · exact hn
  · exact absurd (by rw [hp]; simp) h

/-- The classification of `find_codec_from_file_name`: a name without `.` has
no codec; otherwise only the text from the last `.` onward counts, and it gives
MP3 for `.mp3`, OPUS for `.opus` and `.ogg`, WAV for `.wav`, FLAC for `.flac`
and no codec for anything else. -/
theorem find_codec_from_file_name_spec :
    (∀ name, 46 ∉ name → find_codec_from_file_name name = Codec.CODEC_NONE)
    ∧ (∀ front back, 46 ∉ back →
        find_codec_from_file_name (front ++ 46 :: back)
          = find_codec_from_file_name (46 :: back))
    ∧ (∀ back, 46 ∉ back →
        find_codec_from_file_name (46 :: back)
          = if back = [109, 112, 51] then Codec.CODEC_MP3
            else if back = [111, 112, 117, 115] ∨ back = [111, 103, 103] then Codec.CODEC_OPUS
            else if back = [119, 97, 118] then Codec.CODEC_WAV
            else if back = [102, 108, 97, 99] then Codec.CODEC_FLAC
            else Codec.CODEC_NONE)
    ∧ find_codec_from_file_name [114, 101, 97, 100, 109, 101, 46, 116, 120, 116]
        = Codec.CODEC_NONE := by
  refine ⟨?_, ?_, ?_, by decide⟩
  · intro name h
    unfold find_codec_from_file_name
    rw [strrchr_of_not_mem name 46 h]
  · intro front back h
    have h0 : strrchr (46 :: back) 46 = some (46 :: back) :=
      strrchr_append_of_not_mem [] back 46 h
    unfold find_codec_from_file_name
    rw [strrchr_append_of_not_mem front back 46 h, h0]
  · intro back h
    have h0 : strrchr (46 :: back) 46 = some (46 :: back) :=
      strrchr_append_of_not_mem [] back 46 h
    unfold find_codec_from_file_name
    rw [h0]
    simp only [List.cons.injEq, true_and]

/-- What the loop body of `scan_folder` does with a file entry that is not `.`
or `..`: it is added, and counted, exactly when its codec is not NONE. -/
theorem scan_folder_entry_file (ext : External) (cFileName : List Nat) (lib : Library)
    (path_buffer : List Nat) (ret : Nat) (h : cFileName ≠ [46, 46] ∧ cFileName ≠ [46]) :
    scan_folder_entry ext (Find_Data.file cFileName) lib path_buffer ret
      = if find_codec_from_file_name cFileName = Codec.CODEC_NONE then (lib, ret)
        else (add_track_to_library_from_file ext lib (path_buffer ++ cFileName),
          u32_add ret 1) := by
  rw [scan_folder_entry]
  simp only [h.1, h.2, or_self, if_false, ne_eq, ite_not]

/-- C18 at a failing input: the drive root `C:\` holds the single file `a.mp3`,
which `FindFirstFileW` delivers. The file is classified MP3, yet the scan
returns 0 and leaves the library without it, because its loop starts with
`FindNextFileW`. -/
theorem scan_folder_skips_first_entry :
    find_codec_from_file_name [97, 46, 109, 112, 51] = Codec.CODEC_MP3
    ∧ scan_folder example_ext (some [Find_Data.file [97, 46, 109, 112, 51]])
        example_lib [67, 58, 92] = (example_lib, 0)
    ∧ (update_library example_ext (some [Find_Data.file [97, 46, 109, 112, 51]])
        (some [67, 58, 92]) example_lib).1 = true
    ∧ (update_library example_ext (some [Find_Data.file [97, 46, 109, 112, 51]])
        (some [67, 58, 92]) example_lib).2.1.tracks.count = 0
    ∧ (update_library example_ext (some [Find_Data.file [97, 46, 109, 112, 51]])
        (some [67, 58, 92]) example_lib).2.2 = none := by
  refine ⟨by decide, rfl, ?_, ?_, ?_⟩ <;>
    simp [update_library, scan_folder, scan_folder_loop, example_ext, update_library_reset,
      Track_Array.reset]

/-- C21: `open_track` takes the lock and first closes the decoder of a loaded
file. When the extension has no codec it returns false and calls no `open_func`;
when the `open_func` of the selected decoder fails it returns false; in both
cases no file is loaded afterwards. When `open_func` succeeds it returns true
with the file marked loaded and the state PLAYING. The record of events shows
which decoder calls were made. -/
theorem open_track_outcome (dec : Decoders) (p : Player) (path : List Nat) :
    (find_codec_from_file_name path = Codec.CODEC_NONE →
      (open_track dec p path).1 = false
      ∧ (open_track dec p path).2.stream.file_loaded = false
      ∧ (open_track dec p path).2.events
          = p.events ++ [Player_Event.lock_stream]
            ++ (if p.stream.file_loaded = true then [Player_Event.close_func p.decoder] else [])
            ++ [Player_Event.unlock_stream, Player_Event.user_warning])
    ∧ (find_codec_from_file_name path ≠ Codec.CODEC_NONE →
      (dec.open_func (find_codec_from_file_name path) path).1 = false →
      (open_track dec p path).1 = false
      ∧ (open_track dec p path).2.stream.file_loaded = false
      ∧ (open_track dec p path).2.events
          = p.events ++ [Player_Event.lock_stream]
            ++ (if p.stream.file_loaded = true then [Player_Event.close_func p.decoder] else [])
            ++ [Player_Event.open_func (find_codec_from_file_name path) path,
                Player_Event.unlock_stream])
    ∧ (find_codec_from_file_name path ≠ Codec.CODEC_NONE →
      (dec.open_func (find_codec_from_file_name path) path).1 = true →
      (open_track dec p path).1 = true
      ∧ (open_track dec p path).2.stream.file_loaded = true
      ∧ (open_track dec p path).2.stream.state = Player_State.PLAYER_STATE_PLAYING
      ∧ (open_track dec p path).2.events
          = p.events ++ [Player_Event.lock_stream]
            ++ (if p.stream.file_loaded = true then [Player_Event.close_func p.decoder] else [])
            ++ [Player_Event.open_func (find_codec_from_file_name path) path,
                Player_Event.unlock_stream, Player_Event.reset_audio_clock]) := by
  unfold open_track
  cases hl : p.stream.file_loaded <;> cases hc : find_codec_from_file_name path <;>
    cases ho : (dec.open_func (find_codec_from_file_name path) path).1 <;>
    simp_all [get_decoder_functions, close_stream_source, Player.emit]

theorem open_track_outcome_cases (dec : Decoders) (p : Player) (path : List Nat) :
    ((open_track dec p path).1 = false ∧ (open_track dec p path).2.stream.file_loaded = false)
    ∨ ((open_track dec p path).1 = true ∧ (open_track dec p path).2.stream.file_loaded = true
      ∧ (open_track dec p path).2.stream.state = Player_State.PLAYER_STATE_PLAYING) := by
  unfold open_track
  cases hl : p.stream.file_loaded <;> cases hc : find_codec_from_file_name path <;>
    cases ho : (dec.open_func (find_codec_from_file_name path) path).1 <;>
    simp_all [get_decoder_functions, close_stream_source, Player.emit]

theorem open_track_loaded (dec : Decoders) (p : Player) (path : List Nat) :
    (open_track dec p path).2.stream.file_loaded = true →
      (open_track dec p path).2.stream.state = Player_State.PLAYER_STATE_PLAYING := by
  have h := open_track_outcome_cases dec p path
  rcases h with ⟨_, h2⟩ | ⟨_, h2, h3⟩
  · intro hl
    rw [h2] at hl
    cases hl
  · exact fun _ => h3

/-- What every command keeps: a loaded file goes with PLAYING or PAUSED. -/
theorem loaded_state_step (dec : Decoders) (p : Player) (c : Command)
    (h : p.stream.file_loaded = true →
      p.stream.state = Player_State.PLAYER_STATE_PLAYING
      ∨ p.stream.state = Player_State.PLAYER_STATE_PAUSED) :
    (c.apply dec p).stream.file_loaded = true →
      (c.apply dec p).stream.state = Player_State.PLAYER_STATE_PLAYING
      ∨ (c.apply dec p).stream.state = Player_State.PLAYER_STATE_PAUSED := by
  cases c with
  | «open» path =>
    have ho := open_track_loaded dec p path
    exact fun hl => Or.inl (ho hl)
  | pause => exact fun _ => Or.inr rfl
  | resume => exact fun _ => Or.inl rfl
  | toggle =>
    intro hl
    unfold Command.apply toggle_playback at hl ⊢
    simp only at hl ⊢
    split
    · exact Or.inr rfl
    · split
      · exact Or.inl rfl
      · rename_i h1 h2
        rw [if_neg h1, if_neg h2] at hl
        rcases h hl with h3 | h3
        · exact absurd h3 h1
        · exact absurd h3 h2

theorem run_commands_append (dec : Decoders) (p : Player) (commands : List Command)
    (c : Command) :
    run_commands dec p (commands ++ [c]) = c.apply dec (run_commands dec p commands) := by
  unfold run_commands
  rw [List.foldl_append]
  rfl

/-- C22 as stated fails: after the single command `pause_playback` from the
initial state no file is loaded and the state is PAUSED, not STOPPED; the same
holds after a failed `open_track` that follows a successful one, with PLAYING. -/
theorem transport_state_without_file :
    (run_commands example_decoders initial_player [Command.pause]).stream.file_loaded = false
    ∧ (run_commands example_decoders initial_player [Command.pause]).stream.state
        = Player_State.PLAYER_STATE_PAUSED
    ∧ (run_commands example_decoders initial_player
        [Command.open [97, 46, 109, 112, 51], Command.open [97, 46, 116, 120, 116]]
        ).stream.file_loaded = false
    ∧ (run_commands example_decoders initial_player
        [Command.open [97, 46, 109, 112, 51], Command.open [97, 46, 116, 120, 116]]
        ).stream.state = Player_State.PLAYER_STATE_PLAYING := by
  refine ⟨rfl, rfl, ?_, ?_⟩ <;> decide

/-- C22, amended: in every state reached from the initial state by a sequence
of `open_track`, `pause_playback`, `resume_playback` and `toggle_playback`, with
any decoders, the state is PLAYING or PAUSED whenever a file is loaded, so that
STOPPED occurs only while no file is loaded. -/
theorem transport_state_with_file (dec : Decoders) (commands : List Command) :
    ((run_commands dec initial_player commands).stream.file_loaded = true →
      (run_commands dec initial_player commands).stream.state
          = Player_State.PLAYER_STATE_PLAYING
      ∨ (run_commands dec initial_player commands).stream.state
          = Player_State.PLAYER_STATE_PAUSED)
    ∧ ((run_commands dec initial_player commands).stream.state
          = Player_State.PLAYER_STATE_STOPPED →
        (run_commands dec initial_player commands).stream.file_loaded = false) := by
  have key : (run_commands dec initial_player commands).stream.file_loaded = true →
      (run_commands dec initial_player commands).stream.state
          = Player_State.PLAYER_STATE_PLAYING
      ∨ (run_commands dec initial_player commands).stream.state
          = Player_State.PLAYER_STATE_PAUSED := by
    induction commands using List.reverseRecOn with
    | nil =>
      intro h
      cases h
    | append_singleton cs c ih =>
      rw [run_commands_append]
      exact loaded_state_step dec _ c ih
  refine ⟨key, ?_⟩
  intro hs
  cases hl : (run_commands dec initial_player commands).stream.file_loaded with
  | false => rfl
  | true =>
    rcases key hl with h | h
    · rw [h] at hs
      cases hs
    · rw [h] at hs
      cases hs

/-- On every path through `open_track` the mutex is released before the reset
semaphore is signalled and before the command returns. -/
theorem open_track_mutex_discipline (dec : Decoders) (p : Player) (path : List Nat)
    (h : p.events = []) : mutex_discipline 0 (open_track dec p path).2.events = true := by
  unfold open_track
  cases hl : p.stream.file_loaded <;> cases hc : find_codec_from_file_name path <;>
    cases ho : (dec.open_func (find_codec_from_file_name path) path).1 <;>
    simp_all [get_decoder_functions, close_stream_source, Player.emit, mutex_discipline]

/-- C23 at the failing inputs: `seek_playback_to_seconds` with no file loaded
returns with the mutex still held (the record of events is the single lock),
and with a file loaded it signals the reset semaphore while it holds the mutex;
the discipline fails in both cases. -/
theorem seek_playback_breaks_mutex_discipline :
    (seek_playback_to_seconds initial_player 0).events = [Player_Event.lock_stream]
    ∧ mutex_discipline 0 (seek_playback_to_seconds initial_player 0).events = false
    ∧ (seek_playback_to_seconds
        { (open_track example_decoders initial_player [97, 46, 109, 112, 51]).2 with
          events := [] } 88200).events
        = [Player_Event.lock_stream, Player_Event.seek_func Codec.CODEC_MP3 88200,
            Player_Event.reset_audio_clock, Player_Event.unlock_stream]
    ∧ mutex_discipline 0 (seek_playback_to_seconds
        { (open_track example_decoders initial_player [97, 46, 109, 112, 51]).2 with
          events := [] } 88200).events = false := by
  refine ⟨rfl, rfl, ?_, ?_⟩ <;> decide

/-- C24 as stated fails: for the requested volume -1/2 the device is handed
-1/2 for both channels, in a debug and in a release build, where clamping to
[0, 1] gives 0; in a release build the volume 2 is handed on as 2. -/
theorem set_playback_volume_does_not_clamp :
    set_playback_volume true (-1 / 2) = some [-1 / 2, -1 / 2]
    ∧ set_playback_volume false (-1 / 2) = some [-1 / 2, -1 / 2]
    ∧ clamp_volume (-1 / 2) = 0
    ∧ set_playback_volume true (-1 / 2) ≠ some [clamp_volume (-1 / 2), clamp_volume (-1 / 2)]
    ∧ set_playback_volume false 2 = some [2, 2]
    ∧ clamp_volume 2 = 1 := by
  have h1 : set_playback_volume true (-1 / 2) = some [-1 / 2, -1 / 2] := by
    unfold set_playback_volume
    norm_num
  have h2 : clamp_volume (-1 / 2) = 0 := by
    unfold clamp_volume
    norm_num
  refine ⟨h1, ?_, h2, ?_, ?_, ?_⟩
  · unfold set_playback_volume
    norm_num
  · rw [h1, h2]
    norm_num
  · unfold set_playback_volume
    norm_num
  · unfold clamp_volume
    norm_num

/-- C24, amended: for every requested volume v that is not above 1,
`set_playback_volume` hands the device v itself for both channels, in a debug
and in a release build; when v is also not below 0 this is v clamped to [0, 1].
Nothing is clamped. -/
theorem set_playback_volume_passes_through (debug : Bool) (v : ℚ) (h : v ≤ 1) :
    set_playback_volume debug v = some [v, v]
    ∧ (0 ≤ v → set_playback_volume debug v = some [clamp_volume v, clamp_volume v]) := by
  have h1 : set_playback_volume debug v = some [v, v] := by
    unfold set_playback_volume
    simp [h]
  refine ⟨h1, ?_⟩
  intro h0
  have hc : clamp_volume v = v := by
    unfold clamp_volume
    rw [min_eq_right h, max_eq_right h0]
  rw [hc, h1]

/-- C24, amended, at the volume 1/2 in a debug build. -/
theorem set_playback_volume_passes_through_witness :
    set_playback_volume true (1 / 2) = some [1 / 2, 1 / 2] :=
  (set_playback_volume_passes_through true (1 / 2) (by norm_num)).1

/-- C28 at a failing input: the needle `lo` occurs in the haystack `Hello`, yet
`string_contains` returns false, because after the partial match `l` it
restarts behind the second `l`; so `filter_tracks` with the query `lo` and all
tags selected leaves out the track titled `Hello`. The needle `ll` is found. -/
theorem string_contains_misses_occurrence :
    occurs_ignoring_case [72, 101, 108, 108, 111] [108, 111]
    ∧ string_contains [72, 101, 108, 108, 111] [108, 111] = false
    ∧ string_contains [72, 101, 108, 108, 111] [108, 108] = true
    ∧ get_library_string example_search_lib
        (example_search_lib.tracks.info.elements 0).title = [72, 101, 108, 108, 111]
    ∧ (filter_tracks example_search_lib example_search_lib.tracks [108, 111] 4294967295
        empty_tracks).count = 0 := by
  refine ⟨⟨[104, 101, 108], [], rfl⟩, by decide, by decide, by decide, by decide⟩

/-- C30 at a failing input: the queue 11, 22, 33, 44 is shuffled from index 2
on and `rand()` returns 0 twice. The entry at index 0, below `min_index`, is
exchanged with the entries at 2 and 3: the queue becomes 44, 22, 11, 33, each
identifier still with its record. In the same way `queue_tracks` with shuffle
enabled, adding 33 and 44 to the queue 11, 22, moves the queued track 11. -/
theorem shuffle_queue_moves_queued_prefix :
    example_ordered_playlist.tracks.ids.to_list = [11, 22, 33, 44]
    ∧ (shuffle_queue example_ordered_playlist.tracks 2 (fun _ => 0)).ids.to_list
        = [44, 22, 11, 33]
    ∧ (shuffle_queue example_ordered_playlist.tracks 2 (fun _ => 0)).info.to_list
        = [⟨0, 0, 0, 4⟩, ⟨0, 0, 0, 2⟩, ⟨0, 0, 0, 1⟩, ⟨0, 0, 0, 3⟩]
    ∧ (shuffle_queue example_ordered_playlist.tracks 2 (fun _ => 0)).ids.elements 0
        ≠ example_ordered_playlist.tracks.ids.elements 0
    ∧ example_queue.ids.to_list = [11, 22]
    ∧ (queue_tracks example_queue true (fun _ => 0) example_ordered_playlist.tracks 2
        2).2.ids.to_list = [44, 22, 11, 33] := by
  refine ⟨by decide, by decide, by decide, by decide, by decide, by decide⟩

/-- C27 at two failing inputs, over the four-track library. The playlist 415,
478, 462, 419 is consistent with its resolved collection; after
`remove_range(0, 0)` the resolved collection is 478, 462, 419 but the identifier
list is 419, 478, 462. The playlist 415, 478, 462, 7 (7 does not resolve) is
consistent; after `remove(0)` the resolved collection is 462, 478 but the
identifier list is 7, 478, 462. In both cases the relation is lost and
`update_tracks` puts the resolved collection into another order. -/
theorem playlist_removal_loses_cache_consistency :
    cache_consistent example_lib4 example_cached_playlist
    ∧ (example_cached_playlist.remove_range 0 0).tracks.ids.to_list = [478, 462, 419]
    ∧ (example_cached_playlist.remove_range 0 0).track_ids.to_list = [419, 478, 462]
    ∧ ¬ cache_consistent example_lib4 (example_cached_playlist.remove_range 0 0)
    ∧ ((example_cached_playlist.remove_range 0 0).update_tracks example_ext
        example_lib4).tracks.ids.to_list = [419, 478, 462]
    ∧ cache_consistent example_lib4 example_dangling_playlist
    ∧ (example_dangling_playlist.remove 0).tracks.ids.to_list = [462, 478]
    ∧ (example_dangling_playlist.remove 0).track_ids.to_list = [7, 478, 462]
    ∧ ¬ cache_consistent example_lib4 (example_dangling_playlist.remove 0)
    ∧ ((example_dangling_playlist.remove 0).update_tracks example_ext
        example_lib4).tracks.ids.to_list = [478, 462] := by
  unfold cache_consistent
  refine ⟨by decide, by decide, by decide, by decide, by decide, by decide, by decide,
    by decide, by decide, by decide⟩

theorem id3_frame_id_ok_eq_zero (frame_id : List Nat) : id3_frame_id_ok frame_id = 0 := by
  unfold id3_frame_id_ok
  have hr4 : List.range 4 = [0, 1, 2, 3] := by decide
  rw [hr4]
  simp only [List.foldl_cons, List.foldl_nil, Nat.zero_and]

theorem read_id3_frames_done (data : Nat → Nat) (size artist_max title_max frame_data : Nat)
    (artist title : List Nat) (h : ¬ frame_data < size) :
    read_id3_frames data size artist_max title_max frame_data artist title
      = (true, artist, title) := by
  rw [read_id3_frames, if_neg h]

theorem read_id3_frames_unrelated (data : Nat → Nat)
    (size artist_max title_max frame_data : Nat) (artist title : List Nat)
    (h : frame_data < size)
    (h1 : (read_bytes data frame_data 10).take 4 ≠ TIT2)
    (h2 : (read_bytes data frame_data 10).take 4 ≠ TPE1) :
    read_id3_frames data size artist_max title_max frame_data artist title
      = (true, artist, title) := by
  rw [read_id3_frames, if_pos h]
  simp only
  split
  · rename_i e1
    simp [read_id3_association, h1] at e1
  · rename_i w1 title1 e1
    simp only [read_id3_association, if_neg h1, Option.some.injEq, Prod.mk.injEq] at e1
    obtain ⟨rfl, rfl⟩ := e1
    split
    · rename_i e2
      simp [read_id3_association, h2] at e2
    · rename_i w2 artist2 e2
      simp only [read_id3_association, if_neg h2, Option.some.injEq, Prod.mk.injEq] at e2
      obtain ⟨rfl, rfl⟩ := e2
      simp only [id3_frame_id_ok_eq_zero, if_true]

theorem read_id3_frames_title (data : Nat → Nat)
    (size artist_max title_max frame_data : Nat) (artist title : List Nat)
    (h : frame_data < size)
    (h1 : (read_bytes data frame_data 10).take 4 = TIT2) :
    read_id3_frames data size artist_max title_max frame_data artist title
      = if u32_sub (synch_safe_integer (reverse_endian (u32_of_bytes
            (((read_bytes data frame_data 10).drop 4).take 4)))) 1 ≥ title_max then
          (false, artist, title)
        else
          read_id3_frames data size artist_max title_max
            (frame_data + 10 + 1 + u32_sub (synch_safe_integer (reverse_endian (u32_of_bytes
              (((read_bytes data frame_data 10).drop 4).take 4)))) 1)
            artist
            ((memcpy title (read_bytes data (frame_data + 10 + 1)
                (u32_sub (synch_safe_integer (reverse_endian (u32_of_bytes
                  (((read_bytes data frame_data 10).drop 4).take 4)))) 1))).set
              (u32_sub (synch_safe_integer (reverse_endian (u32_of_bytes
                (((read_bytes data frame_data 10).drop 4).take 4)))) 1) 0) := by
  have hne : TIT2 ≠ TPE1 := by decide
  rw [read_id3_frames, if_pos h]
  simp only
  split
  · rename_i e1
    simp only [read_id3_association, h1, if_true] at e1
    split at e1
    · rename_i c
      rw [if_pos c]
    · cases e1
  · rename_i w1 title1 e1
    simp only [read_id3_association, h1, if_true] at e1
    split at e1
    · cases e1
    · rename_i c
      simp only [Option.some.injEq, Prod.mk.injEq] at e1
      obtain ⟨rfl, rfl⟩ := e1
      rw [if_neg c]
      split
      · rename_i e2
        simp [read_id3_association, h1, hne] at e2
      · rename_i w2 artist2 e2
        simp only [read_id3_association, h1, if_neg hne, Option.some.injEq,
          Prod.mk.injEq] at e2
        obtain ⟨rfl, rfl⟩ := e2
        simp

theorem read_id3_frames_artist (data : Nat → Nat)
    (size artist_max title_max frame_data : Nat) (artist title : List Nat)
    (h : frame_data < size)
    (h1 : (read_bytes data frame_data 10).take 4 = TPE1) :
    read_id3_frames data size artist_max title_max frame_data artist title
      = if u32_sub (synch_safe_integer (reverse_endian (u32_of_bytes
            (((read_bytes data frame_data 10).drop 4).take 4)))) 1 ≥ artist_max then
          (false, artist, title)
        else
          read_id3_frames data size artist_max title_max
            (frame_data + 10 + 1 + u32_sub (synch_safe_integer (reverse_endian (u32_of_bytes
              (((read_bytes data frame_data 10).drop 4).take 4)))) 1)
            ((memcpy artist (read_bytes data (frame_data + 10 + 1)
                (u32_sub (synch_safe_integer (reverse_endian (u32_of_bytes
                  (((read_bytes data frame_data 10).drop 4).take 4)))) 1))).set
              (u32_sub (synch_safe_integer (reverse_endian (u32_of_bytes
                (((read_bytes data frame_data 10).drop 4).take 4)))) 1) 0)
            title := by
  have hne : TPE1 ≠ TIT2 := by decide
  rw [read_id3_frames, if_pos h]
  simp only
  split
  · rename_i e1
    simp [read_id3_association, h1, hne] at e1
  · rename_i w1 title1 e1
    simp only [read_id3_association, h1, if_neg hne, Option.some.injEq, Prod.mk.injEq] at e1
    obtain ⟨rfl, rfl⟩ := e1
    split
    · rename_i e2
      simp only [read_id3_association, h1, if_true] at e2
      split at e2
      · rename_i c
        rw [if_pos c]
      · cases e2
    · rename_i w2 artist2 e2
      simp only [read_id3_association, h1, if_true] at e2
      split at e2
      · cases e2
      · rename_i c
        simp only [Option.some.injEq, Prod.mk.injEq] at e2
        obtain ⟨rfl, rfl⟩ := e2
        rw [if_neg c]
        simp

/-- C29 at a failing input: the tag holds the well-formed frame `TALB` in front
of the frame `TIT2` with the value `Song`. `read_id3_tags` returns true with
the title buffer untouched: the walk ends at the `TALB` frame, because `ok`
starts as 0 and stays 0. From the tag that holds the `TIT2` frame alone the
title `Song` is extracted. -/
theorem read_id3_tags_stops_at_unrelated_frame :
    read_id3_tags (List.replicate 10 0) (List.replicate 8 0) (fun _ => 0)
        example_id3_album_title (List.replicate 128 0) 128 (List.replicate 128 0) 128
      = (true, List.replicate 128 0, List.replicate 128 0)
    ∧ read_id3_tags (List.replicate 10 0) (List.replicate 8 0) (fun _ => 0)
        example_id3_title (List.replicate 128 0) 128 (List.replicate 128 0) 128
      = (true, List.replicate 128 0, [83, 111, 110, 103] ++ List.replicate 124 0)
    ∧ id3_frame_id_ok [84, 65, 76, 66] = 0 := by
  refine ⟨?_, ?_, by decide⟩
  · unfold read_id3_tags
    simp only []
    rw [if_neg (by decide)]
    exact read_id3_frames_unrelated _ _ _ _ _ _ _ (by decide) (by decide) (by decide)
  · unfold read_id3_tags
    simp only []
    rw [if_neg (by decide), read_id3_frames_title _ _ _ _ _ _ _ (by decide) (by decide),
      if_neg (by decide), read_id3_frames_done _ _ _ _ _ _ _ (by decide)]
    refine congrArg (fun t => (true, List.replicate 128 0, t)) ?_
    decide

/-- C25 at a failing input: the tag holds a frame `TALB` in front of a frame
`TIT2` whose value has 128 bytes, as many as the title buffer. `read_id3_tags`
returns true, not false: the walk ends at the `TALB` frame and never meets the
oversized value. With the same `TIT2` frame alone in the tag it returns false
and writes nothing. -/
theorem read_id3_tags_accepts_oversized_title :
    read_id3_tags (List.replicate 10 0) (List.replicate 8 0) (fun _ => 0)
        example_id3_album_long_title (List.replicate 128 0) 128 (List.replicate 128 0) 128
      = (true, List.replicate 128 0, List.replicate 128 0)
    ∧ read_id3_tags (List.replicate 10 0) (List.replicate 8 0) (fun _ => 0)
        example_id3_long_title (List.replicate 128 0) 128 (List.replicate 128 0) 128
      = (false, List.replicate 128 0, List.replicate 128 0) := by
  constructor
  · unfold read_id3_tags
    simp only []
    rw [if_neg (by decide)]
    exact read_id3_frames_unrelated _ _ _ _ _ _ _ (by decide) (by decide) (by decide)
  · unfold read_id3_tags
    simp only []
    rw [if_neg (by decide), read_id3_frames_title _ _ _ _ _ _ _ (by decide) (by decide),
      if_pos (by decide)]

/-- A file that does not start with `RIFF` is rejected, whatever follows. -/
theorem open_wav_rejects_other_signature (rounds : Nat) (file header chunk fmt : List Nat)
    (sample_size : Nat) (h : (fread header file).1.take 4 ≠ [82, 73, 70, 70]) :
    open_wav rounds (some file) header chunk fmt sample_size = Open_Outcome.returned false := by
  unfold open_wav fread_at
  simp only [List.drop_zero]
  rw [if_pos h]

/-- C26 at a failing input: a RIFF file whose `fmt ` chunk declares one channel
and 4 bits per sample, followed by a `data` chunk. `open_wav` does not return
failure: the sample size is 4 / 8 = 0 and the division at the `data` chunk comes
before the test of the channel count. With 16 bits per sample the mono file is
rejected and the stereo file is accepted. -/
theorem open_wav_divides_by_zero (rounds : Nat) :
    open_wav (rounds + 2) (some (example_wav 1 4)) (List.replicate 12 0)
        (List.replicate 8 0) (List.replicate 16 0) 0 = Open_Outcome.divide_by_zero
    ∧ open_wav (rounds + 2) (some (example_wav 1 16)) (List.replicate 12 0)
        (List.replicate 8 0) (List.replicate 16 0) 0 = Open_Outcome.returned false
    ∧ open_wav (rounds + 2) (some (example_wav 2 16)) (List.replicate 12 0)
        (List.replicate 8 0) (List.replicate 16 0) 0 = Open_Outcome.returned true := by
  refine ⟨?_, ?_, ?_⟩ <;>
  · unfold open_wav
    simp only []
    rw [if_neg (by decide)]
    rw [open_wav_loop]
    simp only []
    rw [if_pos (by decide)]
    rw [open_wav_loop]
    simp only []
    rw [if_neg (by decide), if_pos (by decide)]
    decide

/-- C10, amended: for every library and every source path that does not exist
(for NULL, the stored base path), `update_library` returns false and writes no
library file, and the library is left as the resets at the start of the
function make it: no tracks, and a string pool that holds the single byte of
the empty string. -/
theorem update_library_failed_scan (ext : External) (found : Option (List Find_Data))
    (source_path : Option (List Nat)) (lib : Library)
    (h : ext.path_exists_w (source_path.getD lib.base_path) = false) :
    (update_library ext found source_path lib).1 = false
    ∧ (update_library ext found source_path lib).2.2 = none
    ∧ (update_library ext found source_path lib).2.1.tracks.count = 0
    ∧ (update_library ext found source_path lib).2.1.tracks.ids.to_list = []
    ∧ (update_library ext found source_path lib).2.1.tracks.info.to_list = []
    ∧ (update_library ext found source_path lib).2.1.string_pool.to_list = [0] := by
  have hres : update_library ext found source_path lib
      = (false, update_library_reset lib, none) := by
    cases source_path with
    | none =>
      have h1 : ext.path_exists_w (update_library_reset lib).base_path = false := h
      unfold update_library
      simp only
      rw [if_pos h1]
    | some p =>
      have h1 : ext.path_exists_w p = false := h
      unfold update_library
      simp only
      rw [if_pos h1]
  rw [hres]
  refine ⟨rfl, rfl, rfl, rfl, rfl, ?_⟩
  obtain ⟨_, p2, _⟩ := Large_Auto_Array.push_offset_n_fst 1 lib.string_pool.reset 1
  have hc : (update_library_reset lib).string_pool.count = 1 := by
    show (Large_Auto_Array.push_offset_n 1 lib.string_pool.reset 1).1.count = 1
    rw [p2]
    rfl
  have he : (update_library_reset lib).string_pool.elements 0 = 0 := by
    unfold update_library_reset
    simp only [Function.update_same]
  unfold Large_Auto_Array.to_list
  simp only
  rw [hc]
  have hr1 : List.range 1 = [0] := by decide
  rw [hr1, List.map_cons, List.map_nil, he]

/-- C10, amended, on the example library and the missing path `D:\`. -/
theorem update_library_failed_scan_witness :
    (update_library example_ext none (some [68, 58, 92]) example_lib).1 = false
    ∧ (update_library example_ext none (some [68, 58, 92]) example_lib).2.1.tracks.count = 0 :=
  ⟨(update_library_failed_scan example_ext none (some [68, 58, 92]) example_lib
      (by decide)).1,
    (update_library_failed_scan example_ext none (some [68, 58, 92]) example_lib
      (by decide)).2.2.1⟩

end Verata
